import Mathlib

/-!
Tacent View: resize dialogs and command-line operations.

A shallow embedding of `Src/Resize.cpp`, of the System tab of
`Src/Preferences.cpp`, of the overlay placement of `Src/Details.cpp` and of
the declarations of `Src/CommandOps.h`.

Conventions of the embedding.

* One call of a dialog function is one pass of the immediate-mode GUI. What
  the user does during the pass is an explicit input record; the function's
  statics and the profile are explicit state that is passed in and returned.
* What a pass does to `CurrImage` and to the popup is returned as a list of
  `Effect`s, in program order.
* `int` is `Int`; where the sources multiply two `int`s the result is wrapped
  to 32 bits. `float` is `ℚ`, so float arithmetic is exact, and the
  conversion `int(x)` truncates toward zero.
* Small helpers of the Tacent and ImGui libraries (`tiClamp`, `Checkbox`,
  `InputInt`, `Combo`) are modelled by what they do to their arguments. What
  else the sources use but do not define (`tNextLowerPower2`, `tFloatToInt`,
  `MaxDim`, the component bits, the aspect ratio queries of the profile) is a
  parameter of the function that uses it; the concrete readings given for
  some of them serve only to evaluate a function on a concrete input.
* The constructors of `CommandOps.h` and the pipeline that runs the
  operations are declared or used by the sources but not defined there; they
  are modelled from the specification and marked so.
-/

namespace Viewer

/-! ## Data model -/

/-- Byte colour `tColour4b`: four channels. -/
structure tColour4b where
  R : Nat
  G : Nat
  B : Nat
  A : Nat
deriving DecidableEq, Repr

/-- The constant `tColour4b::black`: opaque black. -/
def tColour4b.black : tColour4b := ⟨0, 0, 0, 255⟩

/-- The constant `tColour4b::transparent`: black with zero alpha ("transparent
black" in the tooltip of `DoFillColourInterface`). -/
def tColour4b.transparent : tColour4b := ⟨0, 0, 0, 0⟩

/-- The fields of `Config::ProfileData` that `Resize.cpp` reads or writes. -/
structure ProfileData where
  CropAnchor : Int
  FillColour : tColour4b
  FillColourContact : tColour4b
  ResampleFilter : Int
  ResampleEdgeMode : Int
  ResizeAspectRatio : Int
  ResizeAspectUserNum : Int
  ResizeAspectUserDen : Int
  ResizeAspectMode : Int
deriving DecidableEq, Repr

/-- The globals of the viewer that the dialogs read: the cursor position, the
colour under the cursor, and pixel (0,0) of the current picture when there is
a current picture. -/
structure Globals where
  CursorX : Int
  CursorY : Int
  PixelColour : tColour4b
  OriginPixel : Option tColour4b
deriving DecidableEq, Repr

/-- What a pass does to the current image and to the popup, one constructor
per call made by the dialogs. `CropOrigin` is `Image::Crop` with an explicit
origin, `CropAnchored` is `Image::Crop` with a `tPicture::Anchor`. -/
inductive Effect where
  | Unbind
  | Bind
  | Resample (w h : Int) (filter edgeMode : Int)
  | CropOrigin (w h originX originY : Int) (fill : tColour4b)
  | CropAnchored (w h : Int) (anchor : Int) (fill : tColour4b)
  | Deborder (colour : tColour4b) (channels : Nat)
  | SetWindowTitle
  | ZoomDownscaleOnly
  | CloseCurrentPopup
deriving DecidableEq, Repr

/-! ## Library helpers -/

/-- `ImGui::Checkbox(label, &v)`: a click flips `v`; the call returns whether
it was clicked. The pair is (return value, new `v`). -/
def Checkbox (clicked v : Bool) : Bool × Bool :=
  (clicked, if clicked then !v else v)

/-- `ImGui::InputInt(label, &v)`: `some x` is an edit that leaves `x` in the
field; the call returns whether the field was edited. The pair is (return
value, new `v`). -/
def InputInt (edit : Option Int) (v : Int) : Bool × Int :=
  match edit with
  | some x => (true, x)
  | none => (false, v)

/-- `ImGui::Combo(label, &v, ...)`: `some i` is a new selection. -/
def Combo (sel : Option Int) (v : Int) : Int :=
  match sel with
  | some i => i
  | none => v

/-- `tMath::tiClamp(v, lo, hi)`: clamp in place. -/
def tiClamp (v lo hi : Int) : Int :=
  if v < lo then lo else if v > hi then hi else v

/-- `tMath::tiClampMin(v, lo)`: clamp from below in place. -/
def tiClampMin (v lo : Int) : Int :=
  if v < lo then lo else v

/-- The C++ conversion `int(x)` of a float: truncation toward zero. -/
def floatToInt (x : ℚ) : Int :=
  Int.tdiv x.num (x.den : Int)

/-- Two's-complement wrap of a 32-bit `int` result. -/
def wrapInt32 (x : Int) : Int :=
  (x + 2147483648) % 4294967296 - 2147483648

/-! ## Fill colour interface (Resize.cpp 238-278) -/

/-- User input to one pass of `DoFillColourInterface`: the colour left by the
colour editor when it was used, and the three buttons. -/
structure FillInput where
  edit : Option tColour4b
  origin : Bool
  cursor : Bool
  reset : Bool
deriving DecidableEq, Repr

/-- No interaction with the fill colour interface. -/
def FillInput.idle : FillInput := ⟨none, false, false, false⟩

/-- `Viewer::DoFillColourInterface`. The colour goes through the editor (an
unused editor gives the colour back), then the Origin, Cursor and Reset
buttons are handled in that order. Returns the profile with the chosen fill
colour field updated. -/
def DoFillColourInterface (g : Globals) (inp : FillInput) (contactSheetFillColour : Bool)
    (profile : ProfileData) : ProfileData :=
  let floatCol := if contactSheetFillColour then profile.FillColourContact else profile.FillColour
  let floatCol := match inp.edit with
    | some c => c
    | none => floatCol
  let fillColour := floatCol
  let fillColour := match inp.origin, g.OriginPixel with
    | true, some px => px
    | _, _ => fillColour
  let fillColour := if inp.cursor then g.PixelColour else fillColour
  let fillColour :=
    if inp.reset then
      (if contactSheetFillColour then tColour4b.transparent else tColour4b.black)
    else fillColour
  if contactSheetFillColour then { profile with FillColourContact := fillColour }
  else { profile with FillColour := fillColour }

/-! ## Remove Borders tab (Resize.cpp 449-513) -/

/-- The four static checkbox values of `DoResizeCanvasRemoveBordersTab`. -/
structure BorderChannels where
  channelR : Bool
  channelG : Bool
  channelB : Bool
  channelA : Bool
deriving DecidableEq, Repr

/-- The initial values of the statics: all four channels selected. -/
def BorderChannels.init : BorderChannels := ⟨true, true, true, true⟩

/-- At least one channel is selected. -/
def BorderChannels.anySelected (c : BorderChannels) : Bool :=
  c.channelR || c.channelG || c.channelB || c.channelA

/-- The component bits `tCompBit_R`, `tCompBit_G`, `tCompBit_B`, `tCompBit_A`. -/
structure CompBits where
  R : Nat
  G : Nat
  B : Nat
  A : Nat
deriving DecidableEq, Repr

/-- The channel mask built when Remove is pressed (Resize.cpp 500-504). -/
def channelMask (bits : CompBits) (c : BorderChannels) : Nat :=
  (if c.channelR then bits.R else 0) |||
  (if c.channelG then bits.G else 0) |||
  (if c.channelB then bits.B else 0) |||
  (if c.channelA then bits.A else 0)

/-- User input to one pass of `DoResizeCanvasRemoveBordersTab`. -/
structure BordersInput where
  clickR : Bool
  clickG : Bool
  clickB : Bool
  clickA : Bool
  fill : FillInput
  reset : Bool
  cancel : Bool
  remove : Bool
deriving DecidableEq, Repr

/-- The four checkboxes of the tab (Resize.cpp 457-468): each click flips its
channel, and a click that leaves all four off turns its channel back on. -/
def borderCheckboxes (inp : BordersInput) (c : BorderChannels) : BorderChannels :=
  let r := Checkbox inp.clickR c.channelR
  let c := { c with channelR := r.2 }
  let c := if r.1 && !c.channelR && !c.channelG && !c.channelB && !c.channelA
    then { c with channelR := true } else c
  let r := Checkbox inp.clickG c.channelG
  let c := { c with channelG := r.2 }
  let c := if r.1 && !c.channelR && !c.channelG && !c.channelB && !c.channelA
    then { c with channelG := true } else c
  let r := Checkbox inp.clickB c.channelB
  let c := { c with channelB := r.2 }
  let c := if r.1 && !c.channelR && !c.channelG && !c.channelB && !c.channelA
    then { c with channelB := true } else c
  let r := Checkbox inp.clickA c.channelA
  let c := { c with channelA := r.2 }
  let c := if r.1 && !c.channelR && !c.channelG && !c.channelB && !c.channelA
    then { c with channelA := true } else c
  c

/-- `Viewer::DoResizeCanvasRemoveBordersTab`: the checkboxes, the fill colour
interface, then the Reset, Cancel and Remove buttons. Returns the statics,
the profile and the effects of the pass. -/
def DoResizeCanvasRemoveBordersTab (bits : CompBits) (g : Globals) (inp : BordersInput)
    (c : BorderChannels) (profile : ProfileData) :
    BorderChannels × ProfileData × List Effect :=
  let c := borderCheckboxes inp c
  let profile := DoFillColourInterface g inp.fill false profile
  let profile := if inp.reset then { profile with FillColour := g.PixelColour } else profile
  let c := if inp.reset then BorderChannels.init else c
  let fx : List Effect := if inp.cancel then [Effect.CloseCurrentPopup] else []
  let fx := if inp.remove then
      fx ++ [Effect.Unbind, Effect.Deborder profile.FillColour (channelMask bits c), Effect.Bind,
        Effect.SetWindowTitle, Effect.ZoomDownscaleOnly, Effect.CloseCurrentPopup]
    else fx
  (c, profile, fx)

/-- The statics of the Remove Borders tab after a sequence of passes. -/
def bordersRun (bits : CompBits) (g : Globals) :
    List BordersInput → BorderChannels → ProfileData → BorderChannels × ProfileData
  | [], c, profile => (c, profile)
  | inp :: rest, c, profile =>
    let r := DoResizeCanvasRemoveBordersTab bits g inp c profile
    bordersRun bits g rest r.1 r.2.1

/-! ## Width and height interface (Resize.cpp 42-90) -/

/-- User input to one pass of `DoResizeWidthHeightInterface`: an edit of the
Width field, the two width power-of-two buttons, a click on Lock Aspect, an
edit of the Height field, the two height power-of-two buttons. -/
structure WHInput where
  width : Option Int
  wLo : Bool
  wHi : Bool
  lockClicked : Bool
  height : Option Int
  hLo : Bool
  hHi : Bool
deriving DecidableEq, Repr

/-- No interaction with the width and height interface. -/
def WHInput.idle : WHInput := ⟨none, false, false, false, none, false, false⟩

/-- The state `DoResizeWidthHeightInterface` works on: its static `lockAspect`
(initially true) and the caller's `dstW`, `dstH`, passed by reference. -/
structure WHState where
  lockAspect : Bool
  dstW : Int
  dstH : Int
deriving DecidableEq, Repr

/-- Lines 44-78 of `DoResizeWidthHeightInterface`: the Width field, the first
clamp, the width power-of-two buttons, the Lock Aspect checkbox, the Height
field and the second clamp. `lo` and `hi` are `tNextLowerPower2` and
`tNextHigherPower2`, `MaxDim` is `Viewer::Image::MaxDim`. -/
def whUpToSecondClamp (lo hi : Int → Int) (MaxDim : Int) (inp : WHInput) (srcW srcH : Int)
    (s : WHState) : WHState :=
  let aspect : ℚ := (srcW : ℚ) / (srcH : ℚ)
  let lockAspect := s.lockAspect
  let r := InputInt inp.width s.dstW
  let dstW := r.2
  let dstH := if r.1 && lockAspect then floatToInt ((dstW : ℚ) / aspect) else s.dstH
  let dstW := tiClamp dstW 4 MaxDim
  let dstH := tiClamp dstH 4 MaxDim
  let loP2W := tiClampMin (lo dstW) 4
  let hiP2W := hi dstW
  let dstW := if inp.wLo then loP2W else dstW
  let dstH := if inp.wLo && lockAspect then floatToInt ((dstW : ℚ) / aspect) else dstH
  let dstW := if inp.wHi then hiP2W else dstW
  let dstH := if inp.wHi && lockAspect then floatToInt ((dstW : ℚ) / aspect) else dstH
  let c := Checkbox inp.lockClicked lockAspect
  let lockAspect := c.2
  let dstW := if c.1 && lockAspect then srcW else dstW
  let dstH := if c.1 && lockAspect then srcH else dstH
  let r := InputInt inp.height dstH
  let dstH := r.2
  let dstW := if r.1 && lockAspect then floatToInt ((dstH : ℚ) * aspect) else dstW
  let dstW := tiClamp dstW 4 MaxDim
  let dstH := tiClamp dstH 4 MaxDim
  ⟨lockAspect, dstW, dstH⟩

/-- `Viewer::DoResizeWidthHeightInterface`: lines 44-78, then the two height
power-of-two buttons (lines 80-86). -/
def DoResizeWidthHeightInterface (lo hi : Int → Int) (MaxDim : Int) (inp : WHInput)
    (srcW srcH : Int) (s : WHState) : WHState :=
  let aspect : ℚ := (srcW : ℚ) / (srcH : ℚ)
  let s := whUpToSecondClamp lo hi MaxDim inp srcW srcH s
  let lockAspect := s.lockAspect
  let dstW := s.dstW
  let dstH := s.dstH
  let loP2H := tiClampMin (lo dstH) 4
  let hiP2H := hi dstH
  let dstH := if inp.hLo then loP2H else dstH
  let dstW := if inp.hLo && lockAspect then floatToInt ((dstH : ℚ) * aspect) else dstW
  let dstH := if inp.hHi then hiP2H else dstH
  let dstW := if inp.hHi && lockAspect then floatToInt ((dstH : ℚ) * aspect) else dstW
  ⟨lockAspect, dstW, dstH⟩

/-- The library helper `tNextLowerPower2`, which is not part of the sources,
read by its name: the greatest power of two below `v`, and 1 when there is
none. Used only to evaluate the interface on concrete inputs. -/
def tNextLowerPower2 (v : Int) : Int :=
  if v ≤ 1 then 1 else 2 ^ Nat.log 2 (v.toNat - 1)

/-- The library helper `tNextHigherPower2`, which is not part of the sources,
read by its name: the least power of two above `v`. Used only to evaluate the
interface on concrete inputs. -/
def tNextHigherPower2 (v : Int) : Int :=
  if v < 1 then 1 else 2 ^ (Nat.log 2 v.toNat + 1)

/-! ## Filter interface (Resize.cpp 93-110) -/

/-- User input to one pass of `DoResizeFilterInterface`: new selections in
the Filter and Edges combos. -/
structure FilterInput where
  filter : Option Int
  edges : Option Int
deriving DecidableEq, Repr

/-- `Viewer::DoResizeFilterInterface`: nothing is shown when the dimensions
match the source; otherwise the two combos edit the profile. -/
def DoResizeFilterInterface (inp : FilterInput) (srcW srcH dstW dstH : Int)
    (profile : ProfileData) : ProfileData :=
  if dstW = srcW ∧ dstH = srcH then profile
  else
    let profile := { profile with ResampleFilter := Combo inp.filter profile.ResampleFilter }
    { profile with ResampleEdgeMode := Combo inp.edges profile.ResampleEdgeMode }

/-! ## Anchor interface (Resize.cpp 113-212) -/

/-- The values of `tPicture::Anchor`, in the order of the `longNames` table:
TL, TM, TR, ML, MM, MR, BL, BM, BR are 0 to 8. -/
def Anchor.TL : Int := 0
/-- Anchor top-middle. -/
def Anchor.TM : Int := 1
/-- Anchor top-right. -/
def Anchor.TR : Int := 2
/-- Anchor middle-left. -/
def Anchor.ML : Int := 3
/-- Anchor middle. -/
def Anchor.MM : Int := 4
/-- Anchor middle-right. -/
def Anchor.MR : Int := 5
/-- Anchor bottom-left. -/
def Anchor.BL : Int := 6
/-- Anchor bottom-middle. -/
def Anchor.BM : Int := 7
/-- Anchor bottom-right. -/
def Anchor.BR : Int := 8

/-- User input to one pass of `DoResizeAnchorInterface`: which of the nine
anchor buttons are pressed. -/
structure AnchorInput where
  TL : Bool
  TM : Bool
  TR : Bool
  ML : Bool
  MM : Bool
  MR : Bool
  BL : Bool
  BM : Bool
  BR : Bool
deriving DecidableEq, Repr

/-- No anchor button pressed. -/
def AnchorInput.idle : AnchorInput :=
  ⟨false, false, false, false, false, false, false, false, false⟩

/-- One anchor button: `sel` is read before the button; a press deselects the
selected anchor (setting -1) and selects any other. -/
def anchorButton (pressed : Bool) (anchor : Int) (cropAnchor : Int) : Int :=
  let sel := cropAnchor == anchor
  if pressed then (if sel then -1 else anchor) else cropAnchor

/-- `Viewer::DoResizeAnchorInterface`: the nine buttons in program order. -/
def DoResizeAnchorInterface (inp : AnchorInput) (profile : ProfileData) : ProfileData :=
  let a := profile.CropAnchor
  let a := anchorButton inp.TL Anchor.TL a
  let a := anchorButton inp.TM Anchor.TM a
  let a := anchorButton inp.TR Anchor.TR a
  let a := anchorButton inp.ML Anchor.ML a
  let a := anchorButton inp.MM Anchor.MM a
  let a := anchorButton inp.MR Anchor.MR a
  let a := anchorButton inp.BL Anchor.BL a
  let a := anchorButton inp.BM Anchor.BM a
  let a := anchorButton inp.BR Anchor.BR a
  { profile with CropAnchor := a }

/-! ## DoResizeCrop (Resize.cpp 215-235) -/

/-- `Viewer::DoResizeCrop`. Nothing happens when the dimensions match the
source. Otherwise the image is unbound, cropped and bound again: with
`CropAnchor = -1` the origin is computed from the cursor position in 32-bit
`int` arithmetic with truncating division, otherwise the anchored crop is
used. The result is `none` when the origin computation divides by zero. -/
def DoResizeCrop (g : Globals) (profile : ProfileData) (srcW srcH dstW dstH : Int) :
    Option (List Effect) :=
  if dstW ≠ srcW ∨ dstH ≠ srcH then
    if profile.CropAnchor = -1 then
      if srcW = 0 ∨ srcH = 0 then none
      else
        let originX := wrapInt32 (Int.tdiv (wrapInt32 (g.CursorX * wrapInt32 (srcW - dstW))) srcW)
        let originY := wrapInt32 (Int.tdiv (wrapInt32 (g.CursorY * wrapInt32 (srcH - dstH))) srcH)
        some [Effect.Unbind, Effect.CropOrigin dstW dstH originX originY profile.FillColour,
          Effect.Bind, Effect.SetWindowTitle, Effect.ZoomDownscaleOnly]
    else
      some [Effect.Unbind, Effect.CropAnchored dstW dstH profile.CropAnchor profile.FillColour,
        Effect.Bind, Effect.SetWindowTitle, Effect.ZoomDownscaleOnly]
  else some []

/-! ## Resize Image modal (Resize.cpp 286-338) -/

/-- User input to one pass of `DoResizeImageModal`. `popupOpen` is the result
of `ImGui::BeginPopupModal`. -/
structure ImageModalInput where
  popupOpen : Bool
  wh : WHInput
  filter : FilterInput
  reset : Bool
  cancel : Bool
  resize : Bool
deriving DecidableEq, Repr

/-- Whether an effect is a call on `CurrImage`. -/
def Effect.onImage : Effect → Bool
  | Effect.Unbind => true
  | Effect.Bind => true
  | Effect.Resample _ _ _ _ => true
  | Effect.CropOrigin _ _ _ _ _ => true
  | Effect.CropAnchored _ _ _ _ => true
  | Effect.Deborder _ _ => true
  | Effect.SetWindowTitle => false
  | Effect.ZoomDownscaleOnly => false
  | Effect.CloseCurrentPopup => false

/-- `Viewer::DoResizeImageModal`. `s` holds the statics `lockAspect`, `dstW`
and `dstH` (initially true, 512, 512). When the popup is not open the
function returns at once. Returns the statics, the profile and the effects. -/
def DoResizeImageModal (lo hi : Int → Int) (MaxDim : Int) (inp : ImageModalInput)
    (resizeImagePressed : Bool) (srcW srcH : Int) (s : WHState) (profile : ProfileData) :
    WHState × ProfileData × List Effect :=
  if !inp.popupOpen then (s, profile, [])
  else
    let s := if resizeImagePressed then { s with dstW := srcW, dstH := srcH } else s
    let s := DoResizeWidthHeightInterface lo hi MaxDim inp.wh srcW srcH s
    let profile := DoResizeFilterInterface inp.filter srcW srcH s.dstW s.dstH profile
    let s := if inp.reset then { s with dstW := srcW, dstH := srcH } else s
    let fx : List Effect := if inp.cancel then [Effect.CloseCurrentPopup] else []
    let fx := if inp.resize then
        fx ++ (if s.dstW ≠ srcW ∨ s.dstH ≠ srcH then
            [Effect.Unbind,
              Effect.Resample s.dstW s.dstH profile.ResampleFilter profile.ResampleEdgeMode,
              Effect.Bind, Effect.SetWindowTitle, Effect.ZoomDownscaleOnly]
          else []) ++ [Effect.CloseCurrentPopup]
      else fx
    (s, profile, fx)

/-! ## Anchor tab (Resize.cpp 396-446) -/

/-- User input to one pass of `DoResizeCanvasAnchorTab`. -/
structure AnchorTabInput where
  wh : WHInput
  fill : FillInput
  anchor : AnchorInput
  reset : Bool
  cancel : Bool
  resize : Bool
deriving DecidableEq, Repr

/-- `Viewer::DoResizeCanvasAnchorTab`. `s` holds the statics `lockAspect`,
`dstW`, `dstH`. Returns `none` when `DoResizeCrop` divides by zero. -/
def DoResizeCanvasAnchorTab (lo hi : Int → Int) (MaxDim : Int) (g : Globals)
    (inp : AnchorTabInput) (firstOpen : Bool) (srcW srcH : Int) (s : WHState)
    (profile : ProfileData) : Option (WHState × ProfileData × List Effect) :=
  let s := if firstOpen then { s with dstW := srcW, dstH := srcH } else s
  let s := DoResizeWidthHeightInterface lo hi MaxDim inp.wh srcW srcH s
  let profile := if s.dstW > srcW ∨ s.dstH > srcH
    then DoFillColourInterface g inp.fill false profile else profile
  let profile := DoResizeAnchorInterface inp.anchor profile
  let profile := if inp.reset
    then { profile with CropAnchor := 4, FillColour := tColour4b.black } else profile
  let s := if inp.reset then { s with dstW := srcW, dstH := srcH } else s
  let fx : List Effect := if inp.cancel then [Effect.CloseCurrentPopup] else []
  if inp.resize then
    match DoResizeCrop g profile srcW srcH s.dstW s.dstH with
    | none => none
    | some cfx => some (s, profile, fx ++ cfx ++ [Effect.CloseCurrentPopup])
  else some (s, profile, fx)

/-! ## Aspect tab (Resize.cpp 516-616) -/

/-- What the Aspect tab takes from code outside the sources:
`profile.GetResizeAspectRatio() == tAspectRatio::User`, the value
`int(tAspectRatio::Screen_16_9)`, `profile.GetResizeAspectRatioFloat()` and
the helper `tFloatToInt`. -/
structure AspectLib where
  isUser : ProfileData → Bool
  Screen_16_9 : Int
  GetResizeAspectRatioFloat : ProfileData → ℚ
  tFloatToInt : ℚ → Int

/-- User input to one pass of `DoResizeCanvasAspectTab`. -/
structure AspectTabInput where
  ratio : Option Int
  num : Option Int
  den : Option Int
  mode : Option Int
  fill : FillInput
  anchor : AnchorInput
  reset : Bool
  cancel : Bool
  resize : Bool
deriving DecidableEq, Repr

/-- Lines 529-548 of `DoResizeCanvasAspectTab`: the Aspect combo and, when the
ratio is User, the two input fields followed by the clamp to 1..99. -/
def aspectRatioInputs (lib : AspectLib) (inp : AspectTabInput) (profile : ProfileData) :
    ProfileData :=
  let profile := { profile with ResizeAspectRatio := Combo inp.ratio profile.ResizeAspectRatio }
  if lib.isUser profile then
    let profile :=
      { profile with ResizeAspectUserNum := (InputInt inp.num profile.ResizeAspectUserNum).2 }
    let profile :=
      { profile with ResizeAspectUserDen := (InputInt inp.den profile.ResizeAspectUserDen).2 }
    let profile :=
      { profile with ResizeAspectUserNum := tiClamp profile.ResizeAspectUserNum 1 99 }
    { profile with ResizeAspectUserDen := tiClamp profile.ResizeAspectUserDen 1 99 }
  else profile

/-- Lines 573-581 of `DoResizeCanvasAspectTab`: the Reset button. -/
def aspectReset (lib : AspectLib) (profile : ProfileData) : ProfileData :=
  { profile with
    CropAnchor := 4
    FillColour := tColour4b.black
    ResizeAspectRatio := lib.Screen_16_9 - 1
    ResizeAspectUserNum := 16
    ResizeAspectUserDen := 9
    ResizeAspectMode := 0 }

/-- Lines 592-611 of `DoResizeCanvasAspectTab`: the destination width and
height of the Aspect resize, as the pair `(dstW, dstH)`. -/
def aspectDims (tFloatToInt : ℚ → Int) (ResizeAspectMode : Int) (srcW srcH : Int)
    (dstAspect : ℚ) : Int × Int :=
  let dstH := srcH
  let dstW := srcW
  let srcAspect : ℚ := (srcW : ℚ) / (srcH : ℚ)
  if ResizeAspectMode = 0 then
    if dstAspect > srcAspect then (dstW, tFloatToInt ((dstW : ℚ) / dstAspect))
    else if dstAspect < srcAspect then (tFloatToInt ((dstH : ℚ) * dstAspect), dstH)
    else (dstW, dstH)
  else
    if dstAspect > srcAspect then (tFloatToInt ((dstH : ℚ) * dstAspect), dstH)
    else if dstAspect < srcAspect then (dstW, tFloatToInt ((dstW : ℚ) / dstAspect))
    else (dstW, dstH)

/-- The profile of `DoResizeCanvasAspectTab` when the Resize button is
reached: after the ratio inputs, the Mode combo, the fill colour interface
(Letterbox only), the anchor interface and Reset. -/
def aspectTabProfile (lib : AspectLib) (g : Globals) (inp : AspectTabInput)
    (profile : ProfileData) : ProfileData :=
  let profile := aspectRatioInputs lib inp profile
  let profile := { profile with ResizeAspectMode := Combo inp.mode profile.ResizeAspectMode }
  let profile := if profile.ResizeAspectMode = 1
    then DoFillColourInterface g inp.fill false profile else profile
  let profile := DoResizeAnchorInterface inp.anchor profile
  if inp.reset then aspectReset lib profile else profile

/-- `Viewer::DoResizeCanvasAspectTab`. Returns the profile and the effects of
the pass, `none` when `DoResizeCrop` divides by zero. -/
def DoResizeCanvasAspectTab (lib : AspectLib) (g : Globals) (inp : AspectTabInput)
    (srcW srcH : Int) (profile : ProfileData) : Option (ProfileData × List Effect) :=
  let profile := aspectTabProfile lib g inp profile
  let fx : List Effect := if inp.cancel then [Effect.CloseCurrentPopup] else []
  if inp.resize then
    let d := aspectDims lib.tFloatToInt profile.ResizeAspectMode srcW srcH
      (lib.GetResizeAspectRatioFloat profile)
    match DoResizeCrop g profile srcW srcH d.1 d.2 with
    | none => none
    | some cfx => some (profile, fx ++ cfx ++ [Effect.CloseCurrentPopup])
  else some (profile, fx)

/-- Modelled from the spec: the helper `tFloatToInt` of the Tacent library,
which is not part of the sources. The spec asks for a target rectangle
matching the ratio; this reading is the plain conversion to `int`, which
truncates. -/
def tFloatToIntTrunc (x : ℚ) : Int := floatToInt x

/-- Modelled from the spec: the helper `tFloatToInt` of the Tacent library,
which is not part of the sources. The spec asks for a target rectangle
matching the ratio; this reading rounds to nearest, `int(x + 0.5f)`. -/
def tFloatToIntRound (x : ℚ) : Int := floatToInt (x + 1 / 2)

/-- Whether an effect is a call of `Image::Crop`, of either overload. -/
def Effect.isCrop : Effect → Bool
  | Effect.CropOrigin _ _ _ _ _ => true
  | Effect.CropAnchored _ _ _ _ => true
  | _ => false

/-- Whether an effect is the `Image::Crop` that takes an explicit origin. -/
def Effect.isCropOrigin : Effect → Bool
  | Effect.CropOrigin _ _ _ _ _ => true
  | _ => false

/-- Whether an effect is the `Image::Crop` that takes an anchor. -/
def Effect.isCropAnchored : Effect → Bool
  | Effect.CropAnchored _ _ _ _ => true
  | _ => false

/-- The width and height a `Crop` effect asks for. -/
def Effect.cropSize : Effect → Option (Int × Int)
  | Effect.CropOrigin w h _ _ _ => some (w, h)
  | Effect.CropAnchored w h _ _ => some (w, h)
  | _ => none

/-- The fill colour a `Crop` effect is given. -/
def Effect.cropFill : Effect → Option tColour4b
  | Effect.CropOrigin _ _ _ _ fill => some fill
  | Effect.CropAnchored _ _ _ fill => some fill
  | _ => none

/-- A profile with the values the Reset buttons and the declared defaults
give: middle anchor, black fill, 16:9 user ratio, Crop mode. Used to evaluate
the dialogs on concrete inputs. -/
def exampleProfile : ProfileData :=
  ⟨4, tColour4b.black, tColour4b.transparent, 0, 0, 0, 16, 9, 0⟩

/-- Globals with the cursor on pixel (0,0), used to evaluate the dialogs on
concrete inputs. -/
def exampleGlobals : Globals := ⟨0, 0, tColour4b.black, none⟩

/-- An instance of what the Aspect tab takes from outside the sources, used
to evaluate the tab on concrete inputs: every ratio index is read as User,
the ratio is `Num / Den`, `Screen_16_9` is an arbitrary index and
`tFloatToInt` rounds to nearest. -/
def exampleLib : AspectLib :=
  { isUser := fun _ => true
    Screen_16_9 := 1
    GetResizeAspectRatioFloat := fun p =>
      (p.ResizeAspectUserNum : ℚ) / (p.ResizeAspectUserDen : ℚ)
    tFloatToInt := tFloatToIntRound }

/-- An Aspect tab pass in which nothing is touched. -/
def AspectTabInput.idle : AspectTabInput :=
  ⟨none, none, none, none, FillInput.idle, AnchorInput.idle, false, false, false⟩

/-! ## Preferences window, System tab (Preferences.cpp 360-451) -/

/-- The fields of `Config::ProfileData` that the System tab reads or writes. -/
structure SystemProfile where
  MaxUndoSteps : Int
  MaxImageMemMB : Int
  MaxCacheFiles : Int
  MonitorGamma : ℚ
  StrictLoading : Bool
  MetaDataOrientLoading : Bool
  DetectAPNGInsidePNG : Bool
  MipmapChaining : Bool
  MipmapFilter : Int
deriving DecidableEq, Repr

/-- The enum `tSystem::tFileType`; the System tab tells JPG from the rest. -/
inductive tFileType where
  | JPG
  | other (id : Nat)
deriving DecidableEq, Repr

/-- What the System tab reads of a `Viewer::Image`: its file type, whether
its cached meta-data is valid, and whether the Orientation tag of that
meta-data is set. -/
structure Image where
  Filetype : tFileType
  MetaDataIsValid : Bool
  OrientationIsSet : Bool
deriving DecidableEq, Repr

/-- What a pass of the System tab does outside the profile: the file dialog
bookmarks are reset, the image at a position of `Images` is unloaded, the
current image is loaded. -/
inductive SysEffect where
  | ResetBookmarks
  | Unload (index : Nat)
  | LoadCurrent
deriving DecidableEq, Repr

/-- User input to one pass of the System tab: edits of the three integer
fields, the cache button, the bookmarks button, an edit of the gamma, clicks
on the four checkboxes and a selection in the Mip Filter combo. -/
structure SystemInput where
  maxUndoSteps : Option Int
  maxImageMemMB : Option Int
  maxCacheFiles : Option Int
  cacheButton : Bool
  resetBookmarks : Bool
  gamma : Option ℚ
  strictLoading : Bool
  orientLoading : Bool
  detectAPNG : Bool
  mipmapChaining : Bool
  mipmapFilter : Option Int
deriving DecidableEq, Repr

/-- No interaction with the System tab. -/
def SystemInput.idle : SystemInput :=
  ⟨none, none, none, false, false, none, false, false, false, false, none⟩

/-- The inner loop of Preferences.cpp 432-433: every image of the list is
unloaded, first to last. -/
def unloadAll (images : List Image) : List SysEffect :=
  (List.range images.length).map SysEffect.Unload

/-- The outer loop of Preferences.cpp 419-435, from the image at position `k`
on, `rest` being the images from there. A JPG is unloaded when its cached
meta-data is valid and has the Orientation tag set; at any other image the
inner loop unloads every image of the list, and the outer loop goes on. -/
def orientLoop (images : List Image) : Nat → List Image → List SysEffect
  | _, [] => []
  | k, i :: rest =>
    (if i.Filetype = tFileType.JPG then
        (if i.MetaDataIsValid && i.OrientationIsSet then [SysEffect.Unload k] else [])
      else unloadAll images)
    ++ orientLoop images (k + 1) rest

/-- Preferences.cpp 417-438: what a click on Meta Data Orient Loading does:
the loop over the images, then the current image is loaded. -/
def orientLoadingChanged (images : List Image) : List SysEffect :=
  orientLoop images 0 images ++ [SysEffect.LoadCurrent]

/-- The System tab of `Viewer::ShowPreferencesWindow` (Preferences.cpp
360-451). `deleteOnExit` is the global `DeleteAllCacheFilesOnExit`. Returns
the profile, that global and the effects of the pass. -/
def SystemTab (inp : SystemInput) (images : List Image) (deleteOnExit : Bool)
    (profile : SystemProfile) : SystemProfile × Bool × List SysEffect :=
  let profile :=
    { profile with MaxUndoSteps := (InputInt inp.maxUndoSteps profile.MaxUndoSteps).2 }
  let profile := { profile with MaxUndoSteps := tiClamp profile.MaxUndoSteps 1 32 }
  let profile :=
    { profile with MaxImageMemMB := (InputInt inp.maxImageMemMB profile.MaxImageMemMB).2 }
  let profile := { profile with MaxImageMemMB := tiClampMin profile.MaxImageMemMB 256 }
  let profile :=
    { profile with MaxCacheFiles := (InputInt inp.maxCacheFiles profile.MaxCacheFiles).2 }
  let profile := { profile with MaxCacheFiles := tiClampMin profile.MaxCacheFiles 200 }
  let deleteOnExit :=
    if !deleteOnExit then (if inp.cacheButton then true else deleteOnExit)
    else (if inp.cacheButton then false else deleteOnExit)
  let fx : List SysEffect := if inp.resetBookmarks then [SysEffect.ResetBookmarks] else []
  let profile := match inp.gamma with
    | some x => { profile with MonitorGamma := x }
    | none => profile
  let profile :=
    { profile with StrictLoading := (Checkbox inp.strictLoading profile.StrictLoading).2 }
  let c := Checkbox inp.orientLoading profile.MetaDataOrientLoading
  let profile := { profile with MetaDataOrientLoading := c.2 }
  let fx := if c.1 then fx ++ orientLoadingChanged images else fx
  let profile :=
    { profile with DetectAPNGInsidePNG := (Checkbox inp.detectAPNG profile.DetectAPNGInsidePNG).2 }
  let profile :=
    { profile with MipmapChaining := (Checkbox inp.mipmapChaining profile.MipmapChaining).2 }
  let profile := { profile with MipmapFilter := Combo inp.mipmapFilter profile.MipmapFilter }
  (profile, deleteOnExit, fx)


/-- Three JPG images, the second with a valid Orientation tag, used to
evaluate the System tab. -/
def exampleJpgs : List Image :=
  [⟨tFileType.JPG, true, false⟩, ⟨tFileType.JPG, true, true⟩, ⟨tFileType.JPG, false, false⟩]

/-- A profile of the System tab with every value inside its limit, used to
evaluate the tab. -/
def exampleSystemProfile : SystemProfile :=
  ⟨16, 2048, 8192, 11 / 5, false, true, true, true, 2⟩


/-! ## Image details overlay (Details.cpp 26-182) -/

/-- What `ShowImageDetailsOverlay` hands to `ImGui::SetNextWindowPos`: the
window position and the window pivot. -/
structure OverlayPlacement where
  posX : ℚ
  posY : ℚ
  pivotX : ℚ
  pivotY : ℚ
deriving DecidableEq, Repr

/-- Lines 29-41 of `ShowImageDetailsOverlay`: position and pivot of the
overlay in the area `(x, y, w, h)`; bit 0 of `OverlayCorner` selects the right
side and bit 1 the bottom, with a margin of 6. -/
def overlayPlacement (OverlayCorner : Int) (x y w h : ℚ) : OverlayPlacement :=
  let margin : ℚ := 6
  { posX := x + (if Int.land OverlayCorner 1 ≠ 0 then w - margin else margin)
    posY := y + (if Int.land OverlayCorner 2 ≠ 0 then h - margin else margin)
    pivotX := if Int.land OverlayCorner 1 ≠ 0 then 1 else 0
    pivotY := if Int.land OverlayCorner 2 ≠ 0 then 1 else 0 }

/-- User input to the context menu of the overlay: whether the menu is open,
and which of its items are chosen. -/
structure OverlayMenuInput where
  menuOpen : Bool
  topLeft : Bool
  topRight : Bool
  bottomLeft : Bool
  bottomRight : Bool
  close : Bool
deriving DecidableEq, Repr

/-- Lines 174-182 of `ShowImageDetailsOverlay`: the context menu. Each chosen
item stores its corner; Close clears `*popen` when `popen` is not null. The
pair is (`OverlayCorner`, `*popen`). -/
def overlayMenu (inp : OverlayMenuInput) (OverlayCorner : Int) (popen : Option Bool) :
    Int × Option Bool :=
  if inp.menuOpen then
    let c := OverlayCorner
    let c := if inp.topLeft then 0 else c
    let c := if inp.topRight then 1 else c
    let c := if inp.bottomLeft then 2 else c
    let c := if inp.bottomRight then 3 else c
    let popen := match popen with
      | some v => if inp.close then some false else some v
      | none => none
    (c, popen)
  else (OverlayCorner, popen)

/-- `Viewer::ShowImageDetailsOverlay`, as far as the placement goes.
`windowShown` is the result of `ImGui::Begin`. The window is placed from the
corner the profile holds on entry, then the context menu may store another
one. Returns the placement, `OverlayCorner` and `*popen`. -/
def ShowImageDetailsOverlay (windowShown : Bool) (inp : OverlayMenuInput) (popen : Option Bool)
    (x y w h : ℚ) (OverlayCorner : Int) : OverlayPlacement × Int × Option Bool :=
  let placement := overlayPlacement OverlayCorner x y w h
  if windowShown then
    let r := overlayMenu inp OverlayCorner popen
    (placement, r.1, r.2)
  else (placement, OverlayCorner, popen)

/-! ## Anchor names and single presses -/

/-- The table `longNames` of `DoResizeAnchorInterface` (Resize.cpp 116). -/
def longNames : List String :=
  ["Top-Left", "Top-Middle", "Top-Right", "Middle-Left", "Middle", "Middle-Right",
   "Bottom-Left", "Bottom-Middle", "Bottom-Right"]

/-- The text after "Anchor: " on Resize.cpp 121: "Cursor Position" for -1,
otherwise the entry of `longNames` at `CropAnchor`; `none` when the index is
outside the table. -/
def anchorLabel (CropAnchor : Int) : Option String :=
  if CropAnchor = -1 then some "Cursor Position"
  else if CropAnchor < 0 then none
  else longNames[CropAnchor.toNat]?

/-- The pass of the anchor interface in which the button of the anchor `k`
alone is pressed. -/
def AnchorInput.only (k : Int) : AnchorInput :=
  ⟨k == Anchor.TL, k == Anchor.TM, k == Anchor.TR, k == Anchor.ML, k == Anchor.MM,
   k == Anchor.MR, k == Anchor.BL, k == Anchor.BM, k == Anchor.BR⟩

/-- The explicit origin a `Crop` effect is given. -/
def Effect.cropOrigin : Effect → Option (Int × Int)
  | Effect.CropOrigin _ _ originX originY _ => some (originX, originY)
  | _ => none

/-- Whether a value is an `int` of 32 bits. -/
def fitsInt32 (x : Int) : Prop :=
  -2147483648 ≤ x ∧ x ≤ 2147483647


end Viewer

namespace Command

/-! ## Operations (CommandOps.h) -/

/-- The fifteen structs derived from `Operation` in CommandOps.h. -/
inductive OpKind where
  | Pixel | Resize | Canvas | Aspect | Deborder | Crop | Flip | Rotate | Levels
  | Contrast | Brightness | Quantize | Channel | Swizzle | Extract
deriving DecidableEq, Repr

/-- The two structs derived from `PostOperation` in CommandOps.h. -/
inductive PostKind where
  | Combine | Contact
deriving DecidableEq, Repr

/-- Either kind of operation. -/
inductive Kind where
  | op (k : OpKind)
  | post (k : PostKind)
deriving DecidableEq, Repr

/-- Every kind of operation: the fifteen per-image ones, then the two
post-operations. -/
def Kind.all : List Kind :=
  [.op .Pixel, .op .Resize, .op .Canvas, .op .Aspect, .op .Deborder, .op .Crop, .op .Flip,
   .op .Rotate, .op .Levels, .op .Contrast, .op .Brightness, .op .Quantize, .op .Channel,
   .op .Swizzle, .op .Extract, .post .Combine, .post .Contact]

/-- The declared initial value of `Operation::Valid` (CommandOps.h 33) and of
`PostOperation::Valid` (CommandOps.h 262): `bool Valid = false`. -/
def ValidInit : Kind → Bool
  | .op _ => false
  | .post _ => false

/-- One positional argument of an operation: whether it is Required, and
which tokens are syntactically valid for it. -/
structure ArgSpec where
  required : Bool
  valid : String → Bool

/-- The operation-specific part of argument parsing: the positional arguments
of each kind, and the invariant of each kind as a check on its tokens. -/
structure Grammar where
  args : Kind → List ArgSpec
  invariant : Kind → List String → Bool

/-- Modelled from the spec: the argument parsing of the constructors, whose
bodies are not part of the sources. Tokens are mapped positionally to the
fields; a Required field must be present and syntactically valid; an Optional
field keeps its default when its token is absent or unparsable; extra tokens
are ignored. The result says whether every Required argument parsed. -/
def parseRequired : List ArgSpec → List String → Bool
  | [], _ => true
  | a :: rest, [] => !a.required && parseRequired rest []
  | a :: rest, t :: ts => (!a.required || a.valid t) && parseRequired rest ts

/-- Whether a character delimits tokens: a comma or a space. -/
def isDelimiter (c : Char) : Bool := c == ',' || c == ' '

/-- The split of a list of characters at the delimiters; `cur` is the token
being read, in reverse. Empty tokens are dropped. -/
def splitTokens : List Char → List Char → List String
  | [], cur => if cur.isEmpty then [] else [String.mk cur.reverse]
  | c :: rest, cur =>
    if isDelimiter c then
      (if cur.isEmpty then splitTokens rest [] else String.mk cur.reverse :: splitTokens rest [])
    else splitTokens rest (c :: cur)

/-- Modelled from the spec: the split of the flat argument string of a
constructor, whose body is not part of the sources, into its ordered list of
comma- or space-delimited tokens. -/
def tokens (args : String) : List String :=
  splitTokens args.data []

/-- An operation or post-operation after construction: its kind, its tokens
and its `Valid` member. -/
structure Operation where
  kind : Kind
  args : List String
  Valid : Bool
deriving DecidableEq, Repr

/-- Modelled from the spec: the constructors `Operation...(const tString& args)`
and `PostOperation...(const tString& args)`, whose bodies are not part of the
sources. `Valid` starts at its declared initial value and becomes true only
if argument parsing succeeded and the invariant of the kind held. -/
def construct (grammar : Grammar) (k : Kind) (args : String) : Operation :=
  let valid := ValidInit k
  let valid :=
    if parseRequired (grammar.args k) (tokens args) && grammar.invariant k (tokens args)
    then true else valid
  { kind := k, args := tokens args, Valid := valid }

/-- Modelled from the spec: the construction of the pipeline, which is not
part of the sources. An operation marked invalid is never placed into the
pipeline. -/
def buildPipeline (ops : List Operation) : List Operation :=
  ops.filter (fun o => o.Valid)

/-- Modelled from the spec: one image run through the pipeline, which is not
part of the sources. Each operation of the pipeline is applied in order to the
output of the previous one; a failed `Apply` leaves the image to the next
operation. Returns the image and the operations `Apply` was called on. -/
def runPipeline {Img : Type} (apply : Operation → Img → Img × Bool) :
    List Operation → Img → Img × List Operation
  | [], img => (img, [])
  | o :: rest, img =>
    let r := runPipeline apply rest (apply o img).1
    (r.1, o :: r.2)

/-- Modelled from the spec: the batch driver, which is not part of the
sources. The operations are constructed and validated once, the pipeline of
the per-image operations is run on every image, then the post-operations of
the pipeline are applied to the whole list, unless that list is empty.
Returns the images and every operation `Apply` was called on. -/
def runBatch {Img : Type} (grammar : Grammar)
    (apply : Operation → Img → Img × Bool)
    (opArgs : List (OpKind × String)) (postArgs : List (PostKind × String))
    (images : List Img) : List Img × List Operation :=
  let ops := buildPipeline (opArgs.map (fun a => construct grammar (.op a.1) a.2))
  let posts := buildPipeline (postArgs.map (fun a => construct grammar (.post a.1) a.2))
  let runs := images.map (runPipeline apply ops)
  let out := runs.map (fun r => r.1)
  let applied := (runs.map (fun r => r.2)).flatten
  let appliedPost := if out.isEmpty then [] else posts
  (out, applied ++ appliedPost)

/-- The enum `OperationAspect::AspectMode`. -/
inductive AspectMode where
  | Crop | Letterbox
deriving DecidableEq, Repr

/-- The struct `OperationAspect` (CommandOps.h 75-88) with its declared
initial values; `Anchor` is `tPicture::Anchor::MiddleMiddle`. -/
structure OperationAspect where
  Valid : Bool := false
  Num : Int := 16
  Den : Int := 9
  Mode : AspectMode := AspectMode.Crop
  Anchor : Int := Viewer.Anchor.MM
  FillColour : Viewer.tColour4b := Viewer.tColour4b.black
  AnchorX : Int := -1
  AnchorY : Int := -1
deriving DecidableEq, Repr

/-- The value of a token of decimal digits. -/
def digitsValue (ds : List Char) : Nat :=
  ds.foldl (fun n c => 10 * n + (c.toNat - 48)) 0

/-- The integer a token reads as: digits, after an optional minus sign. -/
def parseInt (t : String) : Option Int :=
  match t.data with
  | [] => none
  | '-' :: ds => if !ds.isEmpty && ds.all Char.isDigit then some (-(digitsValue ds : Int)) else none
  | ds => if ds.all Char.isDigit then some (digitsValue ds : Int) else none

/-- Whether a token reads as a decimal integer. -/
def isIntToken (t : String) : Bool := (parseInt t).isSome

/-- A grammar used to evaluate the constructors on concrete argument strings:
Resize takes a Required width and height, both integers, then the Optional
filter and edge mode (CommandOps.h 52-55), and its invariant is that width and
height are at least 4; the other kinds take no Required argument. -/
def exampleGrammar : Grammar :=
  { args := fun k =>
      match k with
      | .op .Resize => [⟨true, isIntToken⟩, ⟨true, isIntToken⟩, ⟨false, fun _ => true⟩,
          ⟨false, fun _ => true⟩]
      | _ => []
    invariant := fun k ts =>
      match k, ts with
      | .op .Resize, w :: h :: _ =>
        (match parseInt w, parseInt h with
          | some a, some b => decide (4 ≤ a) && decide (4 ≤ b)
          | _, _ => false)
      | .op .Resize, _ => false
      | _, _ => true }

/-! ## Post-operation Combine (CommandOps.h 266-282) -/

/-- Modelled from the spec: the type `tMath::tInterval` of the Tacent
library, which is not part of the sources, as the spec uses it for frame
intervals: the integers from `A` to `B`, both bounds included. -/
structure tInterval where
  A : Int
  B : Int
deriving DecidableEq, Repr

/-- Whether a frame number lies in an interval, bounds included. -/
def tInterval.Contains (i : tInterval) (frameNum : Int) : Bool :=
  decide (i.A ≤ frameNum) && decide (frameNum ≤ i.B)

/-- The struct `PostOperationCombine::IntervalDurationPair`: a frame interval
and a duration in milliseconds. -/
structure IntervalDurationPair where
  FrameInterval : tInterval
  Duration : ℚ
deriving DecidableEq, Repr

/-- The struct `PostOperationCombine` with its declared initial values; an
empty `Durations` means the default duration is not overridden. -/
structure PostOperationCombine where
  Valid : Bool := false
  Durations : List IntervalDurationPair := []
  SubFolder : String := ""
  BaseName : String := ""
deriving DecidableEq, Repr

/-- The duration in seconds of the last pair of the list whose interval holds
the frame, when there is one. -/
def overrideDuration : List IntervalDurationPair → Int → Option ℚ
  | [], _ => none
  | p :: rest, frameNum =>
    match overrideDuration rest frameNum with
    | some d => some d
    | none => if p.FrameInterval.Contains frameNum then some (p.Duration / 1000) else none

/-- Modelled from the spec: `PostOperationCombine::GetFrameDuration`, declared
in CommandOps.h ("In seconds. Defaults to 33.0f/1000.0f.") and defined outside
the sources. A frame's duration is 33 ms unless its position falls inside one
of the configured overrides, in which case that override's duration applies,
the last matching one when several match. -/
def PostOperationCombine.GetFrameDuration (op : PostOperationCombine) (frameNum : Int) : ℚ :=
  match overrideDuration op.Durations frameNum with
  | some d => d
  | none => 33 / 1000

/-! ## Post-operation Contact (CommandOps.h 285-297) -/

/-- The struct `PostOperationContact` with its declared initial values. -/
structure PostOperationContact where
  Valid : Bool := false
  Columns : Int := 0
  Rows : Int := 0
  FillColour : Viewer.tColour4b := Viewer.tColour4b.transparent
  SubFolder : String := ""
  BaseName : String := ""
deriving DecidableEq, Repr

/-- The ceiling of the square root of a natural number. -/
def ceilSqrt (n : Nat) : Nat :=
  if Nat.sqrt n * Nat.sqrt n = n then Nat.sqrt n else Nat.sqrt n + 1

/-- The ceiling of `n / c` for natural numbers. -/
def ceilDiv (n c : Nat) : Nat :=
  (n + c - 1) / c

/-- Modelled from the spec: the grid `(Columns, Rows)` that
`PostOperationContact::Apply`, defined outside the sources, lays `n` images
out on. If both are 0 the grid is Columns = ceil(sqrt(n)),
Rows = ceil(n / Columns); if only one is given the other is derived by
ceiling division. -/
def PostOperationContact.Grid (op : PostOperationContact) (n : Nat) : Nat × Nat :=
  if op.Columns = 0 ∧ op.Rows = 0 then (ceilSqrt n, ceilDiv n (ceilSqrt n))
  else if op.Rows = 0 then (op.Columns.toNat, ceilDiv n op.Columns.toNat)
  else if op.Columns = 0 then (ceilDiv n op.Rows.toNat, op.Rows.toNat)
  else (op.Columns.toNat, op.Rows.toNat)

/-- The cells of the grid left without an image, which are filled with
`FillColour`. -/
def PostOperationContact.EmptyCells (op : PostOperationContact) (n : Nat) : Nat :=
  (op.Grid n).1 * (op.Grid n).2 - n

/-! ## Operation Quantize (CommandOps.h 188-198) -/

/-- The enum `tImage::tQuantize::Method`; the header names `Fixed` only. -/
inductive QuantizeMethod where
  | Fixed
  | other (id : Nat)
deriving DecidableEq, Repr

/-- The struct `OperationQuantize` with its declared initial values. -/
structure OperationQuantize where
  Valid : Bool := false
  Method : QuantizeMethod := QuantizeMethod.Fixed
  NumColours : Int := 256
  CheckExact : Bool := true
  SampFilt : Int := 0
  Dither : ℚ := 0
deriving DecidableEq, Repr

/-- The token at a position of the argument list, parsed, when it is present
and parsable. -/
def parsedToken {α : Type} (parse : String → Option α) (ts : List String) (i : Nat) : Option α :=
  match ts.get? i with
  | some t => parse t
  | none => none

/-- An Optional field: the parsed token, or the default when the token is
absent or unparsable. -/
def optionalField {α : Type} (parse : String → Option α) (ts : List String) (i : Nat)
    (default : α) : α :=
  match parsedToken parse ts i with
  | some v => v
  | none => default

/-- Modelled from the spec: the constructor
`OperationQuantize(const tString& args)`, declared in CommandOps.h and defined
outside the sources. The tokens map positionally to Method and NumColours
(Required), then CheckExact, SampFilt and Dither (Optional, keeping the
declared default when absent or unparsable). The operation is valid when the
Required arguments parsed, the colour count is at least 2 and SampFilt is not
0, which is invalid. The token grammars of the method, the flag and the dither
amount are parameters. -/
def OperationQuantize.construct (parseMethod : String → Option QuantizeMethod)
    (parseFlag : String → Option Bool) (parseDither : String → Option ℚ) (args : String) :
    OperationQuantize :=
  let ts := tokens args
  let init : OperationQuantize := {}
  let method := parsedToken parseMethod ts 0
  let numColours := parsedToken parseInt ts 1
  let op : OperationQuantize :=
    { init with
      Method := method.getD init.Method
      NumColours := numColours.getD init.NumColours
      CheckExact := optionalField parseFlag ts 2 init.CheckExact
      SampFilt := optionalField parseInt ts 3 init.SampFilt
      Dither := optionalField parseDither ts 4 init.Dither }
  let valid := method.isSome && numColours.isSome && decide (2 ≤ op.NumColours) &&
    decide (op.SampFilt ≠ 0)
  { op with Valid := if valid then true else init.Valid }


/-! ## Operation Levels (CommandOps.h 150-163) -/

/-- The enum `Viewer::Image::AdjChan`; the header names `RGB` only. -/
inductive AdjChan where
  | RGB
  | other (id : Nat)
deriving DecidableEq, Repr

/-- The struct `OperationLevels` with its declared initial values; a
`MidPoint` of -1 means auto, halfway between black and white. -/
structure OperationLevels where
  Valid : Bool := false
  BlackPoint : ℚ := 0
  MidPoint : ℚ := -1
  WhitePoint : ℚ := 1
  OutBlackPoint : ℚ := 0
  OutWhitePoint : ℚ := 1
  FrameNumber : Int := -1
  Channels : AdjChan := AdjChan.RGB
  PowerMidGamma : Bool := true
deriving DecidableEq, Repr

/-- Modelled from the spec: the midpoint `OperationLevels::Apply`, defined
outside the sources, works with. If MidPoint = -1 it is the arithmetic mean of
the black and white points, otherwise it is MidPoint. -/
def OperationLevels.ResolvedMidPoint (op : OperationLevels) : ℚ :=
  if op.MidPoint = -1 then (op.BlackPoint + op.WhitePoint) / 2 else op.MidPoint

/-- Modelled from the spec: the invariant of Levels, black ≤ mid ≤ white,
on the resolved midpoint. -/
def OperationLevels.Ordered (op : OperationLevels) : Prop :=
  op.BlackPoint ≤ op.ResolvedMidPoint ∧ op.ResolvedMidPoint ≤ op.WhitePoint

/-! ## Images as the operations see them -/

/-- A frame: its rows of pixels, top to bottom. -/
abbrev Frame := List (List Viewer.tColour4b)

/-- An image: its frames in order. -/
abbrev Image := List Frame

/-! ## Operation Swizzle (CommandOps.h 228-241) -/

/-- Modelled from the spec: the enum `tComp` of the Tacent library, which is
not part of the sources: a source for an output channel is one of R, G, B, A
or the constant 0 or 1. -/
inductive tComp where
  | R | G | B | A | Zero | Full
deriving DecidableEq, Repr

/-- The value a source channel gives on a pixel; the constant 1 is a full
byte. -/
def tComp.Read (c : tComp) (px : Viewer.tColour4b) : Nat :=
  match c with
  | tComp.R => px.R
  | tComp.G => px.G
  | tComp.B => px.B
  | tComp.A => px.A
  | tComp.Zero => 0
  | tComp.Full => 255

/-- The struct `OperationSwizzle` with its declared initial values. -/
structure OperationSwizzle where
  Valid : Bool := false
  SwizzleR : tComp := tComp.R
  SwizzleG : tComp := tComp.G
  SwizzleB : tComp := tComp.B
  SwizzleA : tComp := tComp.A
deriving DecidableEq, Repr

/-- Modelled from the spec: what `OperationSwizzle::Apply`, defined outside
the sources, does to one pixel. Each of the four output channels copies its
named source channel from the original pixel. -/
def OperationSwizzle.SwizzlePixel (op : OperationSwizzle) (px : Viewer.tColour4b) :
    Viewer.tColour4b :=
  { R := op.SwizzleR.Read px
    G := op.SwizzleG.Read px
    B := op.SwizzleB.Read px
    A := op.SwizzleA.Read px }

/-- Modelled from the spec: `OperationSwizzle::Apply`, defined outside the
sources: every pixel of every frame is swizzled; the operation does not fail. -/
def OperationSwizzle.Apply (op : OperationSwizzle) (img : Image) : Image × Bool :=
  (img.map (fun frame => frame.map (fun row => row.map op.SwizzlePixel)), true)

/-! ## Operation Rotate (CommandOps.h 127-147) -/

/-- The enum `OperationRotate::ExactMode`. -/
inductive ExactMode where
  | Off | Zero | ACW90 | CW90 | R180
deriving DecidableEq, Repr

/-- The enum `OperationRotate::RotateMode`. -/
inductive RotateMode where
  | Fill | Crop | Resize
deriving DecidableEq, Repr

/-- The enum `tImage::tResampleFilter`; the header names `Bilinear` and
`None` only. -/
inductive tResampleFilter where
  | None
  | Bilinear
  | other (id : Nat)
deriving DecidableEq, Repr

/-- The struct `OperationRotate` with its declared initial values; the angle
is in radians. -/
structure OperationRotate where
  Valid : Bool := false
  Angle : ℚ := 0
  Exact : ExactMode := ExactMode.Zero
  Mode : RotateMode := RotateMode.Crop
  FilterUp : tResampleFilter := tResampleFilter.Bilinear
  FilterDown : tResampleFilter := tResampleFilter.None
  FillColour : Viewer.tColour4b := Viewer.tColour4b.black
deriving DecidableEq, Repr

/-- A quarter turn anticlockwise as a re-indexing of the frame: the new rows
are the old columns, the rightmost first. -/
def rotateACW90 (frame : Frame) : Frame :=
  (List.transpose frame).reverse

/-- The number of anticlockwise quarter turns of an exact mode; `Off` has
none. -/
def ExactMode.QuarterTurns : ExactMode → Option Nat
  | ExactMode.Off => none
  | ExactMode.Zero => some 0
  | ExactMode.ACW90 => some 1
  | ExactMode.R180 => some 2
  | ExactMode.CW90 => some 3

/-- Modelled from the spec: `OperationRotate::Apply`, defined outside the
sources. If Exact is one of Zero, ACW90, CW90, R180 the lossless fast path is
applied to every frame: pure re-indexing by that many quarter turns, no
resampling. Otherwise the image is rotated by the continuous angle with the
filters, mode and fill colour; that rotation belongs to the pixel library and
is the parameter `rotateByAngle`, which gives `none` on degenerate geometry, in
which case the image is left as it was and the result is false. -/
def OperationRotate.Apply (rotateByAngle : OperationRotate → Image → Option Image)
    (op : OperationRotate) (img : Image) : Image × Bool :=
  match op.Exact.QuarterTurns with
  | some n => (img.map (fun frame => Nat.iterate rotateACW90 n frame), true)
  | none =>
    match rotateByAngle op img with
    | some out => (out, true)
    | none => (img, false)

/-! ## Operation Canvas (CommandOps.h 61-72) -/

/-- The struct `OperationCanvas` with its declared initial values; `Anchor`
is `tPicture::Anchor::MiddleMiddle`. -/
structure OperationCanvas where
  Valid : Bool := false
  Width : Int := 0
  Height : Int := 0
  Anchor : Int := Viewer.Anchor.MM
  FillColour : Viewer.tColour4b := Viewer.tColour4b.black
  AnchorX : Int := -1
  AnchorY : Int := -1
deriving DecidableEq, Repr


/-- A Combine with the single override of 100 ms on frames 2 to 4, used to
evaluate `GetFrameDuration`. -/
def exampleCombine : PostOperationCombine :=
  { Durations := [⟨⟨2, 4⟩, 100⟩] }


/-- A Swizzle that exchanges red and green, used to evaluate `SwizzlePixel`. -/
def exampleSwizzle : OperationSwizzle :=
  { SwizzleR := tComp.G, SwizzleG := tComp.R }

/-- A Rotate in its default state but for the mode, the filters and the fill
colour, used to evaluate `Apply`. -/
def exampleRotate : OperationRotate :=
  { Mode := RotateMode.Resize, FilterUp := tResampleFilter.None,
    FilterDown := tResampleFilter.Bilinear, FillColour := Viewer.tColour4b.transparent }

/-- A one-frame image of 2 x 2 pixels, used to evaluate the operations. -/
def exampleImage : Image :=
  [[[⟨1, 2, 3, 4⟩, ⟨5, 6, 7, 8⟩], [⟨9, 10, 11, 12⟩, ⟨13, 14, 15, 16⟩]]]


end Command

/-! # Theorems -/

namespace Viewer

/-! ## Helper lemmas -/

theorem floatToInt_eq_floor (x : ℚ) (hx : 0 ≤ x) : floatToInt x = ⌊x⌋ := by
  unfold floatToInt
  rw [Rat.floor_def]
  exact Int.tdiv_eq_ediv (Rat.num_nonneg.mpr hx) (Int.ofNat_nonneg _)

theorem lor_ne_zero_left {a : Nat} (b : Nat) (h : a ≠ 0) : a ||| b ≠ 0 := by
  intro h0
  apply h
  apply Nat.eq_of_testBit_eq
  intro i
  have := congrArg (fun n => Nat.testBit n i) h0
  simp only [Nat.testBit_or, Nat.zero_testBit, Bool.or_eq_false_iff] at this
  simpa using this.1

theorem lor_ne_zero_right (a : Nat) {b : Nat} (h : b ≠ 0) : a ||| b ≠ 0 := by
  intro h0
  apply h
  apply Nat.eq_of_testBit_eq
  intro i
  have := congrArg (fun n => Nat.testBit n i) h0
  simp only [Nat.testBit_or, Nat.zero_testBit, Bool.or_eq_false_iff] at this
  simpa using this.2

theorem channelMask_ne_zero (bits : CompBits) (hR : bits.R ≠ 0) (hG : bits.G ≠ 0)
    (hB : bits.B ≠ 0) (hA : bits.A ≠ 0) (c : BorderChannels) (h : c.anySelected = true) :
    channelMask bits c ≠ 0 := by
  obtain ⟨r, g, b, a⟩ := c
  simp only [BorderChannels.anySelected, Bool.or_eq_true] at h
  unfold channelMask
  rcases h with ((hr | hg) | hb) | ha
  · subst hr
    exact lor_ne_zero_left _ (lor_ne_zero_left _ (lor_ne_zero_left _ (by simpa using hR)))
  · subst hg
    exact lor_ne_zero_left _ (lor_ne_zero_left _ (lor_ne_zero_right _ (by simpa using hG)))
  · subst hb
    exact lor_ne_zero_left _ (lor_ne_zero_right _ (by simpa using hB))
  · subst ha
    exact lor_ne_zero_right _ (by simpa using hA)

theorem borderCheckboxes_anySelected (inp : BordersInput) (c : BorderChannels)
    (h : c.anySelected = true) : (borderCheckboxes inp c).anySelected = true := by
  obtain ⟨r, g, b, a⟩ := c
  obtain ⟨cr, cg, cb, ca, fill, reset, cancel, remove⟩ := inp
  revert h
  simp only [borderCheckboxes, Checkbox, BorderChannels.anySelected]
  revert r g b a cr cg cb ca
  decide

theorem bordersTab_channels (bits : CompBits) (g : Globals) (inp : BordersInput)
    (c : BorderChannels) (profile : ProfileData) :
    (DoResizeCanvasRemoveBordersTab bits g inp c profile).1 =
      if inp.reset then BorderChannels.init else borderCheckboxes inp c := by
  simp only [DoResizeCanvasRemoveBordersTab]

theorem bordersTab_anySelected (bits : CompBits) (g : Globals) (inp : BordersInput)
    (c : BorderChannels) (profile : ProfileData) (h : c.anySelected = true) :
    (DoResizeCanvasRemoveBordersTab bits g inp c profile).1.anySelected = true := by
  rw [bordersTab_channels]
  split
  · rfl
  · exact borderCheckboxes_anySelected inp c h

theorem bordersRun_anySelected (bits : CompBits) (g : Globals) (inps : List BordersInput) :
    ∀ (c : BorderChannels) (profile : ProfileData), c.anySelected = true →
      (bordersRun bits g inps c profile).1.anySelected = true := by
  induction inps with
  | nil => intro c profile h; exact h
  | cons inp rest ih =>
    intro c profile h
    simp only [bordersRun]
    exact ih _ _ (bordersTab_anySelected bits g inp c profile h)

/-! ## C1 -/

/-- C1: the border-removal channel mask is never empty. With non-zero
component bits, the initial statics have a channel selected; one pass of
`DoResizeCanvasRemoveBordersTab` started with a channel selected ends with a
channel selected, whatever is clicked and whether or not Reset is pressed;
Reset selects all four; every mask handed to `Deborder` in the pass is
non-zero, and pressing Remove does hand one over; and the selection survives
any sequence of passes. -/
theorem C1_channel_mask_never_empty (bits : CompBits) (hR : bits.R ≠ 0) (hG : bits.G ≠ 0)
    (hB : bits.B ≠ 0) (hA : bits.A ≠ 0) (g : Globals) (inp : BordersInput)
    (c : BorderChannels) (profile : ProfileData) (h : c.anySelected = true) :
    BorderChannels.init.anySelected = true ∧
    (DoResizeCanvasRemoveBordersTab bits g inp c profile).1.anySelected = true ∧
    (inp.reset = true →
      (DoResizeCanvasRemoveBordersTab bits g inp c profile).1 = BorderChannels.init) ∧
    (∀ col m, Effect.Deborder col m ∈ (DoResizeCanvasRemoveBordersTab bits g inp c profile).2.2 →
      m ≠ 0) ∧
    (inp.remove = true →
      ∃ col m, Effect.Deborder col m ∈ (DoResizeCanvasRemoveBordersTab bits g inp c profile).2.2) ∧
    (∀ inps : List BordersInput, (bordersRun bits g inps c profile).1.anySelected = true) := by
  have hany := bordersTab_anySelected bits g inp c profile h
  refine ⟨rfl, hany, ?_, ?_, ?_, ?_⟩
  · intro hr
    rw [bordersTab_channels, if_pos hr]
  · intro col m hm
    have hch := bordersTab_channels bits g inp c profile
    have hmask : m = channelMask bits (DoResizeCanvasRemoveBordersTab bits g inp c profile).1 := by
      simp only [DoResizeCanvasRemoveBordersTab] at hm ⊢
      by_cases hcan : inp.cancel = true <;> by_cases hrem : inp.remove = true <;>
        simp [hcan, hrem] at hm
      · exact hm.2
      · exact hm.2
    rw [hmask]
    exact channelMask_ne_zero bits hR hG hB hA _ hany
  · intro hrem
    refine ⟨(DoResizeCanvasRemoveBordersTab bits g inp c profile).2.1.FillColour,
      channelMask bits (DoResizeCanvasRemoveBordersTab bits g inp c profile).1, ?_⟩
    simp [DoResizeCanvasRemoveBordersTab, hrem]
  · intro inps
    exact bordersRun_anySelected bits g inps c profile h

/-- Witness of C1: only R is selected and R is clicked in a pass that also
presses Remove; R is turned back on and the mask handed over is not zero. -/
theorem C1_channel_mask_never_empty_witness :
    (⟨true, false, false, false⟩ : BorderChannels).anySelected = true ∧
    (DoResizeCanvasRemoveBordersTab ⟨1, 2, 4, 8⟩ exampleGlobals
      ⟨true, false, false, false, FillInput.idle, false, false, true⟩
      ⟨true, false, false, false⟩ exampleProfile).1.anySelected = true :=
  ⟨by decide,
    (C1_channel_mask_never_empty ⟨1, 2, 4, 8⟩ (by decide) (by decide) (by decide) (by decide)
      exampleGlobals
      ⟨true, false, false, false, FillInput.idle, false, false, true⟩
      ⟨true, false, false, false⟩ exampleProfile (by decide)).2.1⟩

/-! ## C2 -/

/-- C2: the width and height returned by `DoResizeWidthHeightInterface` are
not always at least 4. For a 1 x 1024 source with the aspect locked and the
fields showing the source size, pressing the lower power-of-two button of the
height returns width 0 and height 512: the width recomputed by that button is
not clamped again before the function returns. Whatever `tNextLowerPower2`
is, as long as it returns at most 1024 for 1024, the width returned on that
input is below 4. -/
theorem C2_height_button_result_not_clamped :
    DoResizeWidthHeightInterface tNextLowerPower2 tNextHigherPower2 65536
      ⟨none, false, false, false, none, true, false⟩ 1 1024 ⟨true, 1, 1024⟩
      = ⟨true, 0, 512⟩ ∧
    (∀ (lo hi : Int → Int) (MaxDim : Int), lo 1024 ≤ 1024 → 1024 ≤ MaxDim →
      (DoResizeWidthHeightInterface lo hi MaxDim
        ⟨none, false, false, false, none, true, false⟩ 1 1024 ⟨true, 1, 1024⟩).dstW < 4) := by
  constructor
  · have h1 : Nat.log 2 1023 = 9 := by
      rw [Nat.log_eq_iff] <;> norm_num
    simp [DoResizeWidthHeightInterface, whUpToSecondClamp, InputInt, Checkbox, tiClamp,
      tiClampMin, tNextLowerPower2, tNextHigherPower2, floatToInt, h1]
    norm_num
    decide
  · intro lo hi MaxDim hlo hMax
    have hc : tiClamp 1024 4 MaxDim = 1024 := by
      unfold tiClamp
      rw [if_neg (by omega), if_neg (by omega)]
    have hs : whUpToSecondClamp lo hi MaxDim ⟨none, false, false, false, none, true, false⟩
        1 1024 ⟨true, 1, 1024⟩ = ⟨true, 4, 1024⟩ := by
      simp [whUpToSecondClamp, InputInt, Checkbox, hc]
      simp [tiClamp]
      omega
    simp only [DoResizeWidthHeightInterface, hs, Bool.and_self, if_true, Bool.false_and,
      Bool.false_eq_true, if_false]
    have h4 : 4 ≤ tiClampMin (lo 1024) 4 ∧ tiClampMin (lo 1024) 4 ≤ 1024 := by
      unfold tiClampMin
      split <;> constructor <;> omega
    generalize tiClampMin (lo 1024) 4 = n at h4
    have hq0 : (0 : ℚ) ≤ (n : ℚ) * (((1 : Int) : ℚ) / ((1024 : Int) : ℚ)) := by
      have : (0 : ℚ) ≤ (n : ℚ) := by exact_mod_cast (by omega : 0 ≤ n)
      positivity
    have hq1 : (n : ℚ) * (((1 : Int) : ℚ) / ((1024 : Int) : ℚ)) ≤ 1 := by
      have : (n : ℚ) ≤ 1024 := by exact_mod_cast h4.2
      push_cast
      linarith
    rw [floatToInt_eq_floor _ hq0]
    have hf : ⌊(n : ℚ) * (((1 : Int) : ℚ) / ((1024 : Int) : ℚ))⌋ ≤ 1 := by
      have := Int.floor_le ((n : ℚ) * (((1 : Int) : ℚ) / ((1024 : Int) : ℚ)))
      have h2 : ((⌊(n : ℚ) * (((1 : Int) : ℚ) / ((1024 : Int) : ℚ))⌋ : Int) : ℚ) ≤ ((1 : Int) : ℚ) := by
        push_cast
        push_cast at this hq1
        linarith
      exact_mod_cast h2
    omega

/-- Witness of C2: the same input with the helpers read by their names and
`MaxDim = 65536`. -/
theorem C2_height_button_result_not_clamped_witness :
    (tNextLowerPower2 1024 ≤ 1024 ∧ (1024 : Int) ≤ 65536) ∧
    (DoResizeWidthHeightInterface tNextLowerPower2 tNextHigherPower2 65536
      ⟨none, false, false, false, none, true, false⟩ 1 1024 ⟨true, 1, 1024⟩).dstW < 4 :=
  have h : tNextLowerPower2 1024 ≤ 1024 := by
    have h1 : Nat.log 2 1023 = 9 := by
      rw [Nat.log_eq_iff] <;> norm_num
    simp [tNextLowerPower2, h1]
  ⟨⟨h, by decide⟩,
    C2_height_button_result_not_clamped.2 tNextLowerPower2 tNextHigherPower2 65536 h
      (by decide)⟩

/-! ## C3 -/

/-- C3: if the dimensions match the current ones there is no scaling. With the
popup open and Resize pressed, one pass of `DoResizeImageModal` is fixed by
its inputs. The filter interface leaves the profile alone when the dimensions
match. With `w` the state that the width and height interface leaves (entered
with the source's size when the dialog was just opened): without Reset and
with `w` differing from the source in a dimension, the pass returns `w`, the
profile with the two combo selections, and exactly the calls `Unbind`,
`Resample` of `w.dstW` by `w.dstH` with that filter and edge mode, `Bind`,
`SetWindowTitle`, `ZoomDownscaleOnly` and `CloseCurrentPopup`, after the
`CloseCurrentPopup` of Cancel if that was pressed too; without Reset and with
`w` of the source's size it returns `w`, the profile unchanged and only the
closing of the popup; with Reset it returns the source's size and only the
closing of the popup. In particular, with the aspect unlocked, `v` typed into
the Width field, the Height field holding `h` (typed, or kept from entry), no
other control of the interface used, no Reset and both values within 4 and
`MaxDim`: the image is resampled to `v` by `h` when `v` by `h` is not the
source's size, and nothing but the closing happens when it is. Finally
`Resample` is among the effects if and only if the returned dimensions differ
from the source's; every `Resample` in the effects has exactly the returned
`dstW`, `dstH` and the returned profile's filter and edge mode; and when both
dimensions match, no effect of the pass is a call on the image. -/
theorem C3_resample_iff_dimensions_differ (lo hi : Int → Int) (MaxDim : Int)
    (inp : ImageModalInput) (resizeImagePressed : Bool) (srcW srcH : Int) (s : WHState)
    (profile : ProfileData) (hopen : inp.popupOpen = true) (hresize : inp.resize = true) :
    DoResizeFilterInterface inp.filter srcW srcH srcW srcH profile = profile ∧
    (∀ w : WHState,
      w = DoResizeWidthHeightInterface lo hi MaxDim inp.wh srcW srcH
            (if resizeImagePressed then { s with dstW := srcW, dstH := srcH } else s) →
      (inp.reset = false → w.dstW ≠ srcW ∨ w.dstH ≠ srcH →
        DoResizeImageModal lo hi MaxDim inp resizeImagePressed srcW srcH s profile =
          (w,
            { profile with
              ResampleFilter := Combo inp.filter.filter profile.ResampleFilter,
              ResampleEdgeMode := Combo inp.filter.edges profile.ResampleEdgeMode },
            (if inp.cancel then [Effect.CloseCurrentPopup] else []) ++
              [Effect.Unbind,
                Effect.Resample w.dstW w.dstH
                  (Combo inp.filter.filter profile.ResampleFilter)
                  (Combo inp.filter.edges profile.ResampleEdgeMode),
                Effect.Bind, Effect.SetWindowTitle, Effect.ZoomDownscaleOnly,
                Effect.CloseCurrentPopup])) ∧
      (inp.reset = false → w.dstW = srcW → w.dstH = srcH →
        DoResizeImageModal lo hi MaxDim inp resizeImagePressed srcW srcH s profile =
          (w, profile,
            (if inp.cancel then [Effect.CloseCurrentPopup] else []) ++
              [Effect.CloseCurrentPopup])) ∧
      (inp.reset = true →
        DoResizeImageModal lo hi MaxDim inp resizeImagePressed srcW srcH s profile =
          ({ w with dstW := srcW, dstH := srcH },
            DoResizeFilterInterface inp.filter srcW srcH w.dstW w.dstH profile,
            (if inp.cancel then [Effect.CloseCurrentPopup] else []) ++
              [Effect.CloseCurrentPopup]))) ∧
    (∀ (v h : Int) (ht : Option Int),
      s.lockAspect = false →
      inp.wh = ⟨some v, false, false, false, ht, false, false⟩ →
      h = ht.getD (if resizeImagePressed then srcH else s.dstH) →
      inp.reset = false →
      4 ≤ v → v ≤ MaxDim → 4 ≤ h → h ≤ MaxDim →
      (DoResizeImageModal lo hi MaxDim inp resizeImagePressed srcW srcH s profile).1 =
          ⟨false, v, h⟩ ∧
      (v ≠ srcW ∨ h ≠ srcH →
        (DoResizeImageModal lo hi MaxDim inp resizeImagePressed srcW srcH s profile).2.2 =
          (if inp.cancel then [Effect.CloseCurrentPopup] else []) ++
            [Effect.Unbind,
              Effect.Resample v h
                (Combo inp.filter.filter profile.ResampleFilter)
                (Combo inp.filter.edges profile.ResampleEdgeMode),
              Effect.Bind, Effect.SetWindowTitle, Effect.ZoomDownscaleOnly,
              Effect.CloseCurrentPopup]) ∧
      (v = srcW → h = srcH →
        (DoResizeImageModal lo hi MaxDim inp resizeImagePressed srcW srcH s profile).2 =
          (profile,
            (if inp.cancel then [Effect.CloseCurrentPopup] else []) ++
              [Effect.CloseCurrentPopup]))) ∧
    ((∃ w h f e, Effect.Resample w h f e ∈
        (DoResizeImageModal lo hi MaxDim inp resizeImagePressed srcW srcH s profile).2.2) ↔
      ((DoResizeImageModal lo hi MaxDim inp resizeImagePressed srcW srcH s profile).1.dstW ≠ srcW ∨
       (DoResizeImageModal lo hi MaxDim inp resizeImagePressed srcW srcH s profile).1.dstH ≠ srcH)) ∧
    (∀ w h f e, Effect.Resample w h f e ∈
        (DoResizeImageModal lo hi MaxDim inp resizeImagePressed srcW srcH s profile).2.2 →
      w = (DoResizeImageModal lo hi MaxDim inp resizeImagePressed srcW srcH s profile).1.dstW ∧
      h = (DoResizeImageModal lo hi MaxDim inp resizeImagePressed srcW srcH s profile).1.dstH ∧
      f = (DoResizeImageModal lo hi MaxDim inp resizeImagePressed srcW srcH s
            profile).2.1.ResampleFilter ∧
      e = (DoResizeImageModal lo hi MaxDim inp resizeImagePressed srcW srcH s
            profile).2.1.ResampleEdgeMode) ∧
    ((DoResizeImageModal lo hi MaxDim inp resizeImagePressed srcW srcH s profile).1.dstW = srcW ∧
      (DoResizeImageModal lo hi MaxDim inp resizeImagePressed srcW srcH s profile).1.dstH = srcH →
      ∀ e ∈ (DoResizeImageModal lo hi MaxDim inp resizeImagePressed srcW srcH s profile).2.2,
        e.onImage = false) := by
  have hpin : ∀ w : WHState,
      w = DoResizeWidthHeightInterface lo hi MaxDim inp.wh srcW srcH
            (if resizeImagePressed then { s with dstW := srcW, dstH := srcH } else s) →
      (inp.reset = false → w.dstW ≠ srcW ∨ w.dstH ≠ srcH →
        DoResizeImageModal lo hi MaxDim inp resizeImagePressed srcW srcH s profile =
          (w,
            { profile with
              ResampleFilter := Combo inp.filter.filter profile.ResampleFilter,
              ResampleEdgeMode := Combo inp.filter.edges profile.ResampleEdgeMode },
            (if inp.cancel then [Effect.CloseCurrentPopup] else []) ++
              [Effect.Unbind,
                Effect.Resample w.dstW w.dstH
                  (Combo inp.filter.filter profile.ResampleFilter)
                  (Combo inp.filter.edges profile.ResampleEdgeMode),
                Effect.Bind, Effect.SetWindowTitle, Effect.ZoomDownscaleOnly,
                Effect.CloseCurrentPopup])) ∧
      (inp.reset = false → w.dstW = srcW → w.dstH = srcH →
        DoResizeImageModal lo hi MaxDim inp resizeImagePressed srcW srcH s profile =
          (w, profile,
            (if inp.cancel then [Effect.CloseCurrentPopup] else []) ++
              [Effect.CloseCurrentPopup])) ∧
      (inp.reset = true →
        DoResizeImageModal lo hi MaxDim inp resizeImagePressed srcW srcH s profile =
          ({ w with dstW := srcW, dstH := srcH },
            DoResizeFilterInterface inp.filter srcW srcH w.dstW w.dstH profile,
            (if inp.cancel then [Effect.CloseCurrentPopup] else []) ++
              [Effect.CloseCurrentPopup])) := by
    intro w hw
    simp only [DoResizeImageModal, hopen, hresize, Bool.not_true, Bool.false_eq_true, if_false,
      if_true]
    rw [← hw]
    refine ⟨?_, ?_, ?_⟩
    · intro hr hd
      have hn : ¬ (w.dstW = srcW ∧ w.dstH = srcH) := by
        rcases hd with h1 | h1
        · exact fun h => h1 h.1
        · exact fun h => h1 h.2
      simp [hr, hd, hn, DoResizeFilterInterface]
    · intro hr h1 h2
      simp [hr, h1, h2, DoResizeFilterInterface]
    · intro hr
      simp [hr]
  refine ⟨by simp [DoResizeFilterInterface], hpin, ?_, ?_⟩
  · intro v h ht hlock hwh hh hr hv4 hvM hh4 hhM
    have hcl : ∀ x : Int, 4 ≤ x → x ≤ MaxDim → tiClamp x 4 MaxDim = x := by
      intro x h1 h2
      unfold tiClamp
      rw [if_neg (by omega), if_neg (by omega)]
    have hw : DoResizeWidthHeightInterface lo hi MaxDim inp.wh srcW srcH
        (if resizeImagePressed then { s with dstW := srcW, dstH := srcH } else s) =
        ⟨false, v, h⟩ := by
      have hl : (if resizeImagePressed = true then
          ({ s with dstW := srcW, dstH := srcH } : WHState) else s).lockAspect = false := by
        cases resizeImagePressed <;> simp [hlock]
      cases ht with
      | none =>
        have hd : (if resizeImagePressed = true then
            ({ s with dstW := srcW, dstH := srcH } : WHState) else s).dstH = h := by
          cases resizeImagePressed <;> simp_all
        simp [DoResizeWidthHeightInterface, whUpToSecondClamp, hwh, hl, hd, InputInt, Checkbox,
          hcl v hv4 hvM, hcl h hh4 hhM]
      | some t =>
        have ht : t = h := by simp at hh; exact hh.symm
        subst ht
        simp [DoResizeWidthHeightInterface, whUpToSecondClamp, hwh, hl, InputInt, Checkbox,
          hcl v hv4 hvM, hcl t hh4 hhM]
    obtain ⟨p1, p2, _⟩ := hpin _ hw.symm
    refine ⟨?_, ?_, ?_⟩
    · by_cases hd : v ≠ srcW ∨ h ≠ srcH
      · rw [p1 hr hd]
      · have h1 : v = srcW := by
          by_contra hc
          exact hd (Or.inl hc)
        have h2 : h = srcH := by
          by_contra hc
          exact hd (Or.inr hc)
        rw [p2 hr h1 h2]
    · intro hd
      rw [p1 hr hd]
    · intro h1 h2
      rw [p2 hr h1 h2]
  simp only [DoResizeImageModal, hopen, hresize, Bool.not_true, Bool.false_eq_true, if_false,
    if_true]
  generalize (if inp.reset = true then
    ({ DoResizeWidthHeightInterface lo hi MaxDim inp.wh srcW srcH
          (if resizeImagePressed = true then { s with dstW := srcW, dstH := srcH } else s) with
        dstW := srcW, dstH := srcH } : WHState)
    else DoResizeWidthHeightInterface lo hi MaxDim inp.wh srcW srcH
          (if resizeImagePressed = true then { s with dstW := srcW, dstH := srcH } else s)) = t
  generalize DoResizeFilterInterface inp.filter srcW srcH _ _ profile = q
  by_cases hd : t.dstW ≠ srcW ∨ t.dstH ≠ srcH
  · refine ⟨⟨fun _ => hd, fun _ => ⟨t.dstW, t.dstH, q.ResampleFilter, q.ResampleEdgeMode, ?_⟩⟩,
      ?_, ?_⟩
    · by_cases hc : inp.cancel = true <;> simp [hc, hd]
    · intro w h f e hm
      by_cases hc : inp.cancel = true <;> simp [hc, hd] at hm <;> exact hm
    · intro hm
      exact absurd hm (by
        rcases hd with h1 | h1
        · exact fun h => h1 h.1
        · exact fun h => h1 h.2)
  · refine ⟨⟨?_, fun h => absurd h hd⟩, ?_, ?_⟩
    · rintro ⟨w, h, f, e, hm⟩
      by_cases hc : inp.cancel = true <;> simp [hc, hd] at hm
    · intro w h f e hm
      by_cases hc : inp.cancel = true <;> simp [hc, hd] at hm
    · intro _ e hm
      by_cases hc : inp.cancel = true <;> simp [hc, hd] at hm <;> subst hm <;> rfl

/-- Witness of C3: a 640 x 480 image, the popup open, 320 typed into the
Width field with the aspect unlocked and the Height field left at 480, Resize
pressed: the pass returns 320 x 480 and its effects are exactly `Unbind`,
`Resample 320 480` with the profile's filter and edge mode, `Bind`,
`SetWindowTitle`, `ZoomDownscaleOnly`, `CloseCurrentPopup`. -/
theorem C3_resample_iff_dimensions_differ_witness :
    (true = true ∧ true = true) ∧
    (DoResizeImageModal tNextLowerPower2 tNextHigherPower2 65536
        ⟨true, ⟨some 320, false, false, false, none, false, false⟩, ⟨none, none⟩,
          false, false, true⟩
        false 640 480 ⟨false, 640, 480⟩ exampleProfile).1 = ⟨false, 320, 480⟩ ∧
    (DoResizeImageModal tNextLowerPower2 tNextHigherPower2 65536
        ⟨true, ⟨some 320, false, false, false, none, false, false⟩, ⟨none, none⟩,
          false, false, true⟩
        false 640 480 ⟨false, 640, 480⟩ exampleProfile).2.2 =
      [Effect.Unbind, Effect.Resample 320 480 0 0, Effect.Bind, Effect.SetWindowTitle,
        Effect.ZoomDownscaleOnly, Effect.CloseCurrentPopup] :=
  ⟨⟨rfl, rfl⟩,
    ((C3_resample_iff_dimensions_differ tNextLowerPower2 tNextHigherPower2 65536
      ⟨true, ⟨some 320, false, false, false, none, false, false⟩, ⟨none, none⟩,
        false, false, true⟩
      false 640 480 ⟨false, 640, 480⟩ exampleProfile rfl rfl).2.2.1 320 480 none rfl rfl rfl rfl
      (by decide) (by decide) (by decide) (by decide)).1,
    ((C3_resample_iff_dimensions_differ tNextLowerPower2 tNextHigherPower2 65536
      ⟨true, ⟨some 320, false, false, false, none, false, false⟩, ⟨none, none⟩,
        false, false, true⟩
      false 640 480 ⟨false, 640, 480⟩ exampleProfile rfl rfl).2.2.1 320 480 none rfl rfl rfl rfl
      (by decide) (by decide) (by decide) (by decide)).2.1 (Or.inl (by decide))⟩

/-! ## C4 -/

/-- C4: cropping to the source's own width and height is the identity.
`DoResizeCrop` with `dstW = srcW` and `dstH = srcH` has no effect at all, for
every anchor, cursor position and fill colour. With any other size, and a
non-empty source when the cursor position is the anchor, its effects are
Unbind, one Crop to `dstW` x `dstH`, Bind, and the two GUI updates. -/
theorem C4_crop_to_own_size_is_identity (g : Globals) (profile : ProfileData)
    (srcW srcH dstW dstH : Int)
    (hsrc : profile.CropAnchor = -1 → srcW ≠ 0 ∧ srcH ≠ 0) :
    DoResizeCrop g profile srcW srcH srcW srcH = some [] ∧
    (dstW ≠ srcW ∨ dstH ≠ srcH →
      ∃ c, c.isCrop = true ∧ c.cropSize = some (dstW, dstH) ∧
        DoResizeCrop g profile srcW srcH dstW dstH =
          some [Effect.Unbind, c, Effect.Bind, Effect.SetWindowTitle, Effect.ZoomDownscaleOnly] ∧
        ([Effect.Unbind, c, Effect.Bind, Effect.SetWindowTitle,
          Effect.ZoomDownscaleOnly].filter Effect.isCrop).length = 1) := by
  refine ⟨by simp [DoResizeCrop], ?_⟩
  intro hd
  by_cases ha : profile.CropAnchor = -1
  · obtain ⟨hw, hh⟩ := hsrc ha
    refine ⟨Effect.CropOrigin dstW dstH
      (wrapInt32 (Int.tdiv (wrapInt32 (g.CursorX * wrapInt32 (srcW - dstW))) srcW))
      (wrapInt32 (Int.tdiv (wrapInt32 (g.CursorY * wrapInt32 (srcH - dstH))) srcH))
      profile.FillColour, rfl, rfl, ?_, ?_⟩
    · simp [DoResizeCrop, hd, ha, hw, hh]
    · simp [Effect.isCrop, List.filter]
  · refine ⟨Effect.CropAnchored dstW dstH profile.CropAnchor profile.FillColour, rfl, rfl, ?_, ?_⟩
    · simp [DoResizeCrop, hd, ha]
    · simp [Effect.isCrop, List.filter]

/-- Witness of C4: a 640 x 480 source, the cursor position as anchor. -/
theorem C4_crop_to_own_size_is_identity_witness :
    DoResizeCrop exampleGlobals { exampleProfile with CropAnchor := -1 } 640 480 640 480
      = some [] :=
  (C4_crop_to_own_size_is_identity exampleGlobals { exampleProfile with CropAnchor := -1 }
    640 480 320 480 (fun _ => ⟨by decide, by decide⟩)).1

/-! ## C5 -/

/-- C5: a canvas change uses the anchor or explicit coordinates, never both.
With differing dimensions (and a non-empty source when the cursor position is
the anchor), `DoResizeCrop` calls the explicit-origin Crop and no anchored
Crop when `CropAnchor = -1`, and otherwise the anchored Crop with
`CropAnchor` as the anchor and no explicit-origin Crop; either call gets
`dstW`, `dstH` and the profile's fill colour. -/
theorem C5_anchor_xor_explicit_origin (g : Globals) (profile : ProfileData)
    (srcW srcH dstW dstH : Int) (hd : dstW ≠ srcW ∨ dstH ≠ srcH)
    (hsrc : profile.CropAnchor = -1 → srcW ≠ 0 ∧ srcH ≠ 0) :
    ∃ fx, DoResizeCrop g profile srcW srcH dstW dstH = some fx ∧
      (profile.CropAnchor = -1 →
        (∃ originX originY,
          Effect.CropOrigin dstW dstH originX originY profile.FillColour ∈ fx) ∧
        ∀ e ∈ fx, e.isCropAnchored = false) ∧
      (profile.CropAnchor ≠ -1 →
        Effect.CropAnchored dstW dstH profile.CropAnchor profile.FillColour ∈ fx ∧
        ∀ e ∈ fx, e.isCropOrigin = false) ∧
      (∀ e ∈ fx, e.isCrop = true →
        e.cropSize = some (dstW, dstH) ∧ e.cropFill = some profile.FillColour) := by
  by_cases ha : profile.CropAnchor = -1
  · obtain ⟨hw, hh⟩ := hsrc ha
    refine ⟨[Effect.Unbind, Effect.CropOrigin dstW dstH
        (wrapInt32 (Int.tdiv (wrapInt32 (g.CursorX * wrapInt32 (srcW - dstW))) srcW))
        (wrapInt32 (Int.tdiv (wrapInt32 (g.CursorY * wrapInt32 (srcH - dstH))) srcH))
        profile.FillColour, Effect.Bind, Effect.SetWindowTitle, Effect.ZoomDownscaleOnly],
      by simp [DoResizeCrop, hd, ha, hw, hh], ?_, ?_, ?_⟩
    · intro _
      refine ⟨⟨_, _, List.mem_cons_of_mem _ (List.mem_cons_self _ _)⟩, ?_⟩
      intro e he
      simp at he
      rcases he with h | h | h | h | h <;> subst h <;> rfl
    · intro h
      exact absurd ha h
    · intro e he hc
      simp at he
      rcases he with h | h | h | h | h <;> subst h <;> first | exact ⟨rfl, rfl⟩ | cases hc
  · refine ⟨[Effect.Unbind, Effect.CropAnchored dstW dstH profile.CropAnchor profile.FillColour,
        Effect.Bind, Effect.SetWindowTitle, Effect.ZoomDownscaleOnly],
      by simp [DoResizeCrop, hd, ha], ?_, ?_, ?_⟩
    · intro h
      exact absurd h ha
    · intro _
      refine ⟨by simp, ?_⟩
      intro e he
      simp at he
      rcases he with h | h | h | h | h <;> subst h <;> rfl
    · intro e he hc
      simp at he
      rcases he with h | h | h | h | h <;> subst h <;> first | exact ⟨rfl, rfl⟩ | cases hc

/-- Witness of C5: a 640 x 480 source cropped to 320 x 480 about the middle
anchor. -/
theorem C5_anchor_xor_explicit_origin_witness :
    ((320 : Int) ≠ 640 ∨ (480 : Int) ≠ 480) ∧
    ∃ fx, DoResizeCrop exampleGlobals exampleProfile 640 480 320 480 = some fx ∧
      (exampleProfile.CropAnchor = -1 →
        (∃ originX originY,
          Effect.CropOrigin 320 480 originX originY exampleProfile.FillColour ∈ fx) ∧
        ∀ e ∈ fx, e.isCropAnchored = false) ∧
      (exampleProfile.CropAnchor ≠ -1 →
        Effect.CropAnchored 320 480 exampleProfile.CropAnchor exampleProfile.FillColour ∈ fx ∧
        ∀ e ∈ fx, e.isCropOrigin = false) ∧
      (∀ e ∈ fx, e.isCrop = true →
        e.cropSize = some (320, 480) ∧ e.cropFill = some exampleProfile.FillColour) :=
  ⟨Or.inl (by decide),
    C5_anchor_xor_explicit_origin exampleGlobals exampleProfile 640 480 320 480
      (Or.inl (by decide)) (fun h => absurd h (by decide))⟩

/-! ## Lemmas on the Aspect resize -/

theorem tFloatToIntTrunc_near (x : ℚ) (hx : 0 ≤ x) :
    |((tFloatToIntTrunc x : Int) : ℚ) - x| < 1 := by
  unfold tFloatToIntTrunc
  rw [floatToInt_eq_floor x hx, abs_lt]
  have h1 := Int.floor_le x
  have h2 := Int.lt_floor_add_one x
  constructor <;> linarith

theorem tFloatToIntRound_near (x : ℚ) (hx : 0 ≤ x) :
    |((tFloatToIntRound x : Int) : ℚ) - x| < 1 := by
  unfold tFloatToIntRound
  rw [floatToInt_eq_floor (x + 1 / 2) (by linarith), abs_lt]
  have h1 := Int.floor_le (x + 1 / 2)
  have h2 := Int.lt_floor_add_one (x + 1 / 2)
  constructor <;> linarith

/-- A conversion within 1 of its argument sends a value below the integer `n`
to at most `n`. -/
theorem near_le_of_lt (f : ℚ → Int) (hf : ∀ x : ℚ, 0 ≤ x → |((f x : Int) : ℚ) - x| < 1)
    (x : ℚ) (hx : 0 ≤ x) (n : Int) (h : x < (n : ℚ)) : f x ≤ n := by
  have h1 := (abs_lt.mp (hf x hx)).2
  have h2 : ((f x : Int) : ℚ) < ((n + 1 : Int) : ℚ) := by
    push_cast
    linarith
  have h3 : f x < n + 1 := by exact_mod_cast h2
  omega

/-- A conversion within 1 of its argument sends a value above the integer `n`
to at least `n`. -/
theorem near_ge_of_gt (f : ℚ → Int) (hf : ∀ x : ℚ, 0 ≤ x → |((f x : Int) : ℚ) - x| < 1)
    (x : ℚ) (hx : 0 ≤ x) (n : Int) (h : (n : ℚ) < x) : n ≤ f x := by
  have h1 := (abs_lt.mp (hf x hx)).1
  have h2 : ((n - 1 : Int) : ℚ) < ((f x : Int) : ℚ) := by
    push_cast
    linarith
  have h3 : n - 1 < f x := by exact_mod_cast h2
  omega

theorem srcAspect_pos (srcW srcH : Int) (hW : 1 ≤ srcW) (hH : 1 ≤ srcH) :
    (0 : ℚ) < (srcW : ℚ) ∧ (0 : ℚ) < (srcH : ℚ) ∧ (0 : ℚ) < (srcW : ℚ) / (srcH : ℚ) := by
  have h1 : (0 : ℚ) < (srcW : ℚ) := by exact_mod_cast (by omega : 0 < srcW)
  have h2 : (0 : ℚ) < (srcH : ℚ) := by exact_mod_cast (by omega : 0 < srcH)
  exact ⟨h1, h2, div_pos h1 h2⟩

/-- Dividing the width by a ratio wider than the source's gives less than the
source's height. -/
theorem width_div_lt (srcW srcH : Int) (hW : 1 ≤ srcW) (hH : 1 ≤ srcH) (r : ℚ)
    (h : (srcW : ℚ) / (srcH : ℚ) < r) : 0 ≤ (srcW : ℚ) / r ∧ (srcW : ℚ) / r < (srcH : ℚ) := by
  obtain ⟨h1, h2, h3⟩ := srcAspect_pos srcW srcH hW hH
  have hr : 0 < r := lt_trans h3 h
  refine ⟨le_of_lt (div_pos h1 hr), ?_⟩
  rw [div_lt_iff₀ hr]
  rw [div_lt_iff₀ h2] at h
  linarith

/-- Multiplying the height by a ratio narrower than the source's gives less
than the source's width. -/
theorem height_mul_lt (srcW srcH : Int) (hW : 1 ≤ srcW) (hH : 1 ≤ srcH) (r : ℚ) (hr : 0 < r)
    (h : r < (srcW : ℚ) / (srcH : ℚ)) : 0 ≤ (srcH : ℚ) * r ∧ (srcH : ℚ) * r < (srcW : ℚ) := by
  obtain ⟨h1, h2, h3⟩ := srcAspect_pos srcW srcH hW hH
  refine ⟨le_of_lt (mul_pos h2 hr), ?_⟩
  rw [lt_div_iff₀ h2] at h
  linarith

/-- Dividing the width by a ratio narrower than the source's gives more than
the source's height. -/
theorem width_div_gt (srcW srcH : Int) (hW : 1 ≤ srcW) (hH : 1 ≤ srcH) (r : ℚ) (hr : 0 < r)
    (h : r < (srcW : ℚ) / (srcH : ℚ)) : 0 ≤ (srcW : ℚ) / r ∧ (srcH : ℚ) < (srcW : ℚ) / r := by
  obtain ⟨h1, h2, h3⟩ := srcAspect_pos srcW srcH hW hH
  refine ⟨le_of_lt (div_pos h1 hr), ?_⟩
  rw [lt_div_iff₀ hr]
  rw [lt_div_iff₀ h2] at h
  linarith

/-- Multiplying the height by a ratio wider than the source's gives more than
the source's width. -/
theorem height_mul_gt (srcW srcH : Int) (hW : 1 ≤ srcW) (hH : 1 ≤ srcH) (r : ℚ)
    (h : (srcW : ℚ) / (srcH : ℚ) < r) : 0 ≤ (srcH : ℚ) * r ∧ (srcW : ℚ) < (srcH : ℚ) * r := by
  obtain ⟨h1, h2, h3⟩ := srcAspect_pos srcW srcH hW hH
  have hr : 0 < r := lt_trans h3 h
  refine ⟨le_of_lt (mul_pos h2 hr), ?_⟩
  rw [div_lt_iff₀ h2] at h
  linarith

/-- Every Crop among the effects of `DoResizeCrop` asks for the destination
size. -/
theorem DoResizeCrop_cropSize (g : Globals) (profile : ProfileData) (srcW srcH dstW dstH : Int)
    (fx : List Effect) (h : DoResizeCrop g profile srcW srcH dstW dstH = some fx)
    (e : Effect) (he : e ∈ fx) (w t : Int) (hs : e.cropSize = some (w, t)) :
    w = dstW ∧ t = dstH := by
  unfold DoResizeCrop at h
  split at h
  · split at h
    · split at h
      · cases h
      · simp only [Option.some.injEq] at h
        subst h
        simp only [List.mem_cons, List.mem_singleton, List.not_mem_nil, or_false] at he
        rcases he with h | h | h | h | h <;> subst h <;> simp [Effect.cropSize] at hs
        exact ⟨hs.1.symm, hs.2.symm⟩
    · simp only [Option.some.injEq] at h
      subst h
      simp only [List.mem_cons, List.mem_singleton, List.not_mem_nil, or_false] at he
      rcases he with h | h | h | h | h <;> subst h <;> simp [Effect.cropSize] at hs
      exact ⟨hs.1.symm, hs.2.symm⟩
  · simp only [Option.some.injEq] at h
    subst h
    cases he

/-- Every Crop among the effects of `DoResizeCanvasAspectTab` asks for the
size computed by `aspectDims` from the profile the Resize button sees. -/
theorem aspectTab_cropSize (lib : AspectLib) (g : Globals) (inp : AspectTabInput)
    (srcW srcH : Int) (profile : ProfileData) (res : ProfileData × List Effect)
    (h : DoResizeCanvasAspectTab lib g inp srcW srcH profile = some res)
    (e : Effect) (he : e ∈ res.2) (w t : Int) (hs : e.cropSize = some (w, t)) :
    (w, t) = aspectDims lib.tFloatToInt (aspectTabProfile lib g inp profile).ResizeAspectMode
      srcW srcH (lib.GetResizeAspectRatioFloat (aspectTabProfile lib g inp profile)) := by
  unfold DoResizeCanvasAspectTab at h
  simp only at h
  split at h
  · split at h
    · cases h
    · rename_i cfx hc
      simp only [Option.some.injEq] at h
      subst h
      simp only [List.mem_append, List.mem_singleton] at he
      rcases he with (he | he) | he
      · split at he
        · simp only [List.mem_singleton] at he
          subst he
          simp [Effect.cropSize] at hs
        · cases he
      · obtain ⟨h1, h2⟩ := DoResizeCrop_cropSize _ _ _ _ _ _ _ hc e he w t hs
        rw [h1, h2]
      · subst he
        simp [Effect.cropSize] at hs
  · simp only [Option.some.injEq] at h
    subst h
    simp only at he
    split at he
    · simp only [List.mem_singleton] at he
      subst he
      simp [Effect.cropSize] at hs
    · cases he

/-- Crop mode, target ratio wider than the source's: the height is
recomputed. -/
theorem aspectDims_crop_wider (f : ℚ → Int) (srcW srcH : Int) (r : ℚ)
    (h : r > (srcW : ℚ) / (srcH : ℚ)) :
    aspectDims f 0 srcW srcH r = (srcW, f ((srcW : ℚ) / r)) := by
  unfold aspectDims
  rw [if_pos rfl, if_pos h]

/-- Crop mode, target ratio narrower than the source's: the width is
recomputed. -/
theorem aspectDims_crop_narrower (f : ℚ → Int) (srcW srcH : Int) (r : ℚ)
    (h : r < (srcW : ℚ) / (srcH : ℚ)) :
    aspectDims f 0 srcW srcH r = (f ((srcH : ℚ) * r), srcH) := by
  unfold aspectDims
  rw [if_pos rfl, if_neg (not_lt.mpr (le_of_lt h)), if_pos h]

/-- Letterbox mode, target ratio wider than the source's: the width is
recomputed. -/
theorem aspectDims_letterbox_wider (f : ℚ → Int) (mode : Int) (hmode : mode ≠ 0)
    (srcW srcH : Int) (r : ℚ) (h : r > (srcW : ℚ) / (srcH : ℚ)) :
    aspectDims f mode srcW srcH r = (f ((srcH : ℚ) * r), srcH) := by
  unfold aspectDims
  rw [if_neg hmode, if_pos h]

/-- Letterbox mode, target ratio narrower than the source's: the height is
recomputed. -/
theorem aspectDims_letterbox_narrower (f : ℚ → Int) (mode : Int) (hmode : mode ≠ 0)
    (srcW srcH : Int) (r : ℚ) (h : r < (srcW : ℚ) / (srcH : ℚ)) :
    aspectDims f mode srcW srcH r = (srcW, f ((srcW : ℚ) / r)) := by
  unfold aspectDims
  rw [if_neg hmode, if_neg (not_lt.mpr (le_of_lt h)), if_pos h]

/-- Either mode, target ratio neither wider nor narrower than the source's:
the source size is kept. -/
theorem aspectDims_match (f : ℚ → Int) (mode : Int) (srcW srcH : Int) (r : ℚ)
    (h1 : ¬ r > (srcW : ℚ) / (srcH : ℚ)) (h2 : ¬ r < (srcW : ℚ) / (srcH : ℚ)) :
    aspectDims f mode srcW srcH r = (srcW, srcH) := by
  unfold aspectDims
  by_cases hm : mode = 0
  · rw [if_pos hm, if_neg h1, if_neg h2]
  · rw [if_neg hm, if_neg h1, if_neg h2]

/-! ## C6 -/

/-- C6: Aspect in Crop mode only cuts. For a source of at least 1 x 1, a
target ratio above 0 and a `tFloatToInt` within 1 of its argument, the size
computed in Crop mode has `dstW ≤ srcW` and `dstH ≤ srcH`; the width is kept
when the target ratio is wider than the source's and the height is kept when
it is narrower; and every Crop the Aspect tab issues in Crop mode asks for a
size within the source, so no fill colour is needed. -/
theorem C6_aspect_crop_mode_only_cuts (f : ℚ → Int)
    (hf : ∀ x : ℚ, 0 ≤ x → |((f x : Int) : ℚ) - x| < 1)
    (srcW srcH : Int) (hW : 1 ≤ srcW) (hH : 1 ≤ srcH) (r : ℚ) (hr : 0 < r) :
    (aspectDims f 0 srcW srcH r).1 ≤ srcW ∧
    (aspectDims f 0 srcW srcH r).2 ≤ srcH ∧
    (r > (srcW : ℚ) / (srcH : ℚ) → (aspectDims f 0 srcW srcH r).1 = srcW) ∧
    (r < (srcW : ℚ) / (srcH : ℚ) → (aspectDims f 0 srcW srcH r).2 = srcH) ∧
    (∀ (lib : AspectLib) (g : Globals) (inp : AspectTabInput) (profile : ProfileData)
      (res : ProfileData × List Effect),
      lib.tFloatToInt = f →
      (aspectTabProfile lib g inp profile).ResizeAspectMode = 0 →
      lib.GetResizeAspectRatioFloat (aspectTabProfile lib g inp profile) = r →
      DoResizeCanvasAspectTab lib g inp srcW srcH profile = some res →
      ∀ e ∈ res.2, ∀ w t, e.cropSize = some (w, t) → w ≤ srcW ∧ t ≤ srcH) := by
  have key : (aspectDims f 0 srcW srcH r).1 ≤ srcW ∧ (aspectDims f 0 srcW srcH r).2 ≤ srcH ∧
      (r > (srcW : ℚ) / (srcH : ℚ) → (aspectDims f 0 srcW srcH r).1 = srcW) ∧
      (r < (srcW : ℚ) / (srcH : ℚ) → (aspectDims f 0 srcW srcH r).2 = srcH) := by
    by_cases h1 : r > (srcW : ℚ) / (srcH : ℚ)
    · obtain ⟨h0, hlt⟩ := width_div_lt srcW srcH hW hH r h1
      rw [aspectDims_crop_wider f srcW srcH r h1]
      exact ⟨le_refl _, near_le_of_lt f hf _ h0 _ hlt, fun _ => rfl,
        fun h => absurd h (not_lt.mpr (le_of_lt h1))⟩
    · by_cases h2 : r < (srcW : ℚ) / (srcH : ℚ)
      · obtain ⟨h0, hlt⟩ := height_mul_lt srcW srcH hW hH r hr h2
        rw [aspectDims_crop_narrower f srcW srcH r h2]
        exact ⟨near_le_of_lt f hf _ h0 _ hlt, le_refl _, fun h => absurd h h1, fun _ => rfl⟩
      · rw [aspectDims_match f 0 srcW srcH r h1 h2]
        exact ⟨le_refl _, le_refl _, fun h => absurd h h1, fun _ => rfl⟩
  refine ⟨key.1, key.2.1, key.2.2.1, key.2.2.2, ?_⟩
  intro lib g inp profile res hlib hmode hratio hres e he w t hs
  have h := aspectTab_cropSize lib g inp srcW srcH profile res hres e he w t hs
  rw [hlib, hmode, hratio] at h
  have hw : w = (aspectDims f 0 srcW srcH r).1 := congrArg Prod.fst h
  have ht : t = (aspectDims f 0 srcW srcH r).2 := congrArg Prod.snd h
  rw [hw, ht]
  exact ⟨key.1, key.2.1⟩

/-- Witness of C6: a 1000 x 1000 source cut to 16:9 with the truncating
conversion. -/
theorem C6_aspect_crop_mode_only_cuts_witness :
    ((1 : Int) ≤ 1000 ∧ (0 : ℚ) < 16 / 9) ∧
    (aspectDims tFloatToIntTrunc 0 1000 1000 (16 / 9)).1 ≤ 1000 ∧
    (aspectDims tFloatToIntTrunc 0 1000 1000 (16 / 9)).2 ≤ 1000 :=
  ⟨⟨by decide, by norm_num⟩,
    (C6_aspect_crop_mode_only_cuts tFloatToIntTrunc tFloatToIntTrunc_near 1000 1000
      (by decide) (by decide) (16 / 9) (by norm_num)).1,
    (C6_aspect_crop_mode_only_cuts tFloatToIntTrunc tFloatToIntTrunc_near 1000 1000
      (by decide) (by decide) (16 / 9) (by norm_num)).2.1⟩

/-! ## C7 -/

/-- C7: Aspect in Letterbox mode only pads. For a source of at least 1 x 1, a
target ratio above 0, a `tFloatToInt` within 1 of its argument and any mode
other than Crop (mode 0), the size computed has `dstW ≥ srcW` and
`dstH ≥ srcH`; the height is kept when the target ratio is wider than the
source's and the width is kept when it is narrower; and every Crop the Aspect
tab issues in that mode asks for a size that holds the whole source. -/
theorem C7_aspect_letterbox_mode_only_pads (f : ℚ → Int)
    (hf : ∀ x : ℚ, 0 ≤ x → |((f x : Int) : ℚ) - x| < 1)
    (mode : Int) (hmode : mode ≠ 0)
    (srcW srcH : Int) (hW : 1 ≤ srcW) (hH : 1 ≤ srcH) (r : ℚ) (hr : 0 < r) :
    srcW ≤ (aspectDims f mode srcW srcH r).1 ∧
    srcH ≤ (aspectDims f mode srcW srcH r).2 ∧
    (r > (srcW : ℚ) / (srcH : ℚ) → (aspectDims f mode srcW srcH r).2 = srcH) ∧
    (r < (srcW : ℚ) / (srcH : ℚ) → (aspectDims f mode srcW srcH r).1 = srcW) ∧
    (∀ (lib : AspectLib) (g : Globals) (inp : AspectTabInput) (profile : ProfileData)
      (res : ProfileData × List Effect),
      lib.tFloatToInt = f →
      (aspectTabProfile lib g inp profile).ResizeAspectMode = mode →
      lib.GetResizeAspectRatioFloat (aspectTabProfile lib g inp profile) = r →
      DoResizeCanvasAspectTab lib g inp srcW srcH profile = some res →
      ∀ e ∈ res.2, ∀ w t, e.cropSize = some (w, t) → srcW ≤ w ∧ srcH ≤ t) := by
  have key : srcW ≤ (aspectDims f mode srcW srcH r).1 ∧
      srcH ≤ (aspectDims f mode srcW srcH r).2 ∧
      (r > (srcW : ℚ) / (srcH : ℚ) → (aspectDims f mode srcW srcH r).2 = srcH) ∧
      (r < (srcW : ℚ) / (srcH : ℚ) → (aspectDims f mode srcW srcH r).1 = srcW) := by
    by_cases h1 : r > (srcW : ℚ) / (srcH : ℚ)
    · obtain ⟨h0, hgt⟩ := height_mul_gt srcW srcH hW hH r h1
      rw [aspectDims_letterbox_wider f mode hmode srcW srcH r h1]
      exact ⟨near_ge_of_gt f hf _ h0 _ hgt, le_refl _, fun _ => rfl,
        fun h => absurd h (not_lt.mpr (le_of_lt h1))⟩
    · by_cases h2 : r < (srcW : ℚ) / (srcH : ℚ)
      · obtain ⟨h0, hgt⟩ := width_div_gt srcW srcH hW hH r hr h2
        rw [aspectDims_letterbox_narrower f mode hmode srcW srcH r h2]
        exact ⟨le_refl _, near_ge_of_gt f hf _ h0 _ hgt, fun h => absurd h h1, fun _ => rfl⟩
      · rw [aspectDims_match f mode srcW srcH r h1 h2]
        exact ⟨le_refl _, le_refl _, fun _ => rfl, fun h => absurd h h2⟩
  refine ⟨key.1, key.2.1, key.2.2.1, key.2.2.2, ?_⟩
  intro lib g inp profile res hlib hm hratio hres e he w t hs
  have h := aspectTab_cropSize lib g inp srcW srcH profile res hres e he w t hs
  rw [hlib, hm, hratio] at h
  have hw : w = (aspectDims f mode srcW srcH r).1 := congrArg Prod.fst h
  have ht : t = (aspectDims f mode srcW srcH r).2 := congrArg Prod.snd h
  rw [hw, ht]
  exact ⟨key.1, key.2.1⟩

/-- Witness of C7: a 1000 x 1000 source padded to 16:9 with the rounding
conversion. -/
theorem C7_aspect_letterbox_mode_only_pads_witness :
    ((1 : Int) ≠ 0 ∧ (1 : Int) ≤ 1000 ∧ (0 : ℚ) < 16 / 9) ∧
    (1000 : Int) ≤ (aspectDims tFloatToIntRound 1 1000 1000 (16 / 9)).1 ∧
    (1000 : Int) ≤ (aspectDims tFloatToIntRound 1 1000 1000 (16 / 9)).2 :=
  ⟨⟨by decide, by decide, by norm_num⟩,
    (C7_aspect_letterbox_mode_only_pads tFloatToIntRound tFloatToIntRound_near 1 (by decide)
      1000 1000 (by decide) (by decide) (16 / 9) (by norm_num)).1,
    (C7_aspect_letterbox_mode_only_pads tFloatToIntRound tFloatToIntRound_near 1 (by decide)
      1000 1000 (by decide) (by decide) (16 / 9) (by norm_num)).2.1⟩

/-! ## C8 -/

/-- C8: a ratio match requires no change. When the target ratio equals the
source's `srcW / srcH`, the Aspect resize computes `dstW = srcW` and
`dstH = srcH` in every mode and with every `tFloatToInt`, `DoResizeCrop` then
has no effect, and a pass of the Aspect tab that presses Resize with such a
ratio only closes the popup. -/
theorem C8_ratio_match_requires_no_change (lib : AspectLib) (g : Globals)
    (inp : AspectTabInput) (srcW srcH : Int) (profile : ProfileData) (mode : Int) (r : ℚ)
    (hmatch : r = (srcW : ℚ) / (srcH : ℚ)) :
    aspectDims lib.tFloatToInt mode srcW srcH r = (srcW, srcH) ∧
    DoResizeCrop g (aspectTabProfile lib g inp profile) srcW srcH
      (aspectDims lib.tFloatToInt mode srcW srcH r).1
      (aspectDims lib.tFloatToInt mode srcW srcH r).2 = some [] ∧
    (lib.GetResizeAspectRatioFloat (aspectTabProfile lib g inp profile) = r →
      inp.resize = true →
      DoResizeCanvasAspectTab lib g inp srcW srcH profile =
        some (aspectTabProfile lib g inp profile,
          (if inp.cancel then [Effect.CloseCurrentPopup] else []) ++
            [Effect.CloseCurrentPopup])) := by
  have hd : ∀ m : Int, aspectDims lib.tFloatToInt m srcW srcH r = (srcW, srcH) := fun m =>
    aspectDims_match lib.tFloatToInt m srcW srcH r (by rw [hmatch]; exact lt_irrefl _)
      (by rw [hmatch]; exact lt_irrefl _)
  have hc : ∀ p : ProfileData, DoResizeCrop g p srcW srcH srcW srcH = some [] := fun p => by
    simp [DoResizeCrop]
  refine ⟨hd mode, ?_, ?_⟩
  · rw [hd mode]
    exact hc _
  · intro hr hres
    unfold DoResizeCanvasAspectTab
    simp only [hres, if_true, hr, hd, hc, List.append_nil]

/-- Witness of C8: a 1920 x 1080 source and the ratio 16:9. -/
theorem C8_ratio_match_requires_no_change_witness :
    ((16 / 9 : ℚ) = ((1920 : Int) : ℚ) / ((1080 : Int) : ℚ)) ∧
    aspectDims exampleLib.tFloatToInt 0 1920 1080 (16 / 9) = (1920, 1080) :=
  ⟨by norm_num,
    (C8_ratio_match_requires_no_change exampleLib exampleGlobals AspectTabInput.idle 1920 1080
      exampleProfile 0 (16 / 9) (by norm_num)).1⟩

/-! ## C9 -/

theorem tiClamp_bounds (v lo hi : Int) (h : lo ≤ hi) :
    lo ≤ tiClamp v lo hi ∧ tiClamp v lo hi ≤ hi := by
  unfold tiClamp
  split
  · exact ⟨le_refl _, h⟩
  · split
    · exact ⟨h, le_refl _⟩
    · constructor <;> omega

theorem DoFillColourInterface_user_ratio (g : Globals) (inp : FillInput) (contact : Bool)
    (profile : ProfileData) :
    (DoFillColourInterface g inp contact profile).ResizeAspectUserNum
        = profile.ResizeAspectUserNum ∧
    (DoFillColourInterface g inp contact profile).ResizeAspectUserDen
        = profile.ResizeAspectUserDen := by
  unfold DoFillColourInterface
  simp only
  split <;> exact ⟨rfl, rfl⟩

/-- C9: the user ratio's Num and Den are always positive. When the ratio read
after the Aspect combo is User, whatever integers are typed into the two
fields and whatever else is pressed, the profile at the end of a pass of
`DoResizeCanvasAspectTab` has `ResizeAspectUserNum` and `ResizeAspectUserDen`
in 1..99, so the denominator is not zero; the pass returns that profile; the
Reset values are 16 and 9 and so are the declared initial values of
`OperationAspect`. -/
theorem C9_user_ratio_in_range (lib : AspectLib) (g : Globals) (inp : AspectTabInput)
    (profile : ProfileData)
    (huser : lib.isUser
      { profile with ResizeAspectRatio := Combo inp.ratio profile.ResizeAspectRatio } = true) :
    (1 ≤ (aspectTabProfile lib g inp profile).ResizeAspectUserNum ∧
      (aspectTabProfile lib g inp profile).ResizeAspectUserNum ≤ 99) ∧
    (1 ≤ (aspectTabProfile lib g inp profile).ResizeAspectUserDen ∧
      (aspectTabProfile lib g inp profile).ResizeAspectUserDen ≤ 99) ∧
    (((aspectTabProfile lib g inp profile).ResizeAspectUserDen : Int) : ℚ) ≠ 0 ∧
    (∀ (srcW srcH : Int) (res : ProfileData × List Effect),
      DoResizeCanvasAspectTab lib g inp srcW srcH profile = some res →
      res.1 = aspectTabProfile lib g inp profile) ∧
    ((aspectReset lib profile).ResizeAspectUserNum = 16 ∧
      (aspectReset lib profile).ResizeAspectUserDen = 9) ∧
    (({} : Command.OperationAspect).Num = 16 ∧ ({} : Command.OperationAspect).Den = 9) := by
  have hin : (1 ≤ (aspectRatioInputs lib inp profile).ResizeAspectUserNum ∧
      (aspectRatioInputs lib inp profile).ResizeAspectUserNum ≤ 99) ∧
      (1 ≤ (aspectRatioInputs lib inp profile).ResizeAspectUserDen ∧
      (aspectRatioInputs lib inp profile).ResizeAspectUserDen ≤ 99) := by
    unfold aspectRatioInputs
    simp only [huser, if_true]
    exact ⟨tiClamp_bounds _ 1 99 (by decide), tiClamp_bounds _ 1 99 (by decide)⟩
  have hb : (1 ≤ (aspectTabProfile lib g inp profile).ResizeAspectUserNum ∧
      (aspectTabProfile lib g inp profile).ResizeAspectUserNum ≤ 99) ∧
      (1 ≤ (aspectTabProfile lib g inp profile).ResizeAspectUserDen ∧
      (aspectTabProfile lib g inp profile).ResizeAspectUserDen ≤ 99) := by
    unfold aspectTabProfile
    simp only
    split
    · simp [aspectReset]
    · split
      · simp only [DoResizeAnchorInterface]
        rw [(DoFillColourInterface_user_ratio _ _ _ _).1, (DoFillColourInterface_user_ratio _ _ _ _).2]
        exact hin
      · simp only [DoResizeAnchorInterface]
        exact hin
  refine ⟨hb.1, hb.2, ?_, ?_, ⟨rfl, rfl⟩, ⟨rfl, rfl⟩⟩
  · have h1 := hb.2.1
    intro h0
    have h2 : (aspectTabProfile lib g inp profile).ResizeAspectUserDen = 0 := by
      exact_mod_cast h0
    omega
  · intro srcW srcH res hres
    unfold DoResizeCanvasAspectTab at hres
    simp only at hres
    split at hres
    · split at hres
      · cases hres
      · simp only [Option.some.injEq] at hres
        rw [← hres]
    · simp only [Option.some.injEq] at hres
      rw [← hres]

/-- Witness of C9: 0 typed into Num and 250 into Den; the pass leaves 1 and
99. -/
theorem C9_user_ratio_in_range_witness :
    (exampleLib.isUser { exampleProfile with
      ResizeAspectRatio := Combo none exampleProfile.ResizeAspectRatio } = true) ∧
    (1 ≤ (aspectTabProfile exampleLib exampleGlobals
      { AspectTabInput.idle with num := some 0, den := some 250 }
      exampleProfile).ResizeAspectUserNum ∧
     (aspectTabProfile exampleLib exampleGlobals
      { AspectTabInput.idle with num := some 0, den := some 250 }
      exampleProfile).ResizeAspectUserNum ≤ 99) :=
  ⟨rfl,
    (C9_user_ratio_in_range exampleLib exampleGlobals
      { AspectTabInput.idle with num := some 0, den := some 250 } exampleProfile rfl).1⟩

end Viewer

namespace Command

/-! ## C10 -/

theorem runPipeline_applied {Img : Type} (apply : Operation → Img → Img × Bool)
    (ops : List Operation) : ∀ img : Img, (runPipeline apply ops img).2 = ops := by
  induction ops with
  | nil => intro img; rfl
  | cons o rest ih =>
    intro img
    simp only [runPipeline]
    rw [ih]

theorem buildPipeline_valid (ops : List Operation) (o : Operation) (h : o ∈ buildPipeline ops) :
    o.Valid = true := by
  unfold buildPipeline at h
  exact (List.mem_filter.mp h).2

/-- C10: an operation constructed from a malformed argument string has
`Valid = false` and is never applied. The seventeen kinds are the fifteen
operations and the two post-operations; for each, the declared initial value
of `Valid` is false; after construction `Valid` is true exactly when every
Required argument parsed and the invariant of the kind held, so it is false
whenever a Required argument did not parse; a Resize built from "abc,10",
from "10" or from "640,2" is invalid and one built from "640,480" is valid;
and every operation or post-operation the batch driver calls `Apply` on has
`Valid = true`. -/
theorem C10_invalid_operation_never_applied {Img : Type} (grammar : Grammar)
    (apply : Operation → Img → Img × Bool)
    (opArgs : List (OpKind × String)) (postArgs : List (PostKind × String))
    (images : List Img) :
    ((∀ k : Kind, k ∈ Kind.all) ∧ Kind.all.length = 15 + 2) ∧
    (∀ k : Kind, ValidInit k = false) ∧
    (∀ (k : Kind) (args : String),
      ((construct grammar k args).Valid = true ↔
        (parseRequired (grammar.args k) (tokens args) = true ∧
          grammar.invariant k (tokens args) = true)) ∧
      (parseRequired (grammar.args k) (tokens args) = false →
        (construct grammar k args).Valid = false)) ∧
    ((construct exampleGrammar (.op .Resize) "abc,10").Valid = false ∧
      (construct exampleGrammar (.op .Resize) "10").Valid = false ∧
      (construct exampleGrammar (.op .Resize) "640,2").Valid = false ∧
      (construct exampleGrammar (.op .Resize) "640,480").Valid = true) ∧
    (∀ o ∈ (runBatch grammar apply opArgs postArgs images).2, o.Valid = true) := by
  refine ⟨⟨?_, rfl⟩, ?_, ?_, ?_, ?_⟩
  · intro k
    rcases k with k | k <;> cases k <;> simp [Kind.all]
  · intro k
    cases k <;> rfl
  · intro k args
    unfold construct
    constructor
    · cases k <;> simp [ValidInit]
    · intro h
      cases k <;> simp [ValidInit, h]
  · refine ⟨?_, ?_, ?_, ?_⟩ <;> decide
  · intro o ho
    unfold runBatch at ho
    simp only [List.mem_append, List.mem_flatten, List.mem_map] at ho
    rcases ho with ⟨l, ⟨r, ⟨img, _, hr⟩, hl⟩, hol⟩ | ho
    · subst hr
      subst hl
      rw [runPipeline_applied] at hol
      exact buildPipeline_valid _ o hol
    · split at ho
      · cases ho
      · exact buildPipeline_valid _ o ho

end Command

namespace Command

/-! ## C11 -/

theorem overrideDuration_eq_none (ps : List IntervalDurationPair) (frameNum : Int) :
    overrideDuration ps frameNum = none ↔
      ∀ p ∈ ps, p.FrameInterval.Contains frameNum = false := by
  induction ps with
  | nil => simp [overrideDuration]
  | cons p rest ih =>
    simp only [overrideDuration, List.mem_cons, forall_eq_or_imp]
    cases h : overrideDuration rest frameNum with
    | some d =>
      constructor
      · intro h0
        cases h0
      · rintro ⟨_, hall⟩
        rw [ih.mpr hall] at h
        cases h
    | none =>
      have hrest := ih.mp h
      by_cases hc : p.FrameInterval.Contains frameNum = true
      · simp [hc]
      · have hf : p.FrameInterval.Contains frameNum = false := by simpa using hc
        simp only [hf, Bool.false_eq_true, if_false, true_and, true_iff]
        exact hrest

theorem overrideDuration_eq_some (ps : List IntervalDurationPair) (frameNum : Int) (d : ℚ)
    (h : overrideDuration ps frameNum = some d) :
    ∃ p ∈ ps, p.FrameInterval.Contains frameNum = true ∧ d = p.Duration / 1000 := by
  induction ps with
  | nil => simp [overrideDuration] at h
  | cons p rest ih =>
    simp only [overrideDuration] at h
    cases hr : overrideDuration rest frameNum with
    | some d' =>
      rw [hr] at h
      simp only [Option.some.injEq] at h
      subst h
      obtain ⟨q, hq, hc, hd⟩ := ih hr
      exact ⟨q, List.mem_cons_of_mem _ hq, hc, hd⟩
    | none =>
      rw [hr] at h
      by_cases hc : p.FrameInterval.Contains frameNum = true
      · simp only [hc, if_true, Option.some.injEq] at h
        exact ⟨p, List.mem_cons_self _ _, hc, h.symm⟩
      · simp [hc] at h

theorem tInterval_contains_iff (i : tInterval) (frameNum : Int) :
    i.Contains frameNum = true ↔ i.A ≤ frameNum ∧ frameNum ≤ i.B := by
  simp [tInterval.Contains]

/-- C11: Combine's per-frame duration. For every frame number,
`GetFrameDuration` is the duration of an override whose interval holds the
frame (bounds included), in seconds, when there is such an override, and
33/1000 s otherwise; with an empty `Durations` every frame gets 33/1000 s;
with the single override of 100 ms on [2,4], frames 2, 3 and 4 get 100/1000 s
and every other frame 33/1000 s. -/
theorem C11_combine_frame_duration (op : PostOperationCombine) (frameNum : Int) :
    ((∃ p ∈ op.Durations, p.FrameInterval.A ≤ frameNum ∧ frameNum ≤ p.FrameInterval.B) →
      ∃ p ∈ op.Durations, (p.FrameInterval.A ≤ frameNum ∧ frameNum ≤ p.FrameInterval.B) ∧
        op.GetFrameDuration frameNum = p.Duration / 1000) ∧
    ((∀ p ∈ op.Durations, ¬ (p.FrameInterval.A ≤ frameNum ∧ frameNum ≤ p.FrameInterval.B)) →
      op.GetFrameDuration frameNum = 33 / 1000) ∧
    (op.Durations = [] → op.GetFrameDuration frameNum = 33 / 1000) ∧
    (({} : PostOperationCombine).GetFrameDuration frameNum = 33 / 1000) ∧
    (exampleCombine.GetFrameDuration frameNum =
      if 2 ≤ frameNum ∧ frameNum ≤ 4 then 100 / 1000 else 33 / 1000) := by
  have hnone : (∀ p ∈ op.Durations,
      ¬ (p.FrameInterval.A ≤ frameNum ∧ frameNum ≤ p.FrameInterval.B)) →
      op.GetFrameDuration frameNum = 33 / 1000 := by
    intro hall
    have h : overrideDuration op.Durations frameNum = none := by
      rw [overrideDuration_eq_none]
      intro p hp
      have := hall p hp
      rw [← tInterval_contains_iff] at this
      simpa using this
    simp only [PostOperationCombine.GetFrameDuration, h]
  refine ⟨?_, hnone, ?_, ?_, ?_⟩
  · rintro ⟨p, hp, hin⟩
    cases h : overrideDuration op.Durations frameNum with
    | none =>
      rw [overrideDuration_eq_none] at h
      have h1 := h p hp
      have h2 := (tInterval_contains_iff p.FrameInterval frameNum).mpr hin
      rw [h1] at h2
      cases h2
    | some d =>
      obtain ⟨q, hq, hc, hd⟩ := overrideDuration_eq_some _ _ _ h
      refine ⟨q, hq, (tInterval_contains_iff _ _).mp hc, ?_⟩
      simp only [PostOperationCombine.GetFrameDuration, h, hd]
  · intro hempty
    apply hnone
    rw [hempty]
    intro p hp
    cases hp
  · rfl
  · by_cases h : 2 ≤ frameNum ∧ frameNum ≤ 4
    · simp [PostOperationCombine.GetFrameDuration, exampleCombine, overrideDuration,
        tInterval.Contains, h]
    · simp [PostOperationCombine.GetFrameDuration, exampleCombine, overrideDuration,
        tInterval.Contains, h]

end Command

namespace Command

/-! ## C12 -/

theorem ceilSqrt_pos (n : Nat) (hn : 1 ≤ n) : 1 ≤ ceilSqrt n := by
  have h : 0 < Nat.sqrt n := Nat.sqrt_pos.mpr hn
  unfold ceilSqrt
  split <;> omega

/-- The number `ceilSqrt n` is the least `c` with `n ≤ c * c`. -/
theorem ceilSqrt_spec (n : Nat) (hn : 1 ≤ n) :
    (ceilSqrt n - 1) * (ceilSqrt n - 1) < n ∧ n ≤ ceilSqrt n * ceilSqrt n := by
  have h0 : 0 < Nat.sqrt n := Nat.sqrt_pos.mpr hn
  have h1 := Nat.sqrt_le n
  have h2 := Nat.lt_succ_sqrt n
  unfold ceilSqrt
  split
  · rename_i heq
    constructor
    · have h3 : (Nat.sqrt n - 1) * (Nat.sqrt n - 1) < Nat.sqrt n * Nat.sqrt n :=
        Nat.mul_lt_mul'' (by omega) (by omega)
      omega
    · omega
  · rename_i hne
    constructor
    · simp only [Nat.add_sub_cancel]
      omega
    · exact le_of_lt h2

theorem ceilSqrt_eq_ceil (n : Nat) (hn : 1 ≤ n) : ceilSqrt n = ⌈Real.sqrt (n : ℝ)⌉₊ := by
  obtain ⟨hlt, hle⟩ := ceilSqrt_spec n hn
  have hpos := ceilSqrt_pos n hn
  symm
  rw [Nat.ceil_eq_iff (by omega)]
  constructor
  · rw [Real.lt_sqrt (Nat.cast_nonneg _)]
    have : (((ceilSqrt n - 1) * (ceilSqrt n - 1) : Nat) : ℝ) < (n : ℝ) := by exact_mod_cast hlt
    rw [pow_two]
    push_cast at this ⊢
    exact this
  · rw [Real.sqrt_le_left (Nat.cast_nonneg _)]
    have : ((n : Nat) : ℝ) ≤ ((ceilSqrt n * ceilSqrt n : Nat) : ℝ) := by exact_mod_cast hle
    rw [pow_two]
    push_cast at this
    exact this

/-- The ceiling division: `ceilDiv n c` rows of `c` cells hold `n` images, one
row less does not. -/
theorem ceilDiv_spec (n c : Nat) (hn : 1 ≤ n) (hc : 1 ≤ c) :
    n ≤ c * ceilDiv n c ∧ (ceilDiv n c - 1) * c < n := by
  unfold ceilDiv
  have h1 := Nat.div_add_mod (n + c - 1) c
  have h2 := Nat.mod_lt (n + c - 1) (by omega : c > 0)
  have h3 : 1 ≤ (n + c - 1) / c := by
    rw [Nat.le_div_iff_mul_le (by omega)]
    omega
  have h4 : ((n + c - 1) / c - 1) * c = c * ((n + c - 1) / c) - c := by
    rw [Nat.sub_mul, Nat.mul_comm, Nat.one_mul]
  constructor
  · omega
  · rw [h4]
    omega

theorem ceilDiv_eq_ceil (n c : Nat) (hn : 1 ≤ n) (hc : 1 ≤ c) :
    ceilDiv n c = ⌈(n : ℚ) / (c : ℚ)⌉₊ := by
  obtain ⟨h1, h2⟩ := ceilDiv_spec n c hn hc
  have hpos : 1 ≤ ceilDiv n c := by
    rcases Nat.eq_zero_or_pos (ceilDiv n c) with h | h
    · rw [h] at h1
      omega
    · exact h
  have hcq : (0 : ℚ) < (c : ℚ) := by exact_mod_cast hc
  symm
  rw [Nat.ceil_eq_iff (by omega)]
  constructor
  · rw [lt_div_iff₀ hcq]
    exact_mod_cast h2
  · rw [div_le_iff₀ hcq]
    have : ((n : Nat) : ℚ) ≤ ((ceilDiv n c * c : Nat) : ℚ) := by
      have h3 : n ≤ ceilDiv n c * c := by rw [Nat.mul_comm]; exact h1
      exact_mod_cast h3
    push_cast at this
    exact this

/-- C12: Contact's automatic grid fits every image. The declared defaults are
Columns = 0 and Rows = 0; for every image count `n ≥ 1` and every Contact with
both at 0, the grid has Columns = ceil(sqrt(n)) and Rows = ceil(n / Columns),
Columns * Rows ≥ n and (Rows - 1) * Columns < n; for `n = 5` the default
Contact gives a 3 x 2 grid with one cell left empty. -/
theorem C12_contact_auto_grid (op : PostOperationContact) (n : Nat) (hn : 1 ≤ n)
    (hcols : op.Columns = 0) (hrows : op.Rows = 0) :
    (({} : PostOperationContact).Columns = 0 ∧ ({} : PostOperationContact).Rows = 0) ∧
    (op.Grid n).1 = ⌈Real.sqrt (n : ℝ)⌉₊ ∧
    (op.Grid n).2 = ⌈(n : ℚ) / ((op.Grid n).1 : ℚ)⌉₊ ∧
    n ≤ (op.Grid n).1 * (op.Grid n).2 ∧
    ((op.Grid n).2 - 1) * (op.Grid n).1 < n ∧
    (({} : PostOperationContact).Grid 5 = (3, 2) ∧
      ({} : PostOperationContact).EmptyCells 5 = 1) := by
  have hg : op.Grid n = (ceilSqrt n, ceilDiv n (ceilSqrt n)) := by
    unfold PostOperationContact.Grid
    rw [if_pos ⟨hcols, hrows⟩]
  have hpos := ceilSqrt_pos n hn
  obtain ⟨h1, h2⟩ := ceilDiv_spec n (ceilSqrt n) hn hpos
  rw [hg]
  have hs : Nat.sqrt 5 = 2 := by
    symm
    rw [Nat.eq_sqrt]
    decide
  have h5 : ({} : PostOperationContact).Grid 5 = (3, 2) := by
    simp [PostOperationContact.Grid, ceilSqrt, ceilDiv, hs]
  refine ⟨⟨rfl, rfl⟩, ceilSqrt_eq_ceil n hn, ceilDiv_eq_ceil n (ceilSqrt n) hn hpos, h1, h2,
    h5, ?_⟩
  simp only [PostOperationContact.EmptyCells, h5]

/-- Witness of C12: five images on the default Contact. -/
theorem C12_contact_auto_grid_witness :
    ((1 : Nat) ≤ 5 ∧ ({} : PostOperationContact).Columns = 0 ∧
      ({} : PostOperationContact).Rows = 0) ∧
    5 ≤ (({} : PostOperationContact).Grid 5).1 * (({} : PostOperationContact).Grid 5).2 :=
  ⟨⟨by decide, rfl, rfl⟩,
    (C12_contact_auto_grid {} 5 (by decide) rfl rfl).2.2.2.1⟩

end Command

namespace Command

/-! ## C13 -/

/-- C13: a Quantize whose SampFilt is 0 fails validation. The declared
default of SampFilt is 0; a constructed Quantize with SampFilt = 0 has
`Valid = false`, whatever the other arguments; and an argument string of at
most three tokens, which omits the SampFilt token, leaves SampFilt at 0 and so
gives `Valid = false`. -/
theorem C13_quantize_sampfilt_zero_is_invalid
    (parseMethod : String → Option QuantizeMethod) (parseFlag : String → Option Bool)
    (parseDither : String → Option ℚ) (args : String) :
    ({} : OperationQuantize).SampFilt = 0 ∧
    ((OperationQuantize.construct parseMethod parseFlag parseDither args).SampFilt = 0 →
      (OperationQuantize.construct parseMethod parseFlag parseDither args).Valid = false) ∧
    ((tokens args).length ≤ 3 →
      (OperationQuantize.construct parseMethod parseFlag parseDither args).SampFilt = 0 ∧
      (OperationQuantize.construct parseMethod parseFlag parseDither args).Valid = false) ∧
    ((OperationQuantize.construct (fun _ => some QuantizeMethod.Fixed) parseFlag parseDither
        "fixed,256").Valid = false ∧
      (OperationQuantize.construct (fun _ => some QuantizeMethod.Fixed) (fun _ => some true)
        parseDither "fixed,256,true,0").Valid = false ∧
      (OperationQuantize.construct (fun _ => some QuantizeMethod.Fixed) (fun _ => some true)
        parseDither "fixed,256,true,3").Valid = true) := by
  have hz : (OperationQuantize.construct parseMethod parseFlag parseDither args).SampFilt = 0 →
      (OperationQuantize.construct parseMethod parseFlag parseDither args).Valid = false := by
    intro h
    simp only [OperationQuantize.construct] at h ⊢
    simp [h]
  refine ⟨rfl, hz, ?_, ?_, ?_, ?_⟩
  · intro hlen
    have hs : (OperationQuantize.construct parseMethod parseFlag parseDither args).SampFilt
        = 0 := by
      have hget : (tokens args)[3]? = none := List.getElem?_eq_none_iff.mpr (by omega)
      simp [OperationQuantize.construct, optionalField, parsedToken, hget]
    exact ⟨hs, hz hs⟩
  · have ht : tokens "fixed,256" = ["fixed", "256"] := by decide
    simp [OperationQuantize.construct, optionalField, parsedToken, ht]
  · have ht : tokens "fixed,256,true,0" = ["fixed", "256", "true", "0"] := by decide
    have h0 : parseInt "0" = some 0 := by decide
    simp [OperationQuantize.construct, optionalField, parsedToken, ht, h0]
  · have ht : tokens "fixed,256,true,3" = ["fixed", "256", "true", "3"] := by decide
    have h3 : parseInt "3" = some 3 := by decide
    have h256 : parseInt "256" = some 256 := by decide
    simp [OperationQuantize.construct, optionalField, parsedToken, ht, h3, h256]

/-! ## C14 -/

/-- C14: Levels' automatic midpoint keeps the ordering invariant. For every
BlackPoint ≤ WhitePoint, a MidPoint of -1 resolves to
(BlackPoint + WhitePoint) / 2 and the resolved value lies between the black
and the white point; for the declared defaults (0, -1, 1) it is 1/2. -/
theorem C14_levels_auto_midpoint (op : OperationLevels)
    (hbw : op.BlackPoint ≤ op.WhitePoint) (hmid : op.MidPoint = -1) :
    op.ResolvedMidPoint = (op.BlackPoint + op.WhitePoint) / 2 ∧
    op.BlackPoint ≤ op.ResolvedMidPoint ∧
    op.ResolvedMidPoint ≤ op.WhitePoint ∧
    op.Ordered ∧
    ((({} : OperationLevels).BlackPoint = 0 ∧ ({} : OperationLevels).MidPoint = -1 ∧
      ({} : OperationLevels).WhitePoint = 1) ∧
      ({} : OperationLevels).ResolvedMidPoint = 1 / 2) := by
  have hr : op.ResolvedMidPoint = (op.BlackPoint + op.WhitePoint) / 2 := by
    unfold OperationLevels.ResolvedMidPoint
    rw [if_pos hmid]
  have h1 : op.BlackPoint ≤ op.ResolvedMidPoint := by
    rw [hr]
    linarith
  have h2 : op.ResolvedMidPoint ≤ op.WhitePoint := by
    rw [hr]
    linarith
  refine ⟨hr, h1, h2, ⟨h1, h2⟩, ⟨rfl, rfl, rfl⟩, ?_⟩
  simp [OperationLevels.ResolvedMidPoint]

/-- Witness of C14: the declared defaults, black 0, mid -1, white 1. -/
theorem C14_levels_auto_midpoint_witness :
    (({} : OperationLevels).BlackPoint ≤ ({} : OperationLevels).WhitePoint ∧
      ({} : OperationLevels).MidPoint = -1) ∧
    ({} : OperationLevels).Ordered :=
  have h : ({} : OperationLevels).BlackPoint ≤ ({} : OperationLevels).WhitePoint := by
    show (0 : ℚ) ≤ 1
    norm_num
  ⟨⟨h, rfl⟩, (C14_levels_auto_midpoint {} h rfl).2.2.2.1⟩

/-! ## C15 -/

theorem map_map_map_id {α : Type} (f : α → α) (hf : ∀ x, f x = x) (img : List (List (List α))) :
    img.map (fun frame => frame.map (fun row => row.map f)) = img := by
  have h1 : ∀ row : List α, row.map f = row := fun row => by
    rw [List.map_congr_left (fun x _ => hf x)]
    exact List.map_id' row
  have h2 : ∀ frame : List (List α), frame.map (fun row => row.map f) = frame := fun frame => by
    rw [List.map_congr_left (fun row _ => h1 row)]
    exact List.map_id' frame
  rw [List.map_congr_left (fun frame _ => h2 frame)]
  exact List.map_id' img

/-- C15: Swizzle with the identity mapping is a no-op. The declared default
mapping is R from R, G from G, B from B, A from A; a Swizzle with that
mapping leaves every pixel as it is and `Apply` gives back every frame of the
image unchanged; in general each output channel is the named source read on
the original pixel, so exchanging red and green on the pixel (1, 2, 3, 4)
gives (2, 1, 3, 4). -/
theorem C15_swizzle_identity_is_noop (op : OperationSwizzle) (img : Image)
    (px : Viewer.tColour4b) :
    (({} : OperationSwizzle).SwizzleR = tComp.R ∧ ({} : OperationSwizzle).SwizzleG = tComp.G ∧
      ({} : OperationSwizzle).SwizzleB = tComp.B ∧ ({} : OperationSwizzle).SwizzleA = tComp.A) ∧
    (op.SwizzleR = tComp.R → op.SwizzleG = tComp.G → op.SwizzleB = tComp.B →
      op.SwizzleA = tComp.A → op.SwizzlePixel px = px ∧ op.Apply img = (img, true)) ∧
    (({} : OperationSwizzle).Apply img = (img, true)) ∧
    ((op.SwizzlePixel px).R = op.SwizzleR.Read px ∧ (op.SwizzlePixel px).G = op.SwizzleG.Read px ∧
      (op.SwizzlePixel px).B = op.SwizzleB.Read px ∧
      (op.SwizzlePixel px).A = op.SwizzleA.Read px) ∧
    exampleSwizzle.SwizzlePixel ⟨1, 2, 3, 4⟩ = ⟨2, 1, 3, 4⟩ := by
  have hid : ∀ o : OperationSwizzle, o.SwizzleR = tComp.R → o.SwizzleG = tComp.G →
      o.SwizzleB = tComp.B → o.SwizzleA = tComp.A → ∀ p, o.SwizzlePixel p = p := by
    intro o hR hG hB hA p
    simp [OperationSwizzle.SwizzlePixel, hR, hG, hB, hA, tComp.Read]
  have happ : ∀ o : OperationSwizzle, o.SwizzleR = tComp.R → o.SwizzleG = tComp.G →
      o.SwizzleB = tComp.B → o.SwizzleA = tComp.A → o.Apply img = (img, true) := by
    intro o hR hG hB hA
    unfold OperationSwizzle.Apply
    rw [map_map_map_id o.SwizzlePixel (hid o hR hG hB hA) img]
  refine ⟨⟨rfl, rfl, rfl, rfl⟩, ?_, happ {} rfl rfl rfl rfl, ⟨rfl, rfl, rfl, rfl⟩, ?_⟩
  · intro hR hG hB hA
    exact ⟨hid op hR hG hB hA px, happ op hR hG hB hA⟩
  · decide

/-! ## C16 -/

/-- C16: Rotate with Exact = Zero is the identity on pixel data. The declared
defaults are Angle = 0 and Exact = Zero; for every image, `Apply` of a Rotate
whose Exact is Zero gives back the image unchanged and succeeds, whatever the
angle, the mode, the filters, the fill colour and the continuous rotation of
the pixel library are. -/
theorem C16_rotate_zero_is_identity (rotateByAngle : OperationRotate → Image → Option Image)
    (op : OperationRotate) (img : Image) (hexact : op.Exact = ExactMode.Zero) :
    (({} : OperationRotate).Angle = 0 ∧ ({} : OperationRotate).Exact = ExactMode.Zero) ∧
    op.Apply rotateByAngle img = (img, true) ∧
    ({} : OperationRotate).Apply rotateByAngle img = (img, true) := by
  have h : ∀ o : OperationRotate, o.Exact = ExactMode.Zero →
      o.Apply rotateByAngle img = (img, true) := by
    intro o ho
    simp only [OperationRotate.Apply, ho, ExactMode.QuarterTurns, Function.iterate_zero, id_eq,
      List.map_id']
  exact ⟨⟨rfl, rfl⟩, h op hexact, h {} rfl⟩

/-- Witness of C16: a Rotate with other mode, filters and fill colour than the
defaults, on a 2 x 2 image, with a pixel library whose continuous rotation
always fails. -/
theorem C16_rotate_zero_is_identity_witness :
    exampleRotate.Exact = ExactMode.Zero ∧
    exampleRotate.Apply (fun _ _ => none) exampleImage = (exampleImage, true) :=
  ⟨rfl, (C16_rotate_zero_is_identity (fun _ _ => none) exampleRotate exampleImage rfl).2.1⟩

end Command

namespace Viewer

/-! ## C17 -/

/-- C17: Reset in the fill colour interface restores the declared default.
When Reset is pressed, the contact-sheet call leaves the contact-sheet fill
colour transparent, which is the declared `FillColour` of
`PostOperationContact`, and does not touch the ordinary fill colour; the
ordinary call leaves the fill colour black, which is the declared
`FillColour` of `OperationCanvas`, and does not touch the contact-sheet one. -/
theorem C17_fill_reset_restores_default (g : Globals) (inp : FillInput) (profile : ProfileData)
    (hreset : inp.reset = true) :
    ((DoFillColourInterface g inp true profile).FillColourContact = tColour4b.transparent ∧
      (DoFillColourInterface g inp true profile).FillColourContact
        = ({} : Command.PostOperationContact).FillColour ∧
      (DoFillColourInterface g inp true profile).FillColour = profile.FillColour) ∧
    ((DoFillColourInterface g inp false profile).FillColour = tColour4b.black ∧
      (DoFillColourInterface g inp false profile).FillColour
        = ({} : Command.OperationCanvas).FillColour ∧
      (DoFillColourInterface g inp false profile).FillColourContact
        = profile.FillColourContact) := by
  simp [DoFillColourInterface, hreset]

/-- Witness of C17: a pass that edits the colour and presses Reset. -/
theorem C17_fill_reset_restores_default_witness :
    (⟨some ⟨9, 9, 9, 9⟩, false, false, true⟩ : FillInput).reset = true ∧
    (DoFillColourInterface exampleGlobals ⟨some ⟨9, 9, 9, 9⟩, false, false, true⟩ true
      exampleProfile).FillColourContact = tColour4b.transparent :=
  ⟨rfl, (C17_fill_reset_restores_default exampleGlobals ⟨some ⟨9, 9, 9, 9⟩, false, false, true⟩
    exampleProfile rfl).1.1⟩

/-! ## C18 -/

theorem tiClampMin_bounds (v lo : Int) :
    lo ≤ tiClampMin v lo ∧ (lo ≤ v → tiClampMin v lo = v) := by
  unfold tiClampMin
  split
  · exact ⟨le_refl _, fun h => by omega⟩
  · exact ⟨by omega, fun _ => rfl⟩

theorem tiClamp_of_mem (v lo hi : Int) (h1 : lo ≤ v) (h2 : v ≤ hi) : tiClamp v lo hi = v := by
  unfold tiClamp
  rw [if_neg (by omega), if_neg (by omega)]

theorem SystemTab_limits (inp : SystemInput) (images : List Image) (deleteOnExit : Bool)
    (profile : SystemProfile) :
    (SystemTab inp images deleteOnExit profile).1.MaxUndoSteps
      = tiClamp (InputInt inp.maxUndoSteps profile.MaxUndoSteps).2 1 32 ∧
    (SystemTab inp images deleteOnExit profile).1.MaxImageMemMB
      = tiClampMin (InputInt inp.maxImageMemMB profile.MaxImageMemMB).2 256 ∧
    (SystemTab inp images deleteOnExit profile).1.MaxCacheFiles
      = tiClampMin (InputInt inp.maxCacheFiles profile.MaxCacheFiles).2 200 := by
  unfold SystemTab
  cases inp.gamma <;> exact ⟨rfl, rfl, rfl⟩

/-- C18: the System preferences keep their documented limits. Whatever is
typed into the three fields and whatever else is done in the pass, after one
pass of the System tab `MaxImageMemMB ≥ 256`, `MaxCacheFiles ≥ 200` and
`1 ≤ MaxUndoSteps ≤ 32`; and a value that is inside its limit, typed or left
as it was, is the value after the pass. -/
theorem C18_system_limits (inp : SystemInput) (images : List Image) (deleteOnExit : Bool)
    (profile : SystemProfile) :
    (256 ≤ (SystemTab inp images deleteOnExit profile).1.MaxImageMemMB ∧
      200 ≤ (SystemTab inp images deleteOnExit profile).1.MaxCacheFiles ∧
      1 ≤ (SystemTab inp images deleteOnExit profile).1.MaxUndoSteps ∧
      (SystemTab inp images deleteOnExit profile).1.MaxUndoSteps ≤ 32) ∧
    (1 ≤ (InputInt inp.maxUndoSteps profile.MaxUndoSteps).2 →
      (InputInt inp.maxUndoSteps profile.MaxUndoSteps).2 ≤ 32 →
      (SystemTab inp images deleteOnExit profile).1.MaxUndoSteps
        = (InputInt inp.maxUndoSteps profile.MaxUndoSteps).2) ∧
    (256 ≤ (InputInt inp.maxImageMemMB profile.MaxImageMemMB).2 →
      (SystemTab inp images deleteOnExit profile).1.MaxImageMemMB
        = (InputInt inp.maxImageMemMB profile.MaxImageMemMB).2) ∧
    (200 ≤ (InputInt inp.maxCacheFiles profile.MaxCacheFiles).2 →
      (SystemTab inp images deleteOnExit profile).1.MaxCacheFiles
        = (InputInt inp.maxCacheFiles profile.MaxCacheFiles).2) ∧
    (inp.maxUndoSteps = none → inp.maxImageMemMB = none → inp.maxCacheFiles = none →
      1 ≤ profile.MaxUndoSteps → profile.MaxUndoSteps ≤ 32 → 256 ≤ profile.MaxImageMemMB →
      200 ≤ profile.MaxCacheFiles →
      (SystemTab inp images deleteOnExit profile).1.MaxUndoSteps = profile.MaxUndoSteps ∧
      (SystemTab inp images deleteOnExit profile).1.MaxImageMemMB = profile.MaxImageMemMB ∧
      (SystemTab inp images deleteOnExit profile).1.MaxCacheFiles = profile.MaxCacheFiles) := by
  obtain ⟨hu, hm, hc⟩ := SystemTab_limits inp images deleteOnExit profile
  rw [hu, hm, hc]
  refine ⟨⟨(tiClampMin_bounds _ 256).1, (tiClampMin_bounds _ 200).1,
    (tiClamp_bounds _ 1 32 (by decide)).1, (tiClamp_bounds _ 1 32 (by decide)).2⟩,
    fun h1 h2 => tiClamp_of_mem _ 1 32 h1 h2, (tiClampMin_bounds _ 256).2,
    (tiClampMin_bounds _ 200).2, ?_⟩
  intro h1 h2 h3 hu1 hu2 hm1 hc1
  rw [h1, h2, h3]
  simp only [InputInt]
  exact ⟨tiClamp_of_mem _ 1 32 hu1 hu2, (tiClampMin_bounds _ 256).2 hm1,
    (tiClampMin_bounds _ 200).2 hc1⟩

/-! ## C19 -/

/-- C19: Aspect matches the target ratio to within one pixel. Both readings of
`tFloatToInt`, truncation and rounding to nearest, are within 1 of a
non-negative argument. With such a conversion, for a source of at least
1 x 1, a target ratio above 0 that differs from the source's, and either
mode, one dimension is kept and the other is recomputed: either the width is
kept and the height is the conversion of `srcW / r`, less than 1 from it, or
the height is kept and the width is the conversion of `srcH * r`, less than 1
from it. -/
theorem C19_aspect_within_one_pixel (f : ℚ → Int)
    (hf : ∀ x : ℚ, 0 ≤ x → |((f x : Int) : ℚ) - x| < 1)
    (mode : Int) (srcW srcH : Int) (hW : 1 ≤ srcW) (hH : 1 ≤ srcH) (r : ℚ) (hr : 0 < r)
    (hne : r ≠ (srcW : ℚ) / (srcH : ℚ)) :
    ((∀ x : ℚ, 0 ≤ x → |((tFloatToIntTrunc x : Int) : ℚ) - x| < 1) ∧
      (∀ x : ℚ, 0 ≤ x → |((tFloatToIntRound x : Int) : ℚ) - x| < 1)) ∧
    (((aspectDims f mode srcW srcH r).1 = srcW ∧
        (aspectDims f mode srcW srcH r).2 = f ((srcW : ℚ) / r) ∧
        |(((aspectDims f mode srcW srcH r).2 : Int) : ℚ) - (srcW : ℚ) / r| < 1) ∨
      ((aspectDims f mode srcW srcH r).2 = srcH ∧
        (aspectDims f mode srcW srcH r).1 = f ((srcH : ℚ) * r) ∧
        |(((aspectDims f mode srcW srcH r).1 : Int) : ℚ) - (srcH : ℚ) * r| < 1)) := by
  obtain ⟨h1, h2, _⟩ := srcAspect_pos srcW srcH hW hH
  have hdiv : (0 : ℚ) ≤ (srcW : ℚ) / r := le_of_lt (div_pos h1 hr)
  have hmul : (0 : ℚ) ≤ (srcH : ℚ) * r := le_of_lt (mul_pos h2 hr)
  refine ⟨⟨tFloatToIntTrunc_near, tFloatToIntRound_near⟩, ?_⟩
  rcases lt_or_gt_of_ne hne with hlt | hgt
  · by_cases hm : mode = 0
    · subst hm
      rw [aspectDims_crop_narrower f srcW srcH r hlt]
      exact Or.inr ⟨rfl, rfl, hf _ hmul⟩
    · rw [aspectDims_letterbox_narrower f mode hm srcW srcH r hlt]
      exact Or.inl ⟨rfl, rfl, hf _ hdiv⟩
  · by_cases hm : mode = 0
    · subst hm
      rw [aspectDims_crop_wider f srcW srcH r hgt]
      exact Or.inl ⟨rfl, rfl, hf _ hdiv⟩
    · rw [aspectDims_letterbox_wider f mode hm srcW srcH r hgt]
      exact Or.inr ⟨rfl, rfl, hf _ hmul⟩

/-- Witness of C19: a 1000 x 1000 source cut to 16:9 with the rounding
conversion. -/
theorem C19_aspect_within_one_pixel_witness :
    ((0 : Int) = 0 ∧ (1 : Int) ≤ 1000 ∧ (0 : ℚ) < 16 / 9 ∧
      (16 / 9 : ℚ) ≠ ((1000 : Int) : ℚ) / ((1000 : Int) : ℚ)) ∧
    (((aspectDims tFloatToIntRound 0 1000 1000 (16 / 9)).1 = 1000 ∧
        (aspectDims tFloatToIntRound 0 1000 1000 (16 / 9)).2
          = tFloatToIntRound (((1000 : Int) : ℚ) / (16 / 9)) ∧
        |(((aspectDims tFloatToIntRound 0 1000 1000 (16 / 9)).2 : Int) : ℚ)
          - ((1000 : Int) : ℚ) / (16 / 9)| < 1) ∨
      ((aspectDims tFloatToIntRound 0 1000 1000 (16 / 9)).2 = 1000 ∧
        (aspectDims tFloatToIntRound 0 1000 1000 (16 / 9)).1
          = tFloatToIntRound (((1000 : Int) : ℚ) * (16 / 9)) ∧
        |(((aspectDims tFloatToIntRound 0 1000 1000 (16 / 9)).1 : Int) : ℚ)
          - ((1000 : Int) : ℚ) * (16 / 9)| < 1)) :=
  ⟨⟨rfl, by decide, by norm_num, by norm_num⟩,
    (C19_aspect_within_one_pixel tFloatToIntRound tFloatToIntRound_near 0 1000 1000
      (by decide) (by decide) (16 / 9) (by norm_num) (by norm_num)).2⟩

end Viewer

namespace Viewer

/-! ## C20 -/

theorem unloadAll_mem (images : List Image) (j : Nat) :
    SysEffect.Unload j ∈ unloadAll images ↔ j < images.length := by
  simp [unloadAll]

/-- What the outer loop unloads when every image it visits is a JPG. -/
theorem orientLoop_all_jpg (images : List Image) :
    ∀ (rest : List Image) (k j : Nat), (∀ i ∈ rest, i.Filetype = tFileType.JPG) →
      (SysEffect.Unload j ∈ orientLoop images k rest ↔
        k ≤ j ∧ ∃ i, rest[j - k]? = some i ∧
          i.MetaDataIsValid = true ∧ i.OrientationIsSet = true) := by
  intro rest
  induction rest with
  | nil =>
    intro k j _
    simp [orientLoop]
  | cons i rest ih =>
    intro k j hall
    have hi : i.Filetype = tFileType.JPG := hall i (List.mem_cons_self _ _)
    have hrest : ∀ i' ∈ rest, i'.Filetype = tFileType.JPG :=
      fun i' h => hall i' (List.mem_cons_of_mem _ h)
    simp only [orientLoop, hi, if_true, List.mem_append, ih (k + 1) j hrest]
    rcases Nat.lt_trichotomy j k with hlt | heq | hgt
    · constructor
      · rintro (h | h)
        · split at h
          · simp only [List.mem_singleton, SysEffect.Unload.injEq] at h
            omega
          · cases h
        · omega
      · rintro ⟨h, _⟩
        omega
    · subst heq
      simp only [Nat.sub_self, List.getElem?_cons_zero, Option.some.injEq, exists_eq_left',
        le_refl, true_and]
      constructor
      · rintro (h | h)
        · split at h
          · rename_i hc
            simpa using hc
          · cases h
        · omega
      · intro h
        left
        rw [if_pos (by simpa using h)]
        exact List.mem_singleton_self _
    · have hsub : j - k = (j - (k + 1)) + 1 := by omega
      rw [hsub, List.getElem?_cons_succ]
      constructor
      · rintro (h | h)
        · split at h
          · simp only [List.mem_singleton, SysEffect.Unload.injEq] at h
            omega
          · cases h
        · exact ⟨by omega, h.2⟩
      · rintro ⟨_, h⟩
        exact Or.inr ⟨by omega, h⟩

/-- The outer loop unloads every image once it visits one that is not a JPG. -/
theorem orientLoop_not_jpg (images : List Image) :
    ∀ (rest : List Image) (k j : Nat), (∃ i ∈ rest, i.Filetype ≠ tFileType.JPG) →
      j < images.length → SysEffect.Unload j ∈ orientLoop images k rest := by
  intro rest
  induction rest with
  | nil =>
    rintro k j ⟨i, hi, _⟩ _
    cases hi
  | cons i rest ih =>
    rintro k j ⟨i', hi', hne⟩ hj
    simp only [orientLoop, List.mem_append]
    by_cases hi : i.Filetype = tFileType.JPG
    · right
      rcases List.mem_cons.mp hi' with h | h
      · subst h
        exact absurd hi hne
      · exact ih (k + 1) j ⟨i', h, hne⟩ hj
    · left
      rw [if_neg hi]
      exact (unloadAll_mem images j).mpr hj

/-- The outer loop unloads only images of the list. -/
theorem orientLoop_index_lt (images : List Image) :
    ∀ (rest : List Image) (k j : Nat), k + rest.length ≤ images.length →
      SysEffect.Unload j ∈ orientLoop images k rest → j < images.length := by
  intro rest
  induction rest with
  | nil =>
    intro k j _ h
    cases h
  | cons i rest ih =>
    intro k j hk h
    simp only [List.length_cons] at hk
    simp only [orientLoop, List.mem_append] at h
    rcases h with h | h
    · split at h
      · split at h
        · simp only [List.mem_singleton, SysEffect.Unload.injEq] at h
          omega
        · cases h
      · exact (unloadAll_mem images j).mp h
    · exact ih (k + 1) j (by omega) h

/-- C20: what toggling Meta Data Orient Loading unloads. A click on the
checkbox runs the loop and then loads the current image; without a click
nothing is unloaded. If every image of the list is a JPG, the images unloaded
are exactly those whose cached meta-data is valid and has the Orientation tag
set; if at least one image is not a JPG, every image of the list is unloaded;
in both cases every image whose cached meta-data is valid and has the
Orientation tag set is unloaded, and so is every image with the tag set when
a set tag implies valid meta-data; only images of the list are unloaded. -/
theorem C20_orient_loading_unloads (inp : SystemInput) (images : List Image)
    (deleteOnExit : Bool) (profile : SystemProfile) (j : Nat) :
    (inp.orientLoading = false →
      SysEffect.Unload j ∉ (SystemTab inp images deleteOnExit profile).2.2) ∧
    (inp.orientLoading = true →
      ((SysEffect.Unload j ∈ (SystemTab inp images deleteOnExit profile).2.2 ↔
          SysEffect.Unload j ∈ orientLoop images 0 images) ∧
        SysEffect.LoadCurrent ∈ (SystemTab inp images deleteOnExit profile).2.2)) ∧
    ((∀ i ∈ images, i.Filetype = tFileType.JPG) →
      (SysEffect.Unload j ∈ orientLoop images 0 images ↔
        ∃ i, images[j]? = some i ∧ i.MetaDataIsValid = true ∧ i.OrientationIsSet = true)) ∧
    ((∃ i ∈ images, i.Filetype ≠ tFileType.JPG) →
      (SysEffect.Unload j ∈ orientLoop images 0 images ↔ j < images.length)) ∧
    (∀ i, images[j]? = some i → i.MetaDataIsValid = true → i.OrientationIsSet = true →
      SysEffect.Unload j ∈ orientLoop images 0 images) ∧
    ((∀ i ∈ images, i.OrientationIsSet = true → i.MetaDataIsValid = true) →
      ∀ i, images[j]? = some i → i.OrientationIsSet = true →
        SysEffect.Unload j ∈ orientLoop images 0 images) := by
  have hmem : ∀ i, images[j]? = some i → i ∈ images ∧ j < images.length := by
    intro i hi
    obtain ⟨hlt, heq⟩ := List.getElem?_eq_some_iff.mp hi
    exact ⟨heq ▸ List.getElem_mem hlt, hlt⟩
  have hset : ∀ i, images[j]? = some i → i.MetaDataIsValid = true →
      i.OrientationIsSet = true → SysEffect.Unload j ∈ orientLoop images 0 images := by
    intro i hi hv ho
    by_cases hall : ∀ i ∈ images, i.Filetype = tFileType.JPG
    · rw [orientLoop_all_jpg images images 0 j hall]
      exact ⟨Nat.zero_le _, i, by simpa using hi, hv, ho⟩
    · have hex : ∃ i ∈ images, i.Filetype ≠ tFileType.JPG := by
        by_contra hcon
        apply hall
        intro i' hi'
        by_contra hne
        exact hcon ⟨i', hi', hne⟩
      exact orientLoop_not_jpg images images 0 j hex (hmem i hi).2
  refine ⟨?_, ?_, ?_, ?_, hset, ?_⟩
  · intro hclick
    unfold SystemTab
    simp only [Checkbox, hclick, Bool.false_eq_true, if_false]
    cases inp.gamma <;> by_cases hb : inp.resetBookmarks = true <;> simp [hb]
  · intro hclick
    unfold SystemTab
    simp only [Checkbox, hclick, if_true, orientLoadingChanged]
    cases inp.gamma <;> by_cases hb : inp.resetBookmarks = true <;> simp [hb]
  · intro hall
    rw [orientLoop_all_jpg images images 0 j hall]
    simp
  · intro hex
    exact ⟨orientLoop_index_lt images images 0 j (by omega),
      orientLoop_not_jpg images images 0 j hex⟩
  · intro hinv i hi ho
    exact hset i hi (hinv i (hmem i hi).1 ho) ho

end Viewer

namespace Viewer

/-- Witness of C18: 0 typed into Max Undo Steps and nothing else touched; the
pass leaves 1 there and keeps the two other values, which are inside their
limits. -/
theorem C18_system_limits_witness :
    ((256 : Int) ≤ (InputInt none exampleSystemProfile.MaxImageMemMB).2) ∧
    (SystemTab { SystemInput.idle with maxUndoSteps := some 0 } exampleJpgs false
      exampleSystemProfile).1.MaxImageMemMB
        = (InputInt none exampleSystemProfile.MaxImageMemMB).2 :=
  ⟨by decide,
    (C18_system_limits { SystemInput.idle with maxUndoSteps := some 0 } exampleJpgs false
      exampleSystemProfile).2.2.1 (by decide)⟩

/-- Witness of C20: three JPGs of which the second has a valid Orientation
tag; the second is unloaded. -/
theorem C20_orient_loading_unloads_witness :
    (∀ i ∈ exampleJpgs, i.Filetype = tFileType.JPG) ∧
    SysEffect.Unload 1 ∈ orientLoop exampleJpgs 0 exampleJpgs :=
  have hall : ∀ i ∈ exampleJpgs, i.Filetype = tFileType.JPG := by decide
  ⟨hall,
    ((C20_orient_loading_unloads SystemInput.idle exampleJpgs false exampleSystemProfile
      1).2.2.1 hall).mpr ⟨⟨tFileType.JPG, true, true⟩, rfl, rfl, rfl⟩⟩

end Viewer

namespace Command

/-- Witness of C11: frame 3 lies in the override of `exampleCombine` and gets
its 100 ms. -/
theorem C11_combine_frame_duration_witness :
    (∃ p ∈ exampleCombine.Durations, p.FrameInterval.A ≤ 3 ∧ 3 ≤ p.FrameInterval.B) ∧
    ∃ p ∈ exampleCombine.Durations, (p.FrameInterval.A ≤ 3 ∧ 3 ≤ p.FrameInterval.B) ∧
      exampleCombine.GetFrameDuration 3 = p.Duration / 1000 :=
  have h : ∃ p ∈ exampleCombine.Durations, p.FrameInterval.A ≤ 3 ∧ 3 ≤ p.FrameInterval.B :=
    ⟨⟨⟨2, 4⟩, 100⟩, List.mem_singleton_self _, by decide, by decide⟩
  ⟨h, (C11_combine_frame_duration exampleCombine 3).1 h⟩

/-- Witness of C13: "fixed,256" has two tokens, so SampFilt stays 0 and the
operation is invalid. -/
theorem C13_quantize_sampfilt_zero_is_invalid_witness :
    (tokens "fixed,256").length ≤ 3 ∧
    (OperationQuantize.construct (fun _ => some QuantizeMethod.Fixed) (fun _ => none)
      (fun _ => none) "fixed,256").Valid = false :=
  have h : (tokens "fixed,256").length ≤ 3 := by decide
  ⟨h, ((C13_quantize_sampfilt_zero_is_invalid (fun _ => some QuantizeMethod.Fixed)
    (fun _ => none) (fun _ => none) "fixed,256").2.2.1 h).2⟩

/-- Witness of C15: the default Swizzle on the pixel (1, 2, 3, 4). -/
theorem C15_swizzle_identity_is_noop_witness :
    ({} : OperationSwizzle).SwizzlePixel ⟨1, 2, 3, 4⟩ = ⟨1, 2, 3, 4⟩ :=
  ((C15_swizzle_identity_is_noop {} exampleImage ⟨1, 2, 3, 4⟩).2.1 rfl rfl rfl rfl).1

end Command

namespace Viewer

/-! ## C21 -/

/-- C21: the details overlay sits in the corner its menu entry names. For
every area `(x, y, w, h)`: corner 0 puts the window at the top-left corner of
the area, 1 at the top-right, 2 at the bottom-left and 3 at the bottom-right,
each inset by 6 on both axes, with the pivot on the same corner; the pass
places the window from the corner held on entry; an item of the menu that is
chosen alone stores its own number; and the corner after the pass is the one
held on entry or one of 0, 1, 2, 3. -/
theorem C21_overlay_corner (windowShown : Bool) (inp : OverlayMenuInput) (popen : Option Bool)
    (x y w h : ℚ) (OverlayCorner : Int) :
    (overlayPlacement 0 x y w h = ⟨x + 6, y + 6, 0, 0⟩ ∧
      overlayPlacement 1 x y w h = ⟨x + (w - 6), y + 6, 1, 0⟩ ∧
      overlayPlacement 2 x y w h = ⟨x + 6, y + (h - 6), 0, 1⟩ ∧
      overlayPlacement 3 x y w h = ⟨x + (w - 6), y + (h - 6), 1, 1⟩) ∧
    (ShowImageDetailsOverlay windowShown inp popen x y w h OverlayCorner).1
      = overlayPlacement OverlayCorner x y w h ∧
    ((overlayMenu ⟨true, true, false, false, false, false⟩ OverlayCorner popen).1 = 0 ∧
      (overlayMenu ⟨true, false, true, false, false, false⟩ OverlayCorner popen).1 = 1 ∧
      (overlayMenu ⟨true, false, false, true, false, false⟩ OverlayCorner popen).1 = 2 ∧
      (overlayMenu ⟨true, false, false, false, true, false⟩ OverlayCorner popen).1 = 3) ∧
    ((ShowImageDetailsOverlay windowShown inp popen x y w h OverlayCorner).2.1 = OverlayCorner ∨
      (0 ≤ (ShowImageDetailsOverlay windowShown inp popen x y w h OverlayCorner).2.1 ∧
        (ShowImageDetailsOverlay windowShown inp popen x y w h OverlayCorner).2.1 ≤ 3)) := by
  have h1 : Int.land 0 1 = 0 := by decide
  have h2 : Int.land 0 2 = 0 := by decide
  have h3 : Int.land 1 1 = 1 := by decide
  have h4 : Int.land 1 2 = 0 := by decide
  have h5 : Int.land 2 1 = 0 := by decide
  have h6 : Int.land 2 2 = 2 := by decide
  have h7 : Int.land 3 1 = 1 := by decide
  have h8 : Int.land 3 2 = 2 := by decide
  refine ⟨⟨?_, ?_, ?_, ?_⟩, ?_, ⟨rfl, rfl, rfl, rfl⟩, ?_⟩
  · simp [overlayPlacement, h1, h2]
  · simp [overlayPlacement, h3, h4]
  · simp [overlayPlacement, h5, h6]
  · simp [overlayPlacement, h7, h8]
  · unfold ShowImageDetailsOverlay
    split <;> rfl
  · unfold ShowImageDetailsOverlay overlayMenu
    by_cases hs : windowShown = true
    · by_cases hm : inp.menuOpen = true
      · simp only [hs, hm, if_true]
        by_cases h3 : inp.bottomRight = true
        · right
          simp [h3]
        · by_cases h2 : inp.bottomLeft = true
          · right
            simp [h3, h2]
          · by_cases h1 : inp.topRight = true
            · right
              simp [h3, h2, h1]
            · by_cases h0 : inp.topLeft = true
              · right
                simp [h3, h2, h1, h0]
              · left
                simp [h3, h2, h1, h0]
      · left
        simp [hs, hm]
    · left
      simp [hs]

/-! ## C24 -/

theorem whUpToSecondClamp_bounds (lo hi : Int → Int) (MaxDim : Int) (hMax : 4 ≤ MaxDim)
    (inp : WHInput) (srcW srcH : Int) (s : WHState) :
    (4 ≤ (whUpToSecondClamp lo hi MaxDim inp srcW srcH s).dstW ∧
      (whUpToSecondClamp lo hi MaxDim inp srcW srcH s).dstW ≤ MaxDim) ∧
    (4 ≤ (whUpToSecondClamp lo hi MaxDim inp srcW srcH s).dstH ∧
      (whUpToSecondClamp lo hi MaxDim inp srcW srcH s).dstH ≤ MaxDim) := by
  simp only [whUpToSecondClamp]
  exact ⟨tiClamp_bounds _ 4 MaxDim hMax, tiClamp_bounds _ 4 MaxDim hMax⟩

/-- C24: the width and height interface returns clamped dimensions whenever no
height power-of-two button is pressed. For every source size, in particular
every one of at least 1 x 1, every typed width and height, every lock-aspect state and click, either width
power-of-two button and any `MaxDim ≥ 4`: if neither height power-of-two
button is pressed in the pass, the function returns what it had after the
clamp on line 78, so `4 ≤ dstW ≤ MaxDim` and `4 ≤ dstH ≤ MaxDim`. -/
theorem C24_clamped_without_height_buttons (lo hi : Int → Int) (MaxDim : Int)
    (hMax : 4 ≤ MaxDim) (inp : WHInput) (srcW srcH : Int)
    (s : WHState) (hLo : inp.hLo = false) (hHi : inp.hHi = false) :
    DoResizeWidthHeightInterface lo hi MaxDim inp srcW srcH s
      = whUpToSecondClamp lo hi MaxDim inp srcW srcH s ∧
    (4 ≤ (DoResizeWidthHeightInterface lo hi MaxDim inp srcW srcH s).dstW ∧
      (DoResizeWidthHeightInterface lo hi MaxDim inp srcW srcH s).dstW ≤ MaxDim) ∧
    (4 ≤ (DoResizeWidthHeightInterface lo hi MaxDim inp srcW srcH s).dstH ∧
      (DoResizeWidthHeightInterface lo hi MaxDim inp srcW srcH s).dstH ≤ MaxDim) := by
  have heq : DoResizeWidthHeightInterface lo hi MaxDim inp srcW srcH s
      = whUpToSecondClamp lo hi MaxDim inp srcW srcH s := by
    simp [DoResizeWidthHeightInterface, hLo, hHi]
  rw [heq]
  exact ⟨rfl, whUpToSecondClamp_bounds lo hi MaxDim hMax inp srcW srcH s⟩

/-- Witness of C24: the 1 x 1024 source of C2 with the aspect locked, 3 typed
into the Width field and the higher power-of-two button of the width pressed,
no height button. -/
theorem C24_clamped_without_height_buttons_witness :
    ((4 : Int) ≤ 65536 ∧
      (⟨some 3, false, true, false, none, false, false⟩ : WHInput).hLo = false ∧
      (⟨some 3, false, true, false, none, false, false⟩ : WHInput).hHi = false) ∧
    (4 ≤ (DoResizeWidthHeightInterface tNextLowerPower2 tNextHigherPower2 65536
        ⟨some 3, false, true, false, none, false, false⟩ 1 1024 ⟨true, 1, 1024⟩).dstW ∧
      (DoResizeWidthHeightInterface tNextLowerPower2 tNextHigherPower2 65536
        ⟨some 3, false, true, false, none, false, false⟩ 1 1024 ⟨true, 1, 1024⟩).dstW
        ≤ 65536) :=
  ⟨⟨by decide, rfl, rfl⟩,
    (C24_clamped_without_height_buttons tNextLowerPower2 tNextHigherPower2 65536 (by decide)
      ⟨some 3, false, true, false, none, false, false⟩ 1 1024
      ⟨true, 1, 1024⟩ rfl rfl).2.1⟩

end Viewer

namespace Viewer

/-! ## C25 -/

theorem anchorButton_range (pressed : Bool) (k a : Int) (hk : 0 ≤ k ∧ k ≤ 8)
    (ha : -1 ≤ a ∧ a ≤ 8) :
    -1 ≤ anchorButton pressed k a ∧ anchorButton pressed k a ≤ 8 := by
  unfold anchorButton
  simp only
  split
  · split <;> constructor <;> omega
  · exact ha

theorem DoResizeAnchorInterface_range (inp : AnchorInput) (profile : ProfileData)
    (ha : -1 ≤ profile.CropAnchor ∧ profile.CropAnchor ≤ 8) :
    -1 ≤ (DoResizeAnchorInterface inp profile).CropAnchor ∧
      (DoResizeAnchorInterface inp profile).CropAnchor ≤ 8 := by
  simp only [DoResizeAnchorInterface]
  have h0 := anchorButton_range inp.TL Anchor.TL _ (by decide) ha
  have h1 := anchorButton_range inp.TM Anchor.TM _ (by decide) h0
  have h2 := anchorButton_range inp.TR Anchor.TR _ (by decide) h1
  have h3 := anchorButton_range inp.ML Anchor.ML _ (by decide) h2
  have h4 := anchorButton_range inp.MM Anchor.MM _ (by decide) h3
  have h5 := anchorButton_range inp.MR Anchor.MR _ (by decide) h4
  have h6 := anchorButton_range inp.BL Anchor.BL _ (by decide) h5
  have h7 := anchorButton_range inp.BM Anchor.BM _ (by decide) h6
  exact anchorButton_range inp.BR Anchor.BR _ (by decide) h7

theorem DoFillColourInterface_CropAnchor (g : Globals) (inp : FillInput) (contact : Bool)
    (profile : ProfileData) :
    (DoFillColourInterface g inp contact profile).CropAnchor = profile.CropAnchor := by
  unfold DoFillColourInterface
  simp only
  split <;> rfl

theorem anchorLabel_isSome (a : Int) (ha : -1 ≤ a ∧ a ≤ 8) : (anchorLabel a).isSome = true := by
  obtain ⟨h1, h2⟩ := ha
  have hcases : a = -1 ∨ a = 0 ∨ a = 1 ∨ a = 2 ∨ a = 3 ∨ a = 4 ∨ a = 5 ∨ a = 6 ∨ a = 7 ∨
      a = 8 := by omega
  rcases hcases with h | h | h | h | h | h | h | h | h | h <;> subst h <;> decide

/-- C25: the crop anchor stays in range. Starting from a `CropAnchor` in
-1..8: every pass of the anchor interface leaves it in -1..8; a pass in which
the button of one anchor alone is pressed sets -1 when that anchor was the
selected one and that anchor otherwise; Reset in the Anchor tab and in the
Aspect tab sets 4; the Anchor tab, the Aspect tab and the Remove Borders tab
leave it in -1..8; and a `CropAnchor` other than -1 is an index inside the
nine entries of `longNames`, so the label of the anchor is defined. -/
theorem C25_crop_anchor_in_range (inp : AnchorInput) (profile : ProfileData)
    (hlo : -1 ≤ profile.CropAnchor) (hhi : profile.CropAnchor ≤ 8) :
    (-1 ≤ (DoResizeAnchorInterface inp profile).CropAnchor ∧
      (DoResizeAnchorInterface inp profile).CropAnchor ≤ 8) ∧
    (∀ k : Int, 0 ≤ k → k ≤ 8 →
      (DoResizeAnchorInterface (AnchorInput.only k) profile).CropAnchor
        = if profile.CropAnchor = k then -1 else k) ∧
    (∀ (lo hi : Int → Int) (MaxDim : Int) (g : Globals) (tin : AnchorTabInput)
      (firstOpen : Bool) (srcW srcH : Int) (s : WHState)
      (res : WHState × ProfileData × List Effect),
      DoResizeCanvasAnchorTab lo hi MaxDim g tin firstOpen srcW srcH s profile = some res →
      (-1 ≤ res.2.1.CropAnchor ∧ res.2.1.CropAnchor ≤ 8) ∧
      (tin.reset = true → res.2.1.CropAnchor = 4)) ∧
    (∀ (lib : AspectLib) (g : Globals) (ain : AspectTabInput),
      (-1 ≤ (aspectTabProfile lib g ain profile).CropAnchor ∧
        (aspectTabProfile lib g ain profile).CropAnchor ≤ 8) ∧
      (ain.reset = true → (aspectTabProfile lib g ain profile).CropAnchor = 4)) ∧
    (∀ (bits : CompBits) (g : Globals) (bin : BordersInput) (c : BorderChannels),
      (DoResizeCanvasRemoveBordersTab bits g bin c profile).2.1.CropAnchor
        = profile.CropAnchor) ∧
    (longNames.length = 9 ∧
      (profile.CropAnchor ≠ -1 →
        0 ≤ profile.CropAnchor ∧ profile.CropAnchor.toNat < longNames.length) ∧
      (anchorLabel profile.CropAnchor).isSome = true ∧
      (anchorLabel (DoResizeAnchorInterface inp profile).CropAnchor).isSome = true) := by
  have hin := DoResizeAnchorInterface_range inp profile ⟨hlo, hhi⟩
  refine ⟨hin, ?_, ?_, ?_, ?_, rfl, ?_, anchorLabel_isSome _ ⟨hlo, hhi⟩,
    anchorLabel_isSome _ hin⟩
  · intro k hk0 hk8
    have hcases : k = 0 ∨ k = 1 ∨ k = 2 ∨ k = 3 ∨ k = 4 ∨ k = 5 ∨ k = 6 ∨ k = 7 ∨ k = 8 := by
      omega
    rcases hcases with h | h | h | h | h | h | h | h | h <;> subst h <;>
      simp [DoResizeAnchorInterface, AnchorInput.only, anchorButton, Anchor.TL, Anchor.TM,
        Anchor.TR, Anchor.ML, Anchor.MM, Anchor.MR, Anchor.BL, Anchor.BM, Anchor.BR]
  · intro lo hi MaxDim g tin firstOpen srcW srcH s res hres
    unfold DoResizeCanvasAnchorTab at hres
    simp only at hres
    have hfill : ∀ (b : Prop) [Decidable b],
        (-1 ≤ (if b then DoFillColourInterface g tin.fill false profile else profile).CropAnchor ∧
          (if b then DoFillColourInterface g tin.fill false profile else profile).CropAnchor
            ≤ 8) := by
      intro b _
      split
      · rw [DoFillColourInterface_CropAnchor]
        exact ⟨hlo, hhi⟩
      · exact ⟨hlo, hhi⟩
    have hanch := fun (b : Prop) [Decidable b] =>
      DoResizeAnchorInterface_range tin.anchor _ (hfill b)
    by_cases hr : tin.reset = true
    · simp only [hr, if_true] at hres
      split at hres
      · split at hres
        · cases hres
        · simp only [Option.some.injEq] at hres
          subst hres
          exact ⟨⟨by simp, by simp⟩, fun _ => rfl⟩
      · simp only [Option.some.injEq] at hres
        subst hres
        exact ⟨⟨by simp, by simp⟩, fun _ => rfl⟩
    · simp only [hr, if_false] at hres
      split at hres
      · split at hres
        · cases hres
        · simp only [Option.some.injEq] at hres
          subst hres
          exact ⟨hanch _, fun h => absurd h hr⟩
      · simp only [Option.some.injEq] at hres
        subst hres
        exact ⟨hanch _, fun h => absurd h hr⟩
  · intro lib g ain
    unfold aspectTabProfile
    simp only
    by_cases hr : ain.reset = true
    · simp only [hr, if_true]
      exact ⟨⟨by simp [aspectReset], by simp [aspectReset]⟩, fun _ => rfl⟩
    · simp only [hr, if_false]
      refine ⟨?_, fun h => by simp at h⟩
      apply DoResizeAnchorInterface_range
      split
      · rw [DoFillColourInterface_CropAnchor]
        have : (aspectRatioInputs lib ain profile).CropAnchor = profile.CropAnchor := by
          unfold aspectRatioInputs
          simp only
          split <;> rfl
        simp only [this]
        exact ⟨hlo, hhi⟩
      · have : (aspectRatioInputs lib ain profile).CropAnchor = profile.CropAnchor := by
          unfold aspectRatioInputs
          simp only
          split <;> rfl
        simp only [this]
        exact ⟨hlo, hhi⟩
  · intro bits g bin c
    simp only [DoResizeCanvasRemoveBordersTab]
    split
    · rfl
    · exact DoFillColourInterface_CropAnchor _ _ _ _
  · intro hne
    refine ⟨by omega, ?_⟩
    have : longNames.length = 9 := rfl
    rw [this]
    omega

/-- Witness of C25: the middle anchor is selected and its own button is
pressed; the anchor becomes -1, the cursor position. -/
theorem C25_crop_anchor_in_range_witness :
    ((-1 : Int) ≤ exampleProfile.CropAnchor ∧ exampleProfile.CropAnchor ≤ 8) ∧
    (DoResizeAnchorInterface (AnchorInput.only 4) exampleProfile).CropAnchor
      = if exampleProfile.CropAnchor = 4 then -1 else 4 :=
  ⟨⟨by decide, by decide⟩,
    (C25_crop_anchor_in_range AnchorInput.idle exampleProfile (by decide) (by decide)).2.1 4
      (by decide) (by decide)⟩

end Viewer

namespace Viewer

/-! ## C22 -/

theorem wrapInt32_of_fits (x : Int) (h : fitsInt32 x) : wrapInt32 x = x := by
  unfold fitsInt32 at h
  unfold wrapInt32
  omega

/-- The truncating quotient of `c * d` by `s` lies between 0 and `d` when the
factor `c` is in `0..s-1`. -/
theorem tdiv_mul_bounds (c d s : Int) (hs : 0 < s) (hc0 : 0 ≤ c) (hcs : c < s) :
    (0 ≤ d → 0 ≤ Int.tdiv (c * d) s ∧ Int.tdiv (c * d) s ≤ d) ∧
    (d < 0 → d ≤ Int.tdiv (c * d) s ∧ Int.tdiv (c * d) s ≤ 0) := by
  have key : ∀ e : Int, 0 ≤ e → 0 ≤ Int.tdiv (c * e) s ∧ Int.tdiv (c * e) s ≤ e := by
    intro e he
    have hprod : 0 ≤ c * e := Int.mul_nonneg hc0 he
    rw [Int.tdiv_eq_ediv hprod (le_of_lt hs)]
    refine ⟨Int.ediv_nonneg hprod (le_of_lt hs), ?_⟩
    apply Int.ediv_le_of_le_mul hs
    nlinarith
  constructor
  · exact key d
  · intro hd
    have h := key (-d) (by omega)
    have hneg : c * d = -(c * -d) := by ring
    rw [hneg, Int.neg_tdiv]
    omega

/-- C22: the cursor-anchored crop origin. On a 50000 x 4 image cropped to
4 x 4 with the cursor on its last column, `DoResizeCrop` hands `Crop` the
origin -35904, outside 0..49996: the product `CursorX * (srcW - dstW)` does
not fit 32 bits. Whenever the differences and the products do fit, for a
source of at least 1 x 1 and a cursor inside it, the division is not by zero,
the origin is the truncated quotient, it lies in `0..srcW - dstW` when
`dstW ≤ srcW` and in `-(dstW - srcW)..0` when `dstW > srcW`, a cursor at 0
gives origin 0, and the same holds for Y. -/
theorem C22_cursor_origin_overflow :
    DoResizeCrop ⟨49999, 0, tColour4b.black, none⟩ { exampleProfile with CropAnchor := -1 }
        50000 4 4 4
      = some [Effect.Unbind, Effect.CropOrigin 4 4 (-35904) 0 tColour4b.black, Effect.Bind,
          Effect.SetWindowTitle, Effect.ZoomDownscaleOnly] ∧
    (∀ (g : Globals) (profile : ProfileData) (srcW srcH dstW dstH : Int),
      profile.CropAnchor = -1 → (dstW ≠ srcW ∨ dstH ≠ srcH) →
      0 < srcW → 0 < srcH →
      (0 ≤ g.CursorX ∧ g.CursorX < srcW) → (0 ≤ g.CursorY ∧ g.CursorY < srcH) →
      (fitsInt32 (srcW - dstW) ∧ fitsInt32 (g.CursorX * (srcW - dstW))) →
      (fitsInt32 (srcH - dstH) ∧ fitsInt32 (g.CursorY * (srcH - dstH))) →
      ∃ originX originY,
        DoResizeCrop g profile srcW srcH dstW dstH
          = some [Effect.Unbind, Effect.CropOrigin dstW dstH originX originY profile.FillColour,
              Effect.Bind, Effect.SetWindowTitle, Effect.ZoomDownscaleOnly] ∧
        (originX = Int.tdiv (g.CursorX * (srcW - dstW)) srcW ∧
          originY = Int.tdiv (g.CursorY * (srcH - dstH)) srcH) ∧
        ((dstW ≤ srcW → 0 ≤ originX ∧ originX ≤ srcW - dstW) ∧
          (dstW > srcW → -(dstW - srcW) ≤ originX ∧ originX ≤ 0) ∧
          (g.CursorX = 0 → originX = 0)) ∧
        ((dstH ≤ srcH → 0 ≤ originY ∧ originY ≤ srcH - dstH) ∧
          (dstH > srcH → -(dstH - srcH) ≤ originY ∧ originY ≤ 0) ∧
          (g.CursorY = 0 → originY = 0))) := by
  constructor
  · decide
  · intro g profile srcW srcH dstW dstH ha hd hW hH hX hY hfX hfY
    have hbX := tdiv_mul_bounds g.CursorX (srcW - dstW) srcW hW hX.1 hX.2
    have hbY := tdiv_mul_bounds g.CursorY (srcH - dstH) srcH hH hY.1 hY.2
    have hqX : fitsInt32 (Int.tdiv (g.CursorX * (srcW - dstW)) srcW) := by
      have h1 := hfX.1
      unfold fitsInt32 at h1 ⊢
      rcases le_or_lt 0 (srcW - dstW) with h | h
      · have := hbX.1 h
        omega
      · have := hbX.2 h
        omega
    have hqY : fitsInt32 (Int.tdiv (g.CursorY * (srcH - dstH)) srcH) := by
      have h1 := hfY.1
      unfold fitsInt32 at h1 ⊢
      rcases le_or_lt 0 (srcH - dstH) with h | h
      · have := hbY.1 h
        omega
      · have := hbY.2 h
        omega
    refine ⟨Int.tdiv (g.CursorX * (srcW - dstW)) srcW,
      Int.tdiv (g.CursorY * (srcH - dstH)) srcH, ?_, ⟨rfl, rfl⟩, ⟨?_, ?_, ?_⟩, ⟨?_, ?_, ?_⟩⟩
    · have hw : srcW ≠ 0 := by omega
      have hh : srcH ≠ 0 := by omega
      simp only [DoResizeCrop, hd, ha, hw, hh, if_true, or_self, if_false,
        wrapInt32_of_fits _ hfX.1, wrapInt32_of_fits _ hfX.2, wrapInt32_of_fits _ hfY.1,
        wrapInt32_of_fits _ hfY.2, wrapInt32_of_fits _ hqX, wrapInt32_of_fits _ hqY]
    · intro h
      exact hbX.1 (by omega)
    · intro h
      have := hbX.2 (by omega)
      omega
    · intro h
      rw [h]
      simp
    · intro h
      exact hbY.1 (by omega)
    · intro h
      have := hbY.2 (by omega)
      omega
    · intro h
      rw [h]
      simp

/-- Witness of C22: a 640 x 480 image cropped to 320 x 240 with the cursor on
pixel (639, 479); everything fits 32 bits. -/
theorem C22_cursor_origin_overflow_witness :
    (({ exampleProfile with CropAnchor := -1 } : ProfileData).CropAnchor = -1 ∧
      ((320 : Int) ≠ 640 ∨ (240 : Int) ≠ 480) ∧
      fitsInt32 (640 - 320) ∧ fitsInt32 (639 * (640 - 320)) ∧
      fitsInt32 (480 - 240) ∧ fitsInt32 (479 * (480 - 240))) ∧
    ∃ originX originY,
      DoResizeCrop ⟨639, 479, tColour4b.black, none⟩ { exampleProfile with CropAnchor := -1 }
          640 480 320 240
        = some [Effect.Unbind,
            Effect.CropOrigin 320 240 originX originY
              ({ exampleProfile with CropAnchor := -1 } : ProfileData).FillColour,
            Effect.Bind, Effect.SetWindowTitle, Effect.ZoomDownscaleOnly] ∧
      (originX = Int.tdiv (639 * (640 - 320)) 640 ∧
        originY = Int.tdiv (479 * (480 - 240)) 480) ∧
      (((320 : Int) ≤ 640 → 0 ≤ originX ∧ originX ≤ 640 - 320) ∧
        ((320 : Int) > 640 → -(320 - 640) ≤ originX ∧ originX ≤ 0) ∧
        ((639 : Int) = 0 → originX = 0)) ∧
      (((240 : Int) ≤ 480 → 0 ≤ originY ∧ originY ≤ 480 - 240) ∧
        ((240 : Int) > 480 → -(240 - 480) ≤ originY ∧ originY ≤ 0) ∧
        ((479 : Int) = 0 → originY = 0)) :=
  ⟨⟨rfl, Or.inl (by decide), by unfold fitsInt32; decide, by unfold fitsInt32; decide,
      by unfold fitsInt32; decide, by unfold fitsInt32; decide⟩,
    C22_cursor_origin_overflow.2 ⟨639, 479, tColour4b.black, none⟩
      { exampleProfile with CropAnchor := -1 } 640 480 320 240 rfl (Or.inl (by decide))
      (by decide) (by decide) ⟨by decide, by decide⟩ ⟨by decide, by decide⟩
      ⟨by unfold fitsInt32; decide, by unfold fitsInt32; decide⟩
      ⟨by unfold fitsInt32; decide, by unfold fitsInt32; decide⟩⟩

end Viewer

namespace Viewer

/-! ## C23 -/

/-- A conversion within 1 of its argument sends a value of at least 1 to at
least 1. -/
theorem near_pos_of_one_le (f : ℚ → Int) (hf : ∀ x : ℚ, 0 ≤ x → |((f x : Int) : ℚ) - x| < 1)
    (x : ℚ) (hx : 1 ≤ x) : 1 ≤ f x := by
  have h1 := (abs_lt.mp (hf x (by linarith))).1
  have h2 : ((0 : Int) : ℚ) < ((f x : Int) : ℚ) := by
    push_cast
    linarith
  have h3 : 0 < f x := by exact_mod_cast h2
  omega

/-- A conversion within 1 of its argument sends a value above 0 to at least
0. -/
theorem near_nonneg (f : ℚ → Int) (hf : ∀ x : ℚ, 0 ≤ x → |((f x : Int) : ℚ) - x| < 1)
    (x : ℚ) (hx : 0 ≤ x) : 0 ≤ f x := by
  have h1 := (abs_lt.mp (hf x hx)).1
  have h2 : ((-1 : Int) : ℚ) < ((f x : Int) : ℚ) := by
    push_cast
    linarith
  have h3 : -1 < f x := by exact_mod_cast h2
  omega

/-- In Letterbox mode neither dimension goes below the source's. -/
theorem aspectDims_letterbox_ge (f : ℚ → Int)
    (hf : ∀ x : ℚ, 0 ≤ x → |((f x : Int) : ℚ) - x| < 1)
    (mode : Int) (hmode : mode ≠ 0) (srcW srcH : Int) (hW : 1 ≤ srcW) (hH : 1 ≤ srcH)
    (r : ℚ) (hr : 0 < r) :
    srcW ≤ (aspectDims f mode srcW srcH r).1 ∧ srcH ≤ (aspectDims f mode srcW srcH r).2 := by
  by_cases h1 : r > (srcW : ℚ) / (srcH : ℚ)
  · obtain ⟨h0, hgt⟩ := height_mul_gt srcW srcH hW hH r h1
    rw [aspectDims_letterbox_wider f mode hmode srcW srcH r h1]
    exact ⟨near_ge_of_gt f hf _ h0 _ hgt, le_refl _⟩
  · by_cases h2 : r < (srcW : ℚ) / (srcH : ℚ)
    · obtain ⟨h0, hgt⟩ := width_div_gt srcW srcH hW hH r hr h2
      rw [aspectDims_letterbox_narrower f mode hmode srcW srcH r h2]
      exact ⟨le_refl _, near_ge_of_gt f hf _ h0 _ hgt⟩
    · rw [aspectDims_match f mode srcW srcH r h1 h2]
      exact ⟨le_refl _, le_refl _⟩

/-- Counterexample to C23: a 1 x 1 source and the user ratio 99:1 in Crop
mode. The height computed is 0 with the truncating and with the rounding
conversion, and the Aspect tab asks `Crop` for a 1 x 0 image. -/
theorem C23_aspect_crop_asks_for_empty_image :
    aspectDims tFloatToIntTrunc 0 1 1 (((99 : Int) : ℚ) / ((1 : Int) : ℚ)) = (1, 0) ∧
    aspectDims tFloatToIntRound 0 1 1 (((99 : Int) : ℚ) / ((1 : Int) : ℚ)) = (1, 0) ∧
    ¬ (1 ≤ (aspectDims tFloatToIntRound 0 1 1 (((99 : Int) : ℚ) / ((1 : Int) : ℚ))).2) ∧
    DoResizeCanvasAspectTab exampleLib exampleGlobals
        { AspectTabInput.idle with resize := true } 1 1
        { exampleProfile with ResizeAspectUserNum := 99, ResizeAspectUserDen := 1 }
      = some ({ exampleProfile with ResizeAspectUserNum := 99, ResizeAspectUserDen := 1 },
          [Effect.Unbind, Effect.CropAnchored 1 0 4 tColour4b.black, Effect.Bind,
            Effect.SetWindowTitle, Effect.ZoomDownscaleOnly, Effect.CloseCurrentPopup]) := by
  have hwider : (((99 : Int) : ℚ) / ((1 : Int) : ℚ)) > ((1 : Int) : ℚ) / ((1 : Int) : ℚ) := by
    norm_num
  have ht : tFloatToIntTrunc (((1 : Int) : ℚ) / (((99 : Int) : ℚ) / ((1 : Int) : ℚ))) = 0 := by
    rw [tFloatToIntTrunc, floatToInt_eq_floor _ (by norm_num), Int.floor_eq_iff]
    norm_num
  have hr : tFloatToIntRound (((1 : Int) : ℚ) / (((99 : Int) : ℚ) / ((1 : Int) : ℚ))) = 0 := by
    rw [tFloatToIntRound, floatToInt_eq_floor _ (by norm_num), Int.floor_eq_iff]
    norm_num
  have h1 : aspectDims tFloatToIntTrunc 0 1 1 (((99 : Int) : ℚ) / ((1 : Int) : ℚ)) = (1, 0) := by
    rw [aspectDims_crop_wider _ _ _ _ hwider, ht]
  have h2 : aspectDims tFloatToIntRound 0 1 1 (((99 : Int) : ℚ) / ((1 : Int) : ℚ)) = (1, 0) := by
    rw [aspectDims_crop_wider _ _ _ _ hwider, hr]
  refine ⟨h1, h2, ?_, ?_⟩
  · rw [h2]
    decide
  · have hp : aspectTabProfile exampleLib exampleGlobals
        { AspectTabInput.idle with resize := true }
        { exampleProfile with ResizeAspectUserNum := 99, ResizeAspectUserDen := 1 }
        = { exampleProfile with ResizeAspectUserNum := 99, ResizeAspectUserDen := 1 } := by
      decide
    unfold DoResizeCanvasAspectTab
    simp only [hp]
    have hlib : exampleLib.GetResizeAspectRatioFloat
        { exampleProfile with ResizeAspectUserNum := 99, ResizeAspectUserDen := 1 }
        = ((99 : Int) : ℚ) / ((1 : Int) : ℚ) := rfl
    have hmode : ({ exampleProfile with ResizeAspectUserNum := 99, ResizeAspectUserDen := 1 }
        : ProfileData).ResizeAspectMode = 0 := rfl
    have hf : exampleLib.tFloatToInt = tFloatToIntRound := rfl
    rw [hlib, hmode, hf, h2]
    decide

/-- C23, amended: for every source of at least 1 x 1, every user ratio with
Num and Den in 1..99 and a `tFloatToInt` within 1 of its argument: in
Letterbox mode the width and height passed to `DoResizeCrop` are both at
least 1; in Crop mode both are at least 0, the dimension that is kept is at
least 1, and the recomputed one is at least 1 whenever its exact value,
`srcW / ratio` or `srcH * ratio`, is at least 1. -/
theorem C23_aspect_dims_amended (f : ℚ → Int)
    (hf : ∀ x : ℚ, 0 ≤ x → |((f x : Int) : ℚ) - x| < 1)
    (srcW srcH : Int) (hW : 1 ≤ srcW) (hH : 1 ≤ srcH) (Num Den : Int)
    (hNum : 1 ≤ Num ∧ Num ≤ 99) (hDen : 1 ≤ Den ∧ Den ≤ 99) :
    (∀ mode : Int, mode ≠ 0 →
      1 ≤ (aspectDims f mode srcW srcH ((Num : ℚ) / (Den : ℚ))).1 ∧
      1 ≤ (aspectDims f mode srcW srcH ((Num : ℚ) / (Den : ℚ))).2) ∧
    (0 ≤ (aspectDims f 0 srcW srcH ((Num : ℚ) / (Den : ℚ))).1 ∧
      0 ≤ (aspectDims f 0 srcW srcH ((Num : ℚ) / (Den : ℚ))).2) ∧
    (1 ≤ (aspectDims f 0 srcW srcH ((Num : ℚ) / (Den : ℚ))).1 ∨
      1 ≤ (aspectDims f 0 srcW srcH ((Num : ℚ) / (Den : ℚ))).2) ∧
    ((Num : ℚ) / (Den : ℚ) > (srcW : ℚ) / (srcH : ℚ) →
      (aspectDims f 0 srcW srcH ((Num : ℚ) / (Den : ℚ))).1 = srcW ∧
      (1 ≤ (srcW : ℚ) / ((Num : ℚ) / (Den : ℚ)) →
        1 ≤ (aspectDims f 0 srcW srcH ((Num : ℚ) / (Den : ℚ))).2)) ∧
    ((Num : ℚ) / (Den : ℚ) < (srcW : ℚ) / (srcH : ℚ) →
      (aspectDims f 0 srcW srcH ((Num : ℚ) / (Den : ℚ))).2 = srcH ∧
      (1 ≤ (srcH : ℚ) * ((Num : ℚ) / (Den : ℚ)) →
        1 ≤ (aspectDims f 0 srcW srcH ((Num : ℚ) / (Den : ℚ))).1)) ∧
    ((Num : ℚ) / (Den : ℚ) = (srcW : ℚ) / (srcH : ℚ) →
      aspectDims f 0 srcW srcH ((Num : ℚ) / (Den : ℚ)) = (srcW, srcH)) := by
  have hr : (0 : ℚ) < (Num : ℚ) / (Den : ℚ) := by
    have h1 : (0 : ℚ) < (Num : ℚ) := by exact_mod_cast (by omega : 0 < Num)
    have h2 : (0 : ℚ) < (Den : ℚ) := by exact_mod_cast (by omega : 0 < Den)
    exact div_pos h1 h2
  generalize (Num : ℚ) / (Den : ℚ) = r at hr ⊢
  obtain ⟨hw0, hh0, _⟩ := srcAspect_pos srcW srcH hW hH
  have hdiv : (0 : ℚ) ≤ (srcW : ℚ) / r := le_of_lt (div_pos hw0 hr)
  have hmul : (0 : ℚ) ≤ (srcH : ℚ) * r := le_of_lt (mul_pos hh0 hr)
  refine ⟨?_, ?_, ?_, ?_, ?_, ?_⟩
  · intro mode hmode
    have h7 := aspectDims_letterbox_ge f hf mode hmode srcW srcH hW hH r hr
    exact ⟨by omega, by omega⟩
  · by_cases h1 : r > (srcW : ℚ) / (srcH : ℚ)
    · rw [aspectDims_crop_wider f srcW srcH r h1]
      exact ⟨by show 0 ≤ srcW; omega, near_nonneg f hf _ hdiv⟩
    · by_cases h2 : r < (srcW : ℚ) / (srcH : ℚ)
      · rw [aspectDims_crop_narrower f srcW srcH r h2]
        exact ⟨near_nonneg f hf _ hmul, by show 0 ≤ srcH; omega⟩
      · rw [aspectDims_match f 0 srcW srcH r h1 h2]
        exact ⟨by show 0 ≤ srcW; omega, by show 0 ≤ srcH; omega⟩
  · by_cases h1 : r > (srcW : ℚ) / (srcH : ℚ)
    · rw [aspectDims_crop_wider f srcW srcH r h1]
      exact Or.inl hW
    · by_cases h2 : r < (srcW : ℚ) / (srcH : ℚ)
      · rw [aspectDims_crop_narrower f srcW srcH r h2]
        exact Or.inr hH
      · rw [aspectDims_match f 0 srcW srcH r h1 h2]
        exact Or.inl hW
  · intro h1
    rw [aspectDims_crop_wider f srcW srcH r h1]
    exact ⟨rfl, fun hx => near_pos_of_one_le f hf _ hx⟩
  · intro h2
    rw [aspectDims_crop_narrower f srcW srcH r h2]
    exact ⟨rfl, fun hx => near_pos_of_one_le f hf _ hx⟩
  · intro heq
    exact aspectDims_match f 0 srcW srcH r (by rw [heq]; exact lt_irrefl _)
      (by rw [heq]; exact lt_irrefl _)


/-- Witness of C23, amended: a 100 x 100 source and the ratio 16:9 with the
rounding conversion. -/
theorem C23_aspect_dims_amended_witness :
    ((1 : Int) ≤ 100 ∧ ((1 : Int) ≤ 16 ∧ (16 : Int) ≤ 99) ∧ ((1 : Int) ≤ 9 ∧ (9 : Int) ≤ 99)) ∧
    (0 ≤ (aspectDims tFloatToIntRound 0 100 100 (((16 : Int) : ℚ) / ((9 : Int) : ℚ))).1 ∧
      0 ≤ (aspectDims tFloatToIntRound 0 100 100 (((16 : Int) : ℚ) / ((9 : Int) : ℚ))).2) :=
  ⟨⟨by decide, ⟨by decide, by decide⟩, ⟨by decide, by decide⟩⟩,
    (C23_aspect_dims_amended tFloatToIntRound tFloatToIntRound_near 100 100 (by decide)
      (by decide) 16 9 ⟨by decide, by decide⟩ ⟨by decide, by decide⟩).2.1⟩

end Viewer
